import Mathlib

/-!
# Stock dashboard: the data-refresh and view-synchronisation engine of `script.js`

A shallow embedding of `src/script.js`.

* JavaScript numbers are IEEE-754 doubles.  A finite double is represented by its exact
  rational value, and every arithmetic operation of the source is followed by `fl`, the
  round-to-nearest, ties-to-even rounding to a 53-bit significand.  The modelled computations
  stay far inside the normal range, so no infinity, NaN or subnormal arises in them.
* The result of `x.toFixed(2)` is represented by its number of hundredths (`"124.77"` is
  `12477`); `parseFloat` of such a string is the double nearest to hundredths / 100.
* `Math.random()` is a stream of draws `rand : ℕ → ℚ`, `rand k` being the value returned by
  the `k`-th call made by the function under consideration.
* Functions of the host whose result depends on the locale (`toLowerCase`, `localeCompare`,
  `toLocaleString`) are fields of `Host`.
* A `Date` is its time value, the milliseconds since the epoch in UTC; the time zone of the
  host is ECMAScript's `LocalTZA`, the two fields of `TimeZone`.
* The shared top-level variables and the DOM regions the views write to form `Dashboard`;
  handlers are functions `Dashboard → Dashboard`.
-/

namespace StockDashboard

/-! ## JavaScript numbers -/

/-- The binary exponent of a positive rational `a`: the integer `e` with `2 ^ e ≤ a < 2 ^ (e + 1)`. -/
def binExp (a : ℚ) : ℤ :=
  let e0 : ℤ := (Nat.log2 a.num.natAbs : ℤ) - (Nat.log2 a.den : ℤ)
  if a < (2 : ℚ) ^ e0 then e0 - 1 else e0

/-- Rounding to the nearest integer, a tie going to the even neighbour. -/
def roundHalfEven (x : ℚ) : ℤ :=
  if x - ⌊x⌋ < 1 / 2 then ⌊x⌋
  else if 1 / 2 < x - ⌊x⌋ then ⌊x⌋ + 1
  else if ⌊x⌋ % 2 = 0 then ⌊x⌋ else ⌊x⌋ + 1

/-- The spacing of the doubles in the binade of `x` (53-bit significand). -/
def ulp (x : ℚ) : ℚ := (2 : ℚ) ^ (binExp |x| - 52)

/-- IEEE-754 binary64 rounding (round to nearest, ties to even) of a real result. -/
def fl (x : ℚ) : ℚ :=
  if x = 0 then 0 else (roundHalfEven (x / ulp x) : ℚ) * ulp x

/-- The number of hundredths `n` of `x.toFixed(2)`: the integer for which `n / 100 - |x|` is
closest to zero, the larger one on a tie, with the sign of `x`. -/
def toFixed2 (x : ℚ) : ℤ :=
  if x < 0 then -⌊-x * 100 + 1 / 2⌋ else ⌊x * 100 + 1 / 2⌋

/-- The value of `parseFloat` on a 2-decimal string with `c` hundredths. -/
def parseFloat (c : ℤ) : ℚ := fl ((c : ℚ) / 100)

/-- The text of a 2-decimal string with `c` hundredths, as interpolated into the views. -/
def fixedText (c : ℤ) : String :=
  (if c < 0 then "-" else "") ++ toString (c.natAbs / 100) ++ "." ++
    toString (c.natAbs % 100 / 10) ++ toString (c.natAbs % 10)

/-! ## Host functions -/

/-- The locale-dependent functions of the JavaScript host. -/
structure Host where
  /-- Models `String.prototype.toLowerCase`. -/
  toLowerCase : String → String
  /-- Models `String.prototype.localeCompare`: negative, zero or positive. -/
  localeCompare : String → String → ℚ
  /-- Models `Number.prototype.toLocaleString` on an integer. -/
  toLocaleString : ℤ → String

/-- Groups the decimal digits `ds` (most significant first) in threes with commas. -/
def groupDigits (ds : List Char) : List Char :=
  (ds.reverse.enum.foldl
    (fun acc p => if p.1 ≠ 0 ∧ p.1 % 3 = 0 then p.2 :: Char.ofNat 44 :: acc else p.2 :: acc) [])

/-- A host with ASCII lower-casing, code-point string ordering and en-US digit grouping. -/
def asciiHost : Host where
  toLowerCase := fun s => String.mk (s.data.map Char.toLower)
  localeCompare := fun a b => if a < b then -1 else if a = b then 0 else 1
  toLocaleString := fun n =>
    (if n < 0 then "-" else "") ++ String.mk (groupDigits (Nat.toDigits 10 n.natAbs))

/-- Models `String.prototype.includes`: `q` occurs in `s` as a contiguous substring. -/
def includes (s q : String) : Bool :=
  s.data.tails.any (fun t => q.data.isPrefixOf t)

/-- Models `volume.replace(/,/g, '')`: every comma removed. -/
def removeCommas (s : String) : String :=
  String.mk (s.data.filter (fun c => c != Char.ofNat 44))

/-- The white space `parseInt` skips at the start of its argument. -/
def isStrWhiteSpace (c : Char) : Bool :=
  c.toNat ∈ [9, 10, 11, 12, 13, 32, 160, 5760, 8232, 8233, 8239, 8287, 12288, 65279] ||
    (8192 ≤ c.toNat && c.toNat ≤ 8202)

/-- The value of a character as a digit of the given radix, if it is one. -/
def digitValue (radix : ℕ) (c : Char) : Option ℕ :=
  let v : Option ℕ :=
    if 48 ≤ c.toNat ∧ c.toNat ≤ 57 then some (c.toNat - 48)
    else if 97 ≤ c.toNat ∧ c.toNat ≤ 122 then some (c.toNat - 87)
    else if 65 ≤ c.toNat ∧ c.toNat ≤ 90 then some (c.toNat - 55)
    else none
  v.filter (fun d => d < radix)

/-- The mathematical integer `parseInt(s)` reads, with no radix argument; `none` is NaN.
Leading white space and a sign are skipped, a `0x` start selects radix 16, and the longest
run of digits is converted. -/
def parseIntExact (s : String) : Option ℤ :=
  let cs := s.data.dropWhile isStrWhiteSpace
  let signed : ℤ × List Char :=
    match cs with
    | c :: t => if c.toNat = 45 then (-1, t) else if c.toNat = 43 then (1, t) else (1, cs)
    | [] => (1, cs)
  let based : ℕ × List Char :=
    match signed.2 with
    | c :: d :: t =>
      if c.toNat = 48 ∧ (d.toNat = 120 ∨ d.toNat = 88) then (16, t) else (10, signed.2)
    | _ => (10, signed.2)
  let ds := (based.2.takeWhile (fun c => (digitValue based.1 c).isSome)).filterMap
    (digitValue based.1)
  if ds = [] then none
  else some (signed.1 * (ds.foldl (fun acc d => acc * based.1 + d) 0 : ℕ))

/-- Models `parseInt(s)`: the double nearest to the integer read; `none` is NaN. -/
def parseInt (s : String) : Option ℚ :=
  match parseIntExact s with
  | some n => some (fl (n : ℚ))
  | none => none

/-- Models `Array.prototype.indexOf`: the first position holding `x`, or `-1`. -/
def indexOf (l : List String) (x : String) : ℤ :=
  if x ∈ l then (l.indexOf x : ℤ) else -1

/-- The placement test of `Array.prototype.sort`: a NaN comparator result counts as `+0`. -/
def sortsBefore {α : Type} (cmp : α → α → Option ℚ) (a b : α) : Bool :=
  match cmp a b with
  | some v => decide (v ≤ 0)
  | none => true

/-- Stable insertion of `a` into `l`. -/
def sortInsert {α : Type} (cmp : α → α → Option ℚ) (a : α) : List α → List α
  | [] => [a]
  | b :: l => if sortsBefore cmp a b then a :: b :: l else b :: sortInsert cmp a l

/-- Models `Array.prototype.sort(cmp)`.  ECMAScript fixes the result for a consistent comparator:
the stable arrangement in comparator order, which stable insertion computes. -/
def arraySort {α : Type} (cmp : α → α → Option ℚ) (l : List α) : List α :=
  l.foldr (sortInsert cmp) []

/-- The JSON escape of one character of a string (`QuoteJSONString`). -/
def quoteJSONChar (c : Char) : List Char :=
  if c.toNat = 34 then [Char.ofNat 92, Char.ofNat 34]
  else if c.toNat = 92 then [Char.ofNat 92, Char.ofNat 92]
  else if c.toNat = 8 then [Char.ofNat 92, Char.ofNat 98]
  else if c.toNat = 12 then [Char.ofNat 92, Char.ofNat 102]
  else if c.toNat = 10 then [Char.ofNat 92, Char.ofNat 110]
  else if c.toNat = 13 then [Char.ofNat 92, Char.ofNat 114]
  else if c.toNat = 9 then [Char.ofNat 92, Char.ofNat 116]
  else if c.toNat < 32 then
    [Char.ofNat 92, Char.ofNat 117, Char.ofNat 48, Char.ofNat 48,
      Nat.digitChar (c.toNat / 16), Nat.digitChar (c.toNat % 16)]
  else [c]

/-- The JSON text of a string. -/
def quoteJSONString (s : String) : List Char :=
  Char.ofNat 34 :: (s.data.flatMap quoteJSONChar ++ [Char.ofNat 34])

/-- Models `JSON.stringify` on an array of strings. -/
def jsonStringify (l : List String) : String :=
  String.mk (Char.ofNat 91 ::
    ((l.map quoteJSONString).intersperse [Char.ofNat 44]).flatten ++ [Char.ofNat 93])

/-- The character a single-letter JSON escape stands for. -/
def jsonUnescape (e : Char) : Option Char :=
  if e.toNat = 34 then some (Char.ofNat 34)
  else if e.toNat = 92 then some (Char.ofNat 92)
  else if e.toNat = 47 then some (Char.ofNat 47)
  else if e.toNat = 98 then some (Char.ofNat 8)
  else if e.toNat = 102 then some (Char.ofNat 12)
  else if e.toNat = 110 then some (Char.ofNat 10)
  else if e.toNat = 114 then some (Char.ofNat 13)
  else if e.toNat = 116 then some (Char.ofNat 9)
  else none

/-- Reads the body of a JSON string up to its closing quote: the characters it denotes and
the text after the quote.  An escape of a surrogate code unit is not read. -/
def parseStringBody : List Char → Option (List Char × List Char)
  | [] => none
  | c :: rest =>
    if c.toNat = 34 then some ([], rest)
    else if c.toNat = 92 then
      match rest with
      | [] => none
      | e :: rest1 =>
        if e.toNat = 117 then
          match rest1 with
          | a :: b :: c2 :: d :: rest2 =>
            match digitValue 16 a, digitValue 16 b, digitValue 16 c2, digitValue 16 d with
            | some x, some y, some z, some w =>
              if 55296 ≤ ((x * 16 + y) * 16 + z) * 16 + w ∧
                  ((x * 16 + y) * 16 + z) * 16 + w ≤ 57343 then none
              else
                (parseStringBody rest2).map fun p =>
                  (Char.ofNat (((x * 16 + y) * 16 + z) * 16 + w) :: p.1, p.2)
            | _, _, _, _ => none
          | _ => none
        else
          match jsonUnescape e with
          | some ch => (parseStringBody rest1).map fun p => (ch :: p.1, p.2)
          | none => none
    else if c.toNat < 32 then none
    else (parseStringBody rest).map fun p => (c :: p.1, p.2)

/-- Reads the elements of a JSON array of strings after its opening bracket, at most `fuel`
of them. -/
def parseElements : ℕ → List Char → Option (List String)
  | 0, _ => none
  | fuel + 1, cs =>
    match cs with
    | [] => none
    | q :: body =>
      if q.toNat = 34 then
        match parseStringBody body with
        | some (s, sep :: rest) =>
          if sep.toNat = 44 then (parseElements fuel rest).map fun l => String.mk s :: l
          else if sep.toNat = 93 ∧ rest = [] then some [String.mk s]
          else none
        | _ => none
      else none

/-- Models `JSON.parse` on the texts the script itself stores: a JSON array of strings without
white space.  `none` stands for every other outcome. -/
def jsonParseStrings (text : String) : Option (List String) :=
  match text.data with
  | [] => none
  | o :: cs =>
    if o.toNat = 91 then
      if cs = [Char.ofNat 93] then some [] else parseElements cs.length cs
    else none

/-- Models the initialisation `JSON.parse(localStorage.getItem('watchlist')) || []` for a
missing entry and for an entry the script itself stored; `none` stands for every other
outcome. -/
def loadWatchlist (stored : Option String) : Option (List String) :=
  match stored with
  | none => some []
  | some text => jsonParseStrings text

/-! ## Configuration and constants -/

/-- A symbol descriptor: an entry of `STOCKS`. -/
structure Stock where
  symbol : String
  name : String
  sector : String
deriving DecidableEq

/-- The tracked symbols. -/
def STOCKS : List Stock :=
  [⟨"AAPL", "Apple Inc.", "Technology"⟩,
   ⟨"GOOGL", "Alphabet Inc.", "Technology"⟩,
   ⟨"MSFT", "Microsoft Corporation", "Technology"⟩,
   ⟨"TSLA", "Tesla Inc.", "Automotive"⟩,
   ⟨"AMZN", "Amazon.com Inc.", "E-commerce"⟩,
   ⟨"NVDA", "NVIDIA Corporation", "Technology"⟩,
   ⟨"META", "Meta Platforms Inc.", "Technology"⟩]

/-- A quote record.  The fields written with `toFixed(2)` hold their number of hundredths;
`volume` and `marketCap` are display strings; `open_` is the field `open`.  Records whose
numeric fields are the string `"NaN"` (a provider quote with a non-numeric field) are outside
this model. -/
structure Quote where
  symbol : String
  name : String
  sector : String
  price : ℤ
  change : ℤ
  changePercent : ℤ
  open_ : ℤ
  high : ℤ
  low : ℤ
  volume : String
  marketCap : String
  previousClose : ℤ
deriving DecidableEq

/-! ## Mock data generator -/

/-- The table `prices` of `getBasePrice`; each decimal literal denotes the nearest double. -/
def prices : List (String × ℚ) :=
  [("AAPL", fl (18550 / 100)), ("GOOGL", fl (14180 / 100)), ("MSFT", fl (37890 / 100)),
   ("TSLA", fl (24850 / 100)), ("AMZN", fl (17825 / 100)), ("NVDA", fl (49580 / 100)),
   ("META", fl (50575 / 100))]

/-- The property names every object literal inherits from `Object.prototype`.  A lookup of one
of them in a table finds the inherited member instead of the default; the symbols the
dashboard passes around are never among them. -/
def objectPrototypeNames : List String :=
  ["constructor", "__defineGetter__", "__defineSetter__", "hasOwnProperty", "__lookupGetter__",
   "__lookupSetter__", "isPrototypeOf", "propertyIsEnumerable", "toString", "valueOf",
   "__proto__", "toLocaleString"]

/-- Models `getBasePrice(symbol)`, that is `prices[symbol] || 100`, for a symbol that is not in
`objectPrototypeNames`. -/
def getBasePrice (symbol : String) : ℚ :=
  match prices.lookup symbol with
  | some p => if p = 0 then 100 else p
  | none => 100

/-- The table `caps` of `getMarketCap`. -/
def caps : List (String × String) :=
  [("AAPL", "2.89T"), ("GOOGL", "1.78T"), ("MSFT", "2.81T"), ("TSLA", "789B"),
   ("AMZN", "1.85T"), ("NVDA", "1.22T"), ("META", "1.29T")]

/-- Models `getMarketCap(symbol)`, that is `caps[symbol] || '--'`, for a symbol that is not in
`objectPrototypeNames`. -/
def getMarketCap (symbol : String) : String :=
  match caps.lookup symbol with
  | some c => if c = "" then "--" else c
  | none => "--"

/-- The record `generateMockStockData` builds for one entry of `STOCKS`, from the five draws of
`Math.random()` its callback makes, in order: change, open, high, low, volume. -/
def mockQuote (h : Host) (stock : Stock) (r1 r2 r3 r4 r5 : ℚ) : Quote :=
  let basePrice := getBasePrice stock.symbol
  let change := fl (fl (r1 - 1 / 2) * 10)
  let percentChange := fl (fl (change / basePrice) * 100)
  { symbol := stock.symbol
    name := stock.name
    sector := stock.sector
    price := toFixed2 (fl (basePrice + change))
    change := toFixed2 change
    changePercent := toFixed2 percentChange
    open_ := toFixed2 (fl (fl (basePrice + change) - fl (r2 * 2)))
    high := toFixed2 (fl (fl (basePrice + change) + fl (r3 * 3)))
    low := toFixed2 (fl (fl (basePrice + change) - fl (r4 * 3)))
    volume := h.toLocaleString ⌊fl (fl (r5 * 10000000) + 1000000)⌋
    marketCap := getMarketCap stock.symbol
    previousClose := toFixed2 basePrice }

/-- Models `generateMockStockData()`: `STOCKS.map` of the callback, the `i`-th entry consuming
the draws `5 i, …, 5 i + 4`. -/
def generateMockStockData (h : Host) (rand : ℕ → ℚ) : List Quote :=
  STOCKS.enum.map fun p =>
    mockQuote h p.2 (rand (5 * p.1)) (rand (5 * p.1 + 1)) (rand (5 * p.1 + 2))
      (rand (5 * p.1 + 3)) (rand (5 * p.1 + 4))

/-- The milliseconds of a day, ECMAScript's `msPerDay`. -/
def msPerDay : ℤ := 86400000

/-- The time zone of the host: ECMAScript's `LocalTZA`, in milliseconds. -/
structure TimeZone where
  /-- `LocalTZA(t, true)`: the offset of local time from UTC in force at the UTC time value
  `t`. -/
  offsetAtUTC : ℤ → ℤ
  /-- `LocalTZA(t, false)`: the offset with which the local time value `t` is read; a local
  time that a transition skips or repeats is read with the offset before the transition. -/
  offsetAtLocal : ℤ → ℤ

/-- ECMAScript's `Day(t)`, the day number of a time value: the floor of `t / msPerDay`. -/
def Day (t : ℤ) : ℤ := t / msPerDay

/-- ECMAScript's `TimeWithinDay(t)`: `t` modulo `msPerDay`. -/
def TimeWithinDay (t : ℤ) : ℤ := t % msPerDay

/-- ECMAScript's `MakeDate(day, time)`. -/
def MakeDate (day time : ℤ) : ℤ := day * msPerDay + time

/-- ECMAScript's `LocalTime(t)`: the local time value of the UTC time value `t`. -/
def LocalTime (tz : TimeZone) (t : ℤ) : ℤ := t + tz.offsetAtUTC t

/-- ECMAScript's `UTC(t)`: the UTC time value of the local time value `t`. -/
def UTC (tz : TimeZone) (t : ℤ) : ℤ := t - tz.offsetAtLocal t

/-- Models `date.setDate(date.getDate() - i)` on a date of time value `tv`; the result is the
new time value.  With `t` the local time of `tv`, `setDate(dt)` stores
`UTC(MakeDate(MakeDay(YearFromTime(t), MonthFromTime(t), dt), TimeWithinDay(t)))`, where
`MakeDay` is the day number of the first of the month of `t` plus `dt - 1`; `getDate()` is
`DateFromTime(t)`, the day number of `t` minus that of the first of its month plus one; so for
`dt = getDate() - i` the day `MakeDay` returns is `Day(t) - i`.  `TimeClip` leaves the time
values of the modelled range as they are. -/
def setDateBack (tz : TimeZone) (tv : ℤ) (i : ℕ) : ℤ :=
  let t := LocalTime tz tv
  UTC tz (MakeDate (Day t - (i : ℤ)) (TimeWithinDay t))

/-- The decimal digits of `n`, padded with zeros on the left to at least `width` digits. -/
def padDigits (width n : ℕ) : String :=
  String.mk (List.replicate (width - (Nat.toDigits 10 n).length) (Char.ofNat 48) ++
    Nat.toDigits 10 n)

/-- The year, month and day of the month of the day number `d` in the proleptic Gregorian
calendar (ECMAScript's `YearFromTime`, `MonthFromTime` + 1 and `DateFromTime`), computed by
eras of 400 years that start on a first of March. -/
def civilDate (d : ℤ) : ℤ × ℤ × ℤ :=
  let z := d + 719468
  let era := z / 146097
  let doe := z % 146097
  let yoe := (doe - doe / 1460 + doe / 36524 - doe / 146096) / 365
  let doy := doe - (365 * yoe + yoe / 4 - yoe / 100)
  let mp := (5 * doy + 2) / 153
  let day := doy - (153 * mp + 2) / 5 + 1
  let month := if mp < 10 then mp + 3 else mp - 9
  let year := yoe + era * 400 + (if month ≤ 2 then 1 else 0)
  (year, month, day)

/-- Models `date.toISOString().split('T')[0]` for a date whose time value lies in the day
number `d`: the UTC calendar date as `YYYY-MM-DD`, the year having six digits and a sign
outside the years 0 to 9999. -/
def isoDate (d : ℤ) : String :=
  let c := civilDate d
  let year :=
    if 0 ≤ c.1 ∧ c.1 ≤ 9999 then padDigits 4 c.1.toNat
    else (if c.1 < 0 then "-" else "+") ++ padDigits 6 c.1.natAbs
  year ++ "-" ++ padDigits 2 c.2.1.toNat ++ "-" ++ padDigits 2 c.2.2.toNat

/-- A point of a historical series.  `date` is the day number `Day(tv)` of the time value `tv`
of the point's date, the day whose UTC calendar date `toISOString().split('T')[0]` spells
(`isoDate` gives the text); `price` is the number of hundredths of the `toFixed(2)` string,
`volume` the floored number. -/
structure HistoryPoint where
  date : ℤ
  price : ℤ
  volume : ℤ
deriving DecidableEq

/-- One step of the walk of `generateHistoricalData`:
`Math.max(currentPrice + (Math.random() - 0.48) * (basePrice * 0.03), basePrice * 0.7)`. -/
def nextPrice (basePrice r currentPrice : ℚ) : ℚ :=
  max (fl (currentPrice + fl (fl (r - fl (48 / 100)) * fl (basePrice * fl (3 / 100)))))
    (fl (basePrice * fl (7 / 10)))

/-- The body of the loop `for (let i = days; i >= 0; i--)`: iteration `i` draws `rand k` for the
change and `rand (k + 1)` for the volume, and pushes the point whose date is `now` moved back
by `i` days of the local calendar and then spelled in UTC. -/
def historyLoop (basePrice : ℚ) (tz : TimeZone) (now : ℤ) (rand : ℕ → ℚ) :
    ℕ → ℕ → ℚ → List HistoryPoint
  | 0, k, currentPrice =>
    [{ date := Day (setDateBack tz now 0)
       price := toFixed2 (nextPrice basePrice (rand k) currentPrice)
       volume := ⌊fl (fl (rand (k + 1) * 50000000) + 10000000)⌋ }]
  | i + 1, k, currentPrice =>
    { date := Day (setDateBack tz now (i + 1))
      price := toFixed2 (nextPrice basePrice (rand k) currentPrice)
      volume := ⌊fl (fl (rand (k + 1) * 50000000) + 10000000)⌋ } ::
      historyLoop basePrice tz now rand i (k + 2) (nextPrice basePrice (rand k) currentPrice)

/-- The clamp `basePrice * 0.7` of the walk, as `toFixed(2)` renders it, in hundredths. -/
def priceFloor (symbol : String) : ℤ :=
  toFixed2 (fl (getBasePrice symbol * fl (7 / 10)))

/-- Models `generateHistoricalData(symbol, days)` for an integer `days ≥ 0`; `now` is the time
value of `new Date()` and `tz` the time zone of the host. -/
def generateHistoricalData (tz : TimeZone) (symbol : String) (days : ℕ) (now : ℤ)
    (rand : ℕ → ℚ) : List HistoryPoint :=
  historyLoop (getBasePrice symbol) tz now rand days 0 (fl (getBasePrice symbol * fl (9 / 10)))

/-! ## API functions -/

/-- What the classification of the first response looks at: the truthiness of `data['Note']`,
`data['Information']` and `data['Global Quote']`. -/
structure FirstPayload where
  note : Bool
  information : Bool
  globalQuote : Bool
deriving DecidableEq

/-- The outcome of the first request: `fetch` rejects, or it resolves to a response with its
`ok` flag and its body (`none` when `response.json()` rejects or yields `null`). -/
inductive FirstResponse where
  | rejected
  | response (ok : Bool) (json : Option FirstPayload)
deriving DecidableEq

/-- The numbers `parseFloat` and `parseInt` read from a `'Global Quote'` carrying `'05. price'`. -/
structure ProviderQuote where
  price : ℚ
  change : ℚ
  changePercent : ℚ
  volume : ℤ
  open_ : ℚ
  high : ℚ
  low : ℚ
  previousClose : ℚ

/-- The outcome of the request for one symbol: an exception inside the callback's `try` (a
rejected request, an unreadable body, or `.replace` called on a quote whose
`'10. change percent'` is not a string), a payload without a `'Global Quote'` carrying
`'05. price'`, or such a quote from which the record is built. -/
inductive SymbolResponse where
  | threw
  | noQuote
  | quote (q : ProviderQuote)

/-- Whether the request for one symbol succeeded: it came back with a quote carrying
`'05. price'` and nothing threw. -/
def succeeded : SymbolResponse → Bool
  | .quote _ => true
  | .threw => false
  | .noQuote => false

/-- The callback of `STOCKS.map` in `fetchStockData`; `none` is `null`. -/
def fetchOne (h : Host) (perSymbol : String → SymbolResponse) (stock : Stock) : Option Quote :=
  match perSymbol stock.symbol with
  | .quote q =>
    some
      { symbol := stock.symbol
        name := stock.name
        sector := stock.sector
        price := toFixed2 q.price
        change := toFixed2 q.change
        changePercent := toFixed2 q.changePercent
        volume := h.toLocaleString q.volume
        open_ := toFixed2 q.open_
        high := toFixed2 q.high
        low := toFixed2 q.low
        previousClose := toFixed2 q.previousClose
        marketCap := getMarketCap stock.symbol }
  | .threw => none
  | .noQuote => none

/-- Models `fetchStockData()`.  `first` is the outcome of the request for AAPL, `perSymbol` the
outcome of the request for each symbol, `rand` the draws left to the mock generator. -/
def fetchStockData (h : Host) (first : FirstResponse) (perSymbol : String → SymbolResponse)
    (rand : ℕ → ℚ) : List Quote :=
  match first with
  | .rejected => generateMockStockData h rand
  | .response ok json =>
    if !ok then generateMockStockData h rand
    else
      match json with
      | none => generateMockStockData h rand
      | some data =>
        if data.note || data.information || !data.globalQuote then generateMockStockData h rand
        else (STOCKS.map (fetchOne h perSymbol)).filterMap id

/-! ## State and views -/

/-- The detail panel: the text of the six detail elements and the colour of the price. -/
structure DetailPanel where
  detailPrice : String
  detailOpen : String
  detailHigh : String
  detailLow : String
  detailVolume : String
  detailMarketCap : String
  priceColor : String
deriving DecidableEq

/-- A card of the card grid. -/
structure CardView where
  stock : Quote
  isPositive : Bool
  isFavorite : Bool
  selected : Bool
deriving DecidableEq

/-- A row of the table. -/
structure TableRow where
  stock : Quote
  isPositive : Bool
  isFavorite : Bool
deriving DecidableEq

/-- A card of the watchlist. -/
structure WatchlistCard where
  stock : Quote
  isPositive : Bool
deriving DecidableEq

/-- The watchlist region: the empty-watchlist notice, or one card per listed record. -/
inductive WatchlistView where
  | emptyNotice
  | cards (l : List WatchlistCard)
deriving DecidableEq

/-- What `updateChart` hands to the chart: the dates of the points (the labels are their
rendering), the numbers `parseFloat` reads from the prices, and whether the success palette
(the last price is at least the first) or the danger palette colours the line. -/
structure ChartView where
  labels : List ℤ
  data : List ℚ
  isPositive : Bool
deriving DecidableEq

/-- The top-level variables `stockData`, `selectedStock` (`none` is `null` or `undefined`) and
`watchlist`, the `'watchlist'` entry of `localStorage`, the DOM regions written by the render
functions, the toasts shown so far (message and type), the text of the two header elements
naming the selected stock, and the data of the chart. -/
structure Dashboard where
  stockData : List Quote
  selectedStock : Option Quote
  watchlist : List String
  storedWatchlist : Option String
  stockCardsGrid : List CardView
  stockTableBody : List TableRow
  watchlistGrid : WatchlistView
  detail : DetailPanel
  toasts : List (String × String)
  selectedStockName : String
  selectedStockSymbol : String
  chart : ChartView
deriving DecidableEq

/-- Models `renderStockCards(stocks)`. -/
def renderStockCards (stocks : List Quote) (s : Dashboard) : Dashboard :=
  { s with
    stockCardsGrid := stocks.map fun stock =>
      { stock := stock
        isPositive := decide (0 ≤ parseFloat stock.change)
        isFavorite := s.watchlist.contains stock.symbol
        selected := s.selectedStock.map (fun q => q.symbol) == some stock.symbol } }

/-- Models `renderStockTable(stocks)`. -/
def renderStockTable (stocks : List Quote) (s : Dashboard) : Dashboard :=
  { s with
    stockTableBody := stocks.map fun stock =>
      { stock := stock
        isPositive := decide (0 ≤ parseFloat stock.change)
        isFavorite := s.watchlist.contains stock.symbol } }

/-- Models `renderWatchlist()`. -/
def renderWatchlist (s : Dashboard) : Dashboard :=
  if s.watchlist.length = 0 then { s with watchlistGrid := .emptyNotice }
  else
    { s with
      watchlistGrid := .cards
        ((s.stockData.filter fun q => s.watchlist.contains q.symbol).map fun stock =>
          { stock := stock, isPositive := decide (0 ≤ parseFloat stock.change) }) }

/-- Models `renderStockDetails(stock)`. -/
def renderStockDetails (stock : Option Quote) (s : Dashboard) : Dashboard :=
  match stock with
  | none =>
    { s with
      detail :=
        { s.detail with
          detailPrice := "--"
          detailOpen := "--"
          detailHigh := "--"
          detailLow := "--"
          detailVolume := "--"
          detailMarketCap := "--" } }
  | some stock =>
    { s with
      detail :=
        { detailPrice := "$" ++ fixedText stock.price
          priceColor :=
            if 0 ≤ parseFloat stock.change then "var(--accent-success)"
            else "var(--accent-danger)"
          detailOpen := "$" ++ fixedText stock.open_
          detailHigh := "$" ++ fixedText stock.high
          detailLow := "$" ++ fixedText stock.low
          detailVolume := stock.volume
          detailMarketCap := stock.marketCap } }

/-- Models `showToast(message, type)`. -/
def showToast (message type : String) (s : Dashboard) : Dashboard :=
  { s with toasts := s.toasts ++ [(message, type)] }

/-! ## Event handlers -/

/-- Models `updateChart(symbol)`: a fresh 30-day series, drawn from `rand`, replaces the data of
the chart. -/
def updateChart (tz : TimeZone) (symbol : String) (now : ℤ) (rand : ℕ → ℚ) (s : Dashboard) :
    Dashboard :=
  let historicalData := generateHistoricalData tz symbol 30 now rand
  let prices := historicalData.map fun d => parseFloat d.price
  { s with
    chart :=
      { labels := historicalData.map fun d => d.date
        data := prices
        isPositive :=
          match prices.getLast?, prices.head? with
          | some last, some first => decide (first ≤ last)
          | _, _ => false } }

/-- Models `selectStock(symbol)`: the selection is assigned before the early return, so a
ticker that is not in the snapshot leaves `selectedStock` undefined. -/
def selectStock (tz : TimeZone) (symbol : String) (now : ℤ) (rand : ℕ → ℚ) (s : Dashboard) :
    Dashboard :=
  let s1 := { s with selectedStock := s.stockData.find? (fun q => q.symbol == symbol) }
  match s1.selectedStock with
  | none => s1
  | some selected =>
    let s2 := { s1 with selectedStockName := selected.name, selectedStockSymbol := selected.symbol }
    let s3 := updateChart tz symbol now rand s2
    let s4 := renderStockDetails (some selected) s3
    let s5 :=
      { s4 with
        stockCardsGrid := s4.stockCardsGrid.map fun card =>
          { card with selected := card.stock.symbol == symbol } }
    showToast ("Selected " ++ selected.symbol) "info" s5

/-- Models `toggleFavorite(event, symbol)`; `event.stopPropagation()` only keeps the click from
reaching the card and has no effect on `Dashboard`.  `splice(index, 1)` is `eraseIdx`. -/
def toggleFavorite (symbol : String) (s : Dashboard) : Dashboard :=
  let index := indexOf s.watchlist symbol
  let s1 :=
    if index > -1 then
      showToast ("Removed " ++ symbol ++ " from watchlist") "info"
        { s with watchlist := s.watchlist.eraseIdx index.toNat }
    else
      showToast ("Added " ++ symbol ++ " to watchlist") "success"
        { s with watchlist := s.watchlist ++ [symbol] }
  let s2 := { s1 with storedWatchlist := some (jsonStringify s1.watchlist) }
  let s3 := renderStockCards s2.stockData s2
  let s4 := renderStockTable s3.stockData s3
  renderWatchlist s4

/-- Models `removeFromWatchlist(symbol)`; `splice(index, 1)` is `eraseIdx`. -/
def removeFromWatchlist (symbol : String) (s : Dashboard) : Dashboard :=
  let index := indexOf s.watchlist symbol
  if index > -1 then
    let s1 := { s with watchlist := s.watchlist.eraseIdx index.toNat }
    let s2 := { s1 with storedWatchlist := some (jsonStringify s1.watchlist) }
    let s3 := renderWatchlist s2
    let s4 := renderStockCards s3.stockData s3
    renderStockTable s4.stockData s4
  else s

/-- The filter predicate of `handleSearch`. -/
def matchesQuery (h : Host) (query : String) (stock : Quote) : Bool :=
  includes (h.toLowerCase stock.symbol) (h.toLowerCase query) ||
    includes (h.toLowerCase stock.name) (h.toLowerCase query)

/-- Models `handleSearch(query)`. -/
def handleSearch (h : Host) (query : String) (s : Dashboard) : Dashboard :=
  let filtered := s.stockData.filter (matchesQuery h query)
  let s1 := renderStockCards filtered s
  renderStockTable filtered s1

/-- The comparator `handleSort` passes to `sort` for each criterion (`none` as a result is
NaN); `none` for a criterion the `switch` has no case for. -/
def sortComparator (h : Host) (criteria : String) : Option (Quote → Quote → Option ℚ) :=
  if criteria = "symbol" then some fun a b => some (h.localeCompare a.symbol b.symbol)
  else if criteria = "price" then
    some fun a b => some (fl (parseFloat b.price - parseFloat a.price))
  else if criteria = "change" then
    some fun a b => some (fl (parseFloat b.change - parseFloat a.change))
  else if criteria = "volume" then
    some fun a b =>
      match parseInt (removeCommas b.volume), parseInt (removeCommas a.volume) with
      | some vb, some va => some (fl (vb - va))
      | _, _ => none
  else none

/-- Models `handleSort(criteria)`. -/
def handleSort (h : Host) (criteria : String) (s : Dashboard) : Dashboard :=
  let sorted :=
    match sortComparator h criteria with
    | some cmp => arraySort cmp s.stockData
    | none => s.stockData
  let s1 := renderStockCards sorted s
  renderStockTable sorted s1

/-- Models `refreshData()`, `fetched` being the value `await fetchStockData()` resolves to.
The market summary and the timestamp are not part of `Dashboard`. -/
def refreshData (fetched : List Quote) (s : Dashboard) : Dashboard :=
  let s1 := { s with stockData := fetched }
  let s2 := renderStockCards s1.stockData s1
  let s3 := renderStockTable s2.stockData s2
  let s4 := renderWatchlist s3
  match s4.selectedStock with
  | none => s4
  | some selected =>
    match s4.stockData.find? (fun q => q.symbol == selected.symbol) with
    | some updated => renderStockDetails (some updated) { s4 with selectedStock := some updated }
    | none => s4

/-- The sequence of records the card grid currently shows. -/
def cardSequence (s : Dashboard) : List Quote := s.stockCardsGrid.map fun c => c.stock

/-- The sequence of records the table currently shows. -/
def tableSequence (s : Dashboard) : List Quote := s.stockTableBody.map fun c => c.stock

/-- The numeric value `handleSort` reads from a volume: `parseInt` of the volume with its commas
removed (`0` stands in when it is NaN). -/
def volumeNumber (q : Quote) : ℚ := (parseInt (removeCommas q.volume)).getD 0

/-! ## Fixtures -/

/-- The AAPL record of a snapshot, as the mock generator lays it out. -/
def aaplQuote : Quote :=
  { symbol := "AAPL", name := "Apple Inc.", sector := "Technology", price := 18550,
    change := 0, changePercent := 0, open_ := 18450, high := 18700, low := 18400,
    volume := "9,500,000", marketCap := "2.89T", previousClose := 18550 }

/-- A dashboard showing one AAPL record, selected, with its details rendered. -/
def aaplSelected : Dashboard :=
  { stockData := [aaplQuote]
    selectedStock := some aaplQuote
    watchlist := []
    storedWatchlist := none
    stockCardsGrid := []
    stockTableBody := []
    watchlistGrid := .emptyNotice
    detail :=
      { detailPrice := "$185.50", detailOpen := "$184.50", detailHigh := "$187.00",
        detailLow := "$184.00", detailVolume := "9,500,000", detailMarketCap := "2.89T",
        priceColor := "var(--accent-success)" }
    toasts := []
    selectedStockName := "Apple Inc."
    selectedStockSymbol := "AAPL"
    chart := { labels := [], data := [], isPositive := true } }

/-- A dashboard whose watchlist, as read from `localStorage`, lists AAPL twice. -/
def aaplListedTwice : Dashboard :=
  { aaplSelected with watchlist := ["AAPL", "AAPL"], storedWatchlist := some "[\"AAPL\",\"AAPL\"]" }

/-- A record with the given ticker, name, price (in hundredths) and volume. -/
def quoteOf (symbol name : String) (price : ℤ) (volume : String) : Quote :=
  { symbol := symbol, name := name, sector := "Technology", price := price, change := 0,
    changePercent := 0, open_ := price, high := price, low := price, volume := volume,
    marketCap := getMarketCap symbol, previousClose := price }

/-- A snapshot with tickers AAPL, TSLA, MSFT and prices 185.50, 248.50, 378.90; only the first
two records match the query `a`. -/
def threeQuotes : List Quote :=
  [quoteOf "AAPL" "Apple Inc." 18550 "9,500,000", quoteOf "TSLA" "Tesla Inc." 24850 "10,000,000",
   quoteOf "MSFT" "Microsoft" 37890 "1,000,000"]

/-- A dashboard holding `threeQuotes`, nothing selected, nothing rendered yet. -/
def threeQuotesLoaded : Dashboard :=
  { aaplSelected with stockData := threeQuotes, selectedStock := none }

/-- A host that groups digits with full stops, as a German locale does, and is `asciiHost`
otherwise. -/
def dotHost : Host :=
  { asciiHost with
    toLocaleString := fun n =>
      String.mk ((asciiHost.toLocaleString n).data.map fun c =>
        if c = Char.ofNat 44 then Char.ofNat 46 else c) }

/-- A snapshot taken in the host `dotHost`: two records whose volumes are the texts of 1200000
and 1500000 in that host. -/
def dotQuotes : List Quote :=
  [quoteOf "AAPL" "Apple Inc." 18550 (dotHost.toLocaleString 1200000),
   quoteOf "TSLA" "Tesla Inc." 24850 (dotHost.toLocaleString 1500000)]

/-- A dashboard holding `dotQuotes`, nothing selected, nothing rendered yet. -/
def dotQuotesLoaded : Dashboard :=
  { aaplSelected with stockData := dotQuotes, selectedStock := none }

/-- The volumes of the records of `threeQuotes`, as numbers. -/
def threeQuotesVolume (q : Quote) : ℕ :=
  if q.symbol = "AAPL" then 9500000 else if q.symbol = "TSLA" then 10000000 else 1000000

/-- The classification "the provider is unusable" of the first response: the request fails or
is not ok, the body cannot be read, or the payload carries `Note` or `Information` or lacks
`Global Quote`. -/
def unusable : FirstResponse → Bool
  | .rejected => true
  | .response _ none => true
  | .response ok (some data) => !ok || data.note || data.information || !data.globalQuote

/-- A usable first payload: no notice, and a `'Global Quote'`. -/
def usablePayload : FirstPayload := { note := false, information := false, globalQuote := true }

/-- A provider quote of 100.00, unchanged on the day. -/
def flatQuote : ProviderQuote :=
  { price := 100, change := 0, changePercent := 0, volume := 1000000, open_ := 100, high := 100,
    low := 100, previousClose := 100 }

/-- The time zone of a host on UTC. -/
def utcZone : TimeZone := { offsetAtUTC := fun _ => 0, offsetAtLocal := fun _ => 0 }

/-- The time zone of a host in Berlin around the start of summer time in 2024: one hour ahead
of UTC until 2024-03-31 01:00 UTC (02:00 local time), two hours from then on (03:00 local
time); the skipped local hour is read with the offset before the transition. -/
def berlinZone : TimeZone :=
  { offsetAtUTC := fun t => if t < 1711846800000 then 3600000 else 7200000
    offsetAtLocal := fun t => if t < 1711846800000 + 7200000 then 3600000 else 7200000 }

/-- The time value of 2024-04-09 23:30 UTC, which is 2024-04-10 01:30 in Berlin. -/
def berlinNight : ℤ := 1712705400000

/-- Per-symbol outcomes in which the request for MSFT throws, the one for AMZN comes back
without a quote, and the five others succeed. -/
def msftAndAmznFail (symbol : String) : SymbolResponse :=
  if symbol = "MSFT" then .threw else if symbol = "AMZN" then .noQuote else .quote flatQuote

/-! ## Selection reconciliation -/

/-- C1 (as stated, refuted): AAPL is selected, the provider is usable but every per-symbol
request comes back without a quote, so the new snapshot has no AAPL record; after
`refreshData` the selection is still the old AAPL record and the detail panel still shows
its price instead of the placeholder. -/
theorem refreshData_miss_keeps_selection_example :
    aaplSelected.selectedStock = some aaplQuote ∧
    fetchStockData asciiHost (.response true (some usablePayload)) (fun _ => .noQuote)
      (fun _ => 0) = [] ∧
    (refreshData (fetchStockData asciiHost (.response true (some usablePayload))
      (fun _ => .noQuote) (fun _ => 0)) aaplSelected).selectedStock = some aaplQuote ∧
    (refreshData (fetchStockData asciiHost (.response true (some usablePayload))
      (fun _ => .noQuote) (fun _ => 0)) aaplSelected).selectedStock ≠ none ∧
    (refreshData (fetchStockData asciiHost (.response true (some usablePayload))
      (fun _ => .noQuote) (fun _ => 0)) aaplSelected).detail.detailPrice = "$185.50" := by
  have hf : fetchStockData asciiHost (.response true (some usablePayload)) (fun _ => .noQuote)
      (fun _ => 0) = [] := by
    simp [fetchStockData, usablePayload, STOCKS, fetchOne]
  rw [hf]
  refine ⟨rfl, rfl, ?_, ?_, ?_⟩ <;> decide

/-- C1 (amended): when the selected ticker is absent from the new snapshot, `refreshData`
leaves the selection on the record held before the refresh and does not touch the detail
panel; the placeholder `--` in all six fields is what `renderStockDetails` shows for an empty
selection. -/
theorem refreshData_miss (fetched : List Quote) (s : Dashboard) (r : Quote)
    (hsel : s.selectedStock = some r) (hmiss : ∀ q ∈ fetched, q.symbol ≠ r.symbol) :
    (refreshData fetched s).selectedStock = some r ∧
    (refreshData fetched s).detail = s.detail ∧
    (refreshData fetched s).stockData = fetched ∧
    (renderStockDetails none (refreshData fetched s)).detail =
      { s.detail with
        detailPrice := "--", detailOpen := "--", detailHigh := "--", detailLow := "--",
        detailVolume := "--", detailMarketCap := "--" } := by
  have hfind : fetched.find? (fun q => q.symbol == r.symbol) = none := by
    simpa using hmiss
  have key : refreshData fetched s =
      renderWatchlist (renderStockTable fetched (renderStockCards fetched
        { s with stockData := fetched })) := by
    simp only [refreshData]
    have h4 : (renderWatchlist (renderStockTable fetched (renderStockCards fetched
        { s with stockData := fetched }))).selectedStock = some r := by
      unfold renderWatchlist renderStockTable renderStockCards
      split <;> simpa using hsel
    have h5 : (renderWatchlist (renderStockTable fetched (renderStockCards fetched
        { s with stockData := fetched }))).stockData = fetched := by
      unfold renderWatchlist renderStockTable renderStockCards
      split <;> rfl
    simp only [renderStockCards, renderStockTable] at h4 h5 ⊢
    rw [h4]
    simp only [h5, hfind]
  rw [key]
  unfold renderStockDetails renderWatchlist renderStockTable renderStockCards
  split <;> simp [hsel]

/-- C1 (amended), at the fixture: AAPL selected, an empty new snapshot. -/
theorem refreshData_miss_witness :
    (refreshData [] aaplSelected).selectedStock = some aaplQuote ∧
    (refreshData [] aaplSelected).detail = aaplSelected.detail ∧
    (refreshData [] aaplSelected).stockData = [] ∧
    (renderStockDetails none (refreshData [] aaplSelected)).detail =
      { aaplSelected.detail with
        detailPrice := "--", detailOpen := "--", detailHigh := "--", detailLow := "--",
        detailVolume := "--", detailMarketCap := "--" } :=
  refreshData_miss [] aaplSelected aaplQuote rfl (by simp)

/-- The three render calls at the start of `refreshData` keep the selection. -/
theorem renders_selectedStock (fetched : List Quote) (s : Dashboard) :
    (renderWatchlist (renderStockTable fetched (renderStockCards fetched
      { s with stockData := fetched }))).selectedStock = s.selectedStock := by
  unfold renderWatchlist renderStockTable renderStockCards
  split <;> rfl

/-- The three render calls at the start of `refreshData` keep the installed snapshot. -/
theorem renders_stockData (fetched : List Quote) (s : Dashboard) :
    (renderWatchlist (renderStockTable fetched (renderStockCards fetched
      { s with stockData := fetched }))).stockData = fetched := by
  unfold renderWatchlist renderStockTable renderStockCards
  split <;> rfl

/-- The steps of `refreshData`, the selection and the snapshot read off the arguments. -/
theorem refreshData_eq (fetched : List Quote) (s : Dashboard) :
    refreshData fetched s =
      match s.selectedStock with
      | none => renderWatchlist (renderStockTable fetched (renderStockCards fetched
          { s with stockData := fetched }))
      | some selected =>
        match fetched.find? (fun q => q.symbol == selected.symbol) with
        | some updated =>
          renderStockDetails (some updated)
            { renderWatchlist (renderStockTable fetched (renderStockCards fetched
                { s with stockData := fetched })) with selectedStock := some updated }
        | none => renderWatchlist (renderStockTable fetched (renderStockCards fetched
            { s with stockData := fetched })) := by
  show (match (renderWatchlist (renderStockTable fetched (renderStockCards fetched
        { s with stockData := fetched }))).selectedStock with
      | none => renderWatchlist (renderStockTable fetched (renderStockCards fetched
          { s with stockData := fetched }))
      | some selected =>
        match (renderWatchlist (renderStockTable fetched (renderStockCards fetched
            { s with stockData := fetched }))).stockData.find?
            (fun (q : Quote) => q.symbol == selected.symbol) with
        | some updated =>
          renderStockDetails (some updated)
            { renderWatchlist (renderStockTable fetched (renderStockCards fetched
                { s with stockData := fetched })) with selectedStock := some updated }
        | none => renderWatchlist (renderStockTable fetched (renderStockCards fetched
            { s with stockData := fetched }))) = _
  rw [renders_selectedStock, renders_stockData]

/-- C2: when the selected ticker `T` occurs in the new snapshot, `refreshData` moves the
selection to the first record of the new snapshot whose ticker is `T` (a member of the new
snapshot, whatever record was held before), and the detail panel is rendered from it. -/
theorem refreshData_hit (fetched : List Quote) (s : Dashboard) (r : Quote)
    (hsel : s.selectedStock = some r) (hhit : ∃ q ∈ fetched, q.symbol = r.symbol) :
    ∃ u, fetched.find? (fun q => q.symbol == r.symbol) = some u ∧
      u ∈ fetched ∧ u.symbol = r.symbol ∧
      (refreshData fetched s).selectedStock = some u ∧
      (refreshData fetched s).stockData = fetched ∧
      (refreshData fetched s).detail =
        (renderStockDetails (some u) (refreshData fetched s)).detail := by
  obtain ⟨q, hq, hqs⟩ := hhit
  have hsome : (fetched.find? (fun q => q.symbol == r.symbol)).isSome := by
    rw [List.find?_isSome]
    exact ⟨q, hq, by simpa using hqs⟩
  obtain ⟨u, hu⟩ := Option.isSome_iff_exists.mp hsome
  have hmem : u ∈ fetched := List.mem_of_find?_eq_some hu
  have hsym : u.symbol = r.symbol := by simpa using List.find?_some hu
  have key : refreshData fetched s =
      renderStockDetails (some u)
        { renderWatchlist (renderStockTable fetched (renderStockCards fetched
            { s with stockData := fetched })) with selectedStock := some u } := by
    rw [refreshData_eq, hsel]
    simp only [hu]
  refine ⟨u, hu, hmem, hsym, ?_, ?_, ?_⟩
  · rw [key]; rfl
  · rw [key]; exact renders_stockData fetched s
  · rw [key]; rfl

/-- C2, at the fixture: the stale AAPL record is selected and the mock generator (all draws
zero) supplies the new snapshot, which has an AAPL record. -/
theorem refreshData_hit_witness :
    ∃ u, (generateMockStockData asciiHost (fun _ => 0)).find?
        (fun q => q.symbol == aaplQuote.symbol) = some u ∧
      u ∈ generateMockStockData asciiHost (fun _ => 0) ∧ u.symbol = aaplQuote.symbol ∧
      (refreshData (generateMockStockData asciiHost (fun _ => 0)) aaplSelected).selectedStock =
        some u ∧
      (refreshData (generateMockStockData asciiHost (fun _ => 0)) aaplSelected).stockData =
        generateMockStockData asciiHost (fun _ => 0) ∧
      (refreshData (generateMockStockData asciiHost (fun _ => 0)) aaplSelected).detail =
        (renderStockDetails (some u)
          (refreshData (generateMockStockData asciiHost (fun _ => 0)) aaplSelected)).detail :=
  refreshData_hit (generateMockStockData asciiHost (fun _ => 0)) aaplSelected aaplQuote rfl
    ⟨mockQuote asciiHost ⟨"AAPL", "Apple Inc.", "Technology"⟩ 0 0 0 0 0,
      by simp [generateMockStockData, STOCKS, List.enum, List.enumFrom], rfl⟩

/-! ## The stored watchlist -/

/-- Reading back a single-letter escape. -/
theorem parseStringBody_escape (e ch : Char) (tail : List Char) (he : e.toNat ≠ 117)
    (hu : jsonUnescape e = some ch) :
    parseStringBody (Char.ofNat 92 :: e :: tail) =
      (parseStringBody tail).map fun p => (ch :: p.1, p.2) := by
  have h1 : (Char.ofNat 92).toNat ≠ 34 := by decide
  have h2 : (Char.ofNat 92).toNat = 92 := by decide
  rw [parseStringBody.eq_def]
  simp only [if_neg h1, if_pos h2, if_neg he, hu]

/-- Reading back a `\u00XY` escape of a control character. -/
theorem parseStringBody_unicode (n : ℕ) (hn : n < 32) (tail : List Char) :
    parseStringBody (Char.ofNat 92 :: Char.ofNat 117 :: Char.ofNat 48 :: Char.ofNat 48 ::
        Nat.digitChar (n / 16) :: Nat.digitChar (n % 16) :: tail) =
      (parseStringBody tail).map fun p => (Char.ofNat n :: p.1, p.2) := by
  have h1 : (Char.ofNat 92).toNat ≠ 34 := by decide
  have h2 : (Char.ofNat 92).toNat = 92 := by decide
  have h3 : (Char.ofNat 117).toNat = 117 := by decide
  have h4 : digitValue 16 (Char.ofNat 48) = some 0 := by decide
  have h5 : ∀ n, n < 32 → digitValue 16 (Nat.digitChar (n / 16)) = some (n / 16) ∧
      digitValue 16 (Nat.digitChar (n % 16)) = some (n % 16) := by decide
  have h6 : ((0 * 16 + 0) * 16 + n / 16) * 16 + n % 16 = n := by omega
  rw [parseStringBody.eq_def]
  simp only [if_neg h1, if_pos h2, h3, if_true, h4, (h5 n hn).1, (h5 n hn).2, h6]
  rw [if_neg (by omega)]

/-- Reading back the escape of one character. -/
theorem parseStringBody_quoteJSONChar (c : Char) (tail : List Char) :
    parseStringBody (quoteJSONChar c ++ tail) =
      (parseStringBody tail).map fun p => (c :: p.1, p.2) := by
  have hc : Char.ofNat c.toNat = c := Char.ofNat_toNat c
  unfold quoteJSONChar
  split_ifs with h1 h2 h3 h4 h5 h6 h7 h8
  · rw [h1] at hc
    subst hc
    exact parseStringBody_escape _ _ tail (by decide) (by decide)
  · rw [h2] at hc
    subst hc
    exact parseStringBody_escape _ _ tail (by decide) (by decide)
  · rw [h3] at hc
    subst hc
    exact parseStringBody_escape _ _ tail (by decide) (by decide)
  · rw [h4] at hc
    subst hc
    exact parseStringBody_escape _ _ tail (by decide) (by decide)
  · rw [h5] at hc
    subst hc
    exact parseStringBody_escape _ _ tail (by decide) (by decide)
  · rw [h6] at hc
    subst hc
    exact parseStringBody_escape _ _ tail (by decide) (by decide)
  · rw [h7] at hc
    subst hc
    exact parseStringBody_escape _ _ tail (by decide) (by decide)
  · have := parseStringBody_unicode c.toNat h8 tail
    rw [hc] at this
    exact this
  · show parseStringBody (c :: tail) = _
    rw [parseStringBody.eq_def]
    simp only [if_neg h1, if_neg h2, if_neg h8]

/-- Reading back the body of a quoted string. -/
theorem parseStringBody_quote (s rest : List Char) :
    parseStringBody (s.flatMap quoteJSONChar ++ Char.ofNat 34 :: rest) = some (s, rest) := by
  induction s with
  | nil =>
    show parseStringBody (Char.ofNat 34 :: rest) = _
    rw [parseStringBody.eq_def]
    simp only [if_pos (show (Char.ofNat 34).toNat = 34 by decide)]
  | cons c s ih =>
    rw [List.flatMap_cons, List.append_assoc, parseStringBody_quoteJSONChar, ih]
    rfl

/-- Reading one element that a comma follows. -/
theorem parseElements_comma (fuel : ℕ) (s rest : List Char) :
    parseElements (fuel + 1)
        (Char.ofNat 34 :: (s.flatMap quoteJSONChar ++ Char.ofNat 34 :: Char.ofNat 44 :: rest)) =
      (parseElements fuel rest).map fun l => String.mk s :: l := by
  rw [parseElements]
  simp only [if_pos (show (Char.ofNat 34).toNat = 34 by decide), parseStringBody_quote,
    if_pos (show (Char.ofNat 44).toNat = 44 by decide)]

/-- Reading the last element, which the closing bracket follows. -/
theorem parseElements_last (fuel : ℕ) (s : List Char) :
    parseElements (fuel + 1)
        (Char.ofNat 34 :: (s.flatMap quoteJSONChar ++ Char.ofNat 34 :: [Char.ofNat 93])) =
      some [String.mk s] := by
  rw [parseElements]
  simp only [if_pos (show (Char.ofNat 34).toNat = 34 by decide), parseStringBody_quote,
    if_neg (show ¬ (Char.ofNat 93).toNat = 44 by decide)]
  rw [if_pos ⟨by decide, trivial⟩]

/-- Reading back the elements of a stored array. -/
theorem parseElements_quote (a : String) (l : List String) :
    ∀ fuel, l.length < fuel →
      parseElements fuel
        ((((a :: l).map quoteJSONString).intersperse [Char.ofNat 44]).flatten ++
          [Char.ofNat 93]) = some (a :: l) := by
  induction l generalizing a with
  | nil =>
    intro fuel hf
    obtain ⟨f, rfl⟩ : ∃ f, fuel = f + 1 := ⟨fuel - 1, by omega⟩
    have e : ((([a].map quoteJSONString).intersperse [Char.ofNat 44]).flatten ++
        [Char.ofNat 93]) =
        Char.ofNat 34 :: (a.data.flatMap quoteJSONChar ++ Char.ofNat 34 :: [Char.ofNat 93]) := by
      simp [quoteJSONString]
    rw [e, parseElements_last]
  | cons b l ih =>
    intro fuel hf
    obtain ⟨f, rfl⟩ : ∃ f, fuel = f + 1 := ⟨fuel - 1, by omega⟩
    have hlen : l.length < f := by
      simp only [List.length_cons] at hf
      omega
    have e : ((((a :: b :: l).map quoteJSONString).intersperse [Char.ofNat 44]).flatten ++
        [Char.ofNat 93]) =
        Char.ofNat 34 :: (a.data.flatMap quoteJSONChar ++ Char.ofNat 34 :: Char.ofNat 44 ::
          ((((b :: l).map quoteJSONString).intersperse [Char.ofNat 44]).flatten ++
            [Char.ofNat 93])) := by
      simp [quoteJSONString]
    rw [e, parseElements_comma, ih b f hlen]
    rfl

/-- The elements of a stored array are no more than its characters. -/
theorem length_le_stored (l : List String) :
    l.length ≤ (((l.map quoteJSONString).intersperse [Char.ofNat 44]).flatten).length := by
  induction l with
  | nil => simp
  | cons a l ih =>
    cases l with
    | nil => simp [quoteJSONString]
    | cons b l =>
      have : ((((a :: b :: l).map quoteJSONString).intersperse [Char.ofNat 44]).flatten) =
          quoteJSONString a ++ ([Char.ofNat 44] ++
            (((b :: l).map quoteJSONString).intersperse [Char.ofNat 44]).flatten) := rfl
      rw [this]
      simp only [List.length_append, List.length_cons, List.length_nil] at ih ⊢
      omega

/-- What `JSON.stringify` writes for a watchlist, `JSON.parse` reads back as that watchlist. -/
theorem jsonParseStrings_jsonStringify (l : List String) :
    jsonParseStrings (jsonStringify l) = some l := by
  cases l with
  | nil => rfl
  | cons a l =>
    have hne : ((((a :: l).map quoteJSONString).intersperse [Char.ofNat 44]).flatten ++
        [Char.ofNat 93]) ≠ [Char.ofNat 93] := by
      intro h
      have h1 := congrArg List.length h
      have h2 := length_le_stored (a :: l)
      simp only [List.length_append, List.length_cons, List.length_nil] at h1 h2
      omega
    show (if (Char.ofNat 91).toNat = 91 then
        if ((((a :: l).map quoteJSONString).intersperse [Char.ofNat 44]).flatten ++
            [Char.ofNat 93]) = [Char.ofNat 93] then some []
        else parseElements _ _
      else none) = _
    rw [if_pos (by decide), if_neg hne]
    apply parseElements_quote
    have h2 := length_le_stored (a :: l)
    have h3 : ((((a :: l).map quoteJSONString).intersperse [Char.ofNat 44]).flatten ++
        [Char.ofNat 93]).length =
        ((((a :: l).map quoteJSONString).intersperse [Char.ofNat 44]).flatten).length + 1 := by
      rw [List.length_append]; rfl
    simp only [List.length_cons] at h2
    show l.length < ((((a :: l).map quoteJSONString).intersperse [Char.ofNat 44]).flatten ++
        [Char.ofNat 93]).length
    omega

/-! ## Watchlist -/

/-- The watchlist after `toggleFavorite`: the first occurrence removed, or the ticker appended. -/
theorem toggleFavorite_watchlist (t : String) (s : Dashboard) :
    (toggleFavorite t s).watchlist =
      if t ∈ s.watchlist then s.watchlist.erase t else s.watchlist ++ [t] := by
  unfold toggleFavorite renderWatchlist renderStockTable renderStockCards showToast indexOf
  by_cases ht : t ∈ s.watchlist
  · have h1 : (-1 : ℤ) < ((List.indexOf t s.watchlist : ℕ) : ℤ) := by omega
    simp only [ht, if_true, gt_iff_lt, h1, Int.toNat_ofNat, List.eraseIdx_indexOf_eq_erase]
    split <;> rfl
  · simp only [ht, if_false, gt_iff_lt, lt_self_iff_false]
    split <;> rfl

/-- What `toggleFavorite` writes to `localStorage` is the JSON text of the new watchlist. -/
theorem toggleFavorite_stored (t : String) (s : Dashboard) :
    (toggleFavorite t s).storedWatchlist = some (jsonStringify (toggleFavorite t s).watchlist) := by
  unfold toggleFavorite renderWatchlist renderStockTable renderStockCards showToast
  dsimp only
  split <;> split <;> rfl

/-- C3 (as stated, refuted): on a watchlist that lists AAPL twice, two toggles of AAPL remove
both entries, so AAPL is in the watchlist before and not after. -/
theorem toggleFavorite_twice_duplicate_example :
    "AAPL" ∈ aaplListedTwice.watchlist ∧
    (toggleFavorite "AAPL" aaplListedTwice).watchlist = ["AAPL"] ∧
    (toggleFavorite "AAPL" (toggleFavorite "AAPL" aaplListedTwice)).watchlist = [] ∧
    ¬ (∀ x, x ∈ (toggleFavorite "AAPL" (toggleFavorite "AAPL" aaplListedTwice)).watchlist ↔
        x ∈ aaplListedTwice.watchlist) := by
  have h1 : (toggleFavorite "AAPL" aaplListedTwice).watchlist = ["AAPL"] := by
    rw [toggleFavorite_watchlist]; decide
  have h2 : (toggleFavorite "AAPL" (toggleFavorite "AAPL" aaplListedTwice)).watchlist = [] := by
    rw [toggleFavorite_watchlist, h1]; decide
  refine ⟨by decide, h1, h2, ?_⟩
  rw [h2]
  intro h
  exact List.not_mem_nil _ ((h "AAPL").mpr (by decide))

/-- C3 (amended): on a watchlist in which the ticker occurs at most once, two toggles of the
ticker give a watchlist with the same members; after each toggle the stored `'watchlist'`
entry is the JSON text of the in-memory watchlist, from which the initialisation of the
script reads the same watchlist back; and a toggle keeps a duplicate-free watchlist
duplicate-free. -/
theorem toggleFavorite_twice (t : String) (s : Dashboard) (hcount : s.watchlist.count t ≤ 1) :
    (∀ x, x ∈ (toggleFavorite t (toggleFavorite t s)).watchlist ↔ x ∈ s.watchlist) ∧
    (toggleFavorite t s).storedWatchlist = some (jsonStringify (toggleFavorite t s).watchlist) ∧
    loadWatchlist (toggleFavorite t s).storedWatchlist = some (toggleFavorite t s).watchlist ∧
    (toggleFavorite t (toggleFavorite t s)).storedWatchlist =
      some (jsonStringify (toggleFavorite t (toggleFavorite t s)).watchlist) ∧
    loadWatchlist (toggleFavorite t (toggleFavorite t s)).storedWatchlist =
      some (toggleFavorite t (toggleFavorite t s)).watchlist ∧
    (s.watchlist.Nodup → (toggleFavorite t s).watchlist.Nodup) := by
  have hload : ∀ s' : Dashboard, loadWatchlist (toggleFavorite t s').storedWatchlist =
      some (toggleFavorite t s').watchlist := by
    intro s'
    rw [toggleFavorite_stored]
    exact jsonParseStrings_jsonStringify _
  refine ⟨?_, toggleFavorite_stored t s, hload s, toggleFavorite_stored t _, hload _, ?_⟩
  · intro x
    rw [toggleFavorite_watchlist t (toggleFavorite t s), toggleFavorite_watchlist t s]
    by_cases ht : t ∈ s.watchlist
    · have hnot : t ∉ s.watchlist.erase t := by
        intro hmem
        have hpos : 0 < (s.watchlist.erase t).count t := List.count_pos_iff.mpr hmem
        rw [List.count_erase_self] at hpos
        omega
      simp only [ht, if_true, hnot, if_false, List.mem_append, List.mem_singleton]
      constructor
      · rintro (h | h)
        · exact List.mem_of_mem_erase h
        · exact h ▸ ht
      · intro hx
        by_cases hxt : x = t
        · exact Or.inr hxt
        · exact Or.inl ((List.mem_erase_of_ne hxt).mpr hx)
    · have hmem : t ∈ s.watchlist ++ [t] := by simp
      simp only [ht, if_false, hmem, if_true]
      rw [List.erase_append_right _ ht]
      simp
  · intro hnd
    rw [toggleFavorite_watchlist]
    by_cases ht : t ∈ s.watchlist
    · simp only [ht, if_true]
      exact hnd.erase t
    · simp only [ht, if_false]
      exact List.nodup_append.mpr ⟨hnd, List.nodup_singleton t, by simpa using ht⟩

/-- C3 (amended), at the fixture: AAPL toggled twice on the empty watchlist. -/
theorem toggleFavorite_twice_witness :
    (∀ x, x ∈ (toggleFavorite "AAPL" (toggleFavorite "AAPL" aaplSelected)).watchlist ↔
      x ∈ aaplSelected.watchlist) ∧
    (toggleFavorite "AAPL" aaplSelected).storedWatchlist =
      some (jsonStringify (toggleFavorite "AAPL" aaplSelected).watchlist) ∧
    loadWatchlist (toggleFavorite "AAPL" aaplSelected).storedWatchlist =
      some (toggleFavorite "AAPL" aaplSelected).watchlist ∧
    (toggleFavorite "AAPL" (toggleFavorite "AAPL" aaplSelected)).storedWatchlist =
      some (jsonStringify (toggleFavorite "AAPL" (toggleFavorite "AAPL" aaplSelected)).watchlist) ∧
    loadWatchlist (toggleFavorite "AAPL" (toggleFavorite "AAPL" aaplSelected)).storedWatchlist =
      some (toggleFavorite "AAPL" (toggleFavorite "AAPL" aaplSelected)).watchlist ∧
    (toggleFavorite "AAPL" aaplSelected).watchlist.Nodup :=
  ⟨(toggleFavorite_twice "AAPL" aaplSelected (by decide)).1,
    (toggleFavorite_twice "AAPL" aaplSelected (by decide)).2.1,
    (toggleFavorite_twice "AAPL" aaplSelected (by decide)).2.2.1,
    (toggleFavorite_twice "AAPL" aaplSelected (by decide)).2.2.2.1,
    (toggleFavorite_twice "AAPL" aaplSelected (by decide)).2.2.2.2.1,
    (toggleFavorite_twice "AAPL" aaplSelected (by decide)).2.2.2.2.2 (by decide)⟩

/-! ## Rounding to a double -/

/-- The exponent `binExp` computes brackets its argument. -/
theorem binExp_spec {a : ℚ} (ha : 0 < a) :
    (2 : ℚ) ^ binExp a ≤ a ∧ a < (2 : ℚ) ^ (binExp a + 1) := by
  have hnum : 0 < a.num := Rat.num_pos.mpr ha
  have hn0 : a.num.natAbs ≠ 0 := by omega
  have hd0 : a.den ≠ 0 := a.den_nz
  have hn1 : ((2 : ℚ) ^ (Nat.log2 a.num.natAbs : ℤ)) ≤ (a.num.natAbs : ℚ) := by
    rw [zpow_natCast]; exact_mod_cast Nat.log2_self_le hn0
  have hn2 : (a.num.natAbs : ℚ) < (2 : ℚ) ^ ((Nat.log2 a.num.natAbs : ℤ) + 1) := by
    rw [← Nat.cast_succ, zpow_natCast]; exact_mod_cast Nat.lt_log2_self
  have hd1 : ((2 : ℚ) ^ (Nat.log2 a.den : ℤ)) ≤ (a.den : ℚ) := by
    rw [zpow_natCast]; exact_mod_cast Nat.log2_self_le hd0
  have hd2 : (a.den : ℚ) < (2 : ℚ) ^ ((Nat.log2 a.den : ℤ) + 1) := by
    rw [← Nat.cast_succ, zpow_natCast]; exact_mod_cast Nat.lt_log2_self
  have hdpos : (0 : ℚ) < (a.den : ℚ) := by exact_mod_cast Nat.pos_of_ne_zero hd0
  have hnabs : (a.num.natAbs : ℚ) = (a.num : ℚ) := by
    have h : ((a.num.natAbs : ℕ) : ℤ) = a.num := Int.natAbs_of_nonneg hnum.le
    calc (a.num.natAbs : ℚ) = (((a.num.natAbs : ℕ) : ℤ) : ℚ) := (Int.cast_natCast _).symm
      _ = (a.num : ℚ) := by rw [h]
  have haeq : a = (a.num.natAbs : ℚ) / (a.den : ℚ) := by
    rw [hnabs]; exact (Rat.num_div_den a).symm
  set n : ℚ := (a.num.natAbs : ℚ) with hn
  set d : ℚ := (a.den : ℚ) with hd
  set ln : ℤ := (Nat.log2 a.num.natAbs : ℤ) with hln
  set ld : ℤ := (Nat.log2 a.den : ℤ) with hld
  have h2 : (0 : ℚ) < 2 := by norm_num
  have h2ne : (2 : ℚ) ≠ 0 := by norm_num
  have hlow : (2 : ℚ) ^ (ln - ld - 1) ≤ a := by
    have e : (2 : ℚ) ^ (ln - ld - 1) = (2 : ℚ) ^ ln / (2 : ℚ) ^ (ld + 1) := by
      rw [← zpow_sub₀ h2ne]; congr 1; ring
    rw [e, haeq]
    calc (2 : ℚ) ^ ln / (2 : ℚ) ^ (ld + 1) ≤ n / (2 : ℚ) ^ (ld + 1) :=
            div_le_div_of_nonneg_right hn1 (zpow_pos h2 _).le
        _ ≤ n / d := div_le_div_of_nonneg_left (by positivity) hdpos hd2.le
  have hhigh : a < (2 : ℚ) ^ (ln - ld + 1) := by
    have e : (2 : ℚ) ^ (ln - ld + 1) = (2 : ℚ) ^ (ln + 1) / (2 : ℚ) ^ ld := by
      rw [← zpow_sub₀ h2ne]; congr 1; ring
    rw [e, haeq]
    calc n / d < (2 : ℚ) ^ (ln + 1) / d := div_lt_div_of_pos_right hn2 hdpos
      _ ≤ (2 : ℚ) ^ (ln + 1) / (2 : ℚ) ^ ld :=
        div_le_div_of_nonneg_left (zpow_pos h2 _).le (zpow_pos h2 _) hd1
  unfold binExp
  simp only
  split
  · rename_i hlt
    refine ⟨hlow, ?_⟩
    have : ln - ld - 1 + 1 = ln - ld := by ring
    rw [this]; exact hlt
  · rename_i hge
    exact ⟨not_lt.mp hge, hhigh⟩

/-- The exponent is determined by the bracket. -/
theorem binExp_unique {a : ℚ} {e : ℤ} (h1 : (2 : ℚ) ^ e ≤ a) (h2 : a < (2 : ℚ) ^ (e + 1)) :
    binExp a = e := by
  have ha : 0 < a := lt_of_lt_of_le (zpow_pos (by norm_num) _) h1
  obtain ⟨h3, h4⟩ := binExp_spec ha
  have h5 : (2 : ℚ) ^ e < (2 : ℚ) ^ (binExp a + 1) := lt_of_le_of_lt h1 h4
  have h6 : (2 : ℚ) ^ binExp a < (2 : ℚ) ^ (e + 1) := lt_of_le_of_lt h3 h2
  have h7 := (zpow_lt_zpow_iff_right₀ (by norm_num : (1 : ℚ) < 2)).mp h5
  have h8 := (zpow_lt_zpow_iff_right₀ (by norm_num : (1 : ℚ) < 2)).mp h6
  omega

/-- An integer within half a unit is the rounding. -/
theorem roundHalfEven_eq {x : ℚ} {k : ℤ} (h : |x - k| < 1 / 2) : roundHalfEven x = k := by
  rw [abs_lt] at h
  unfold roundHalfEven
  by_cases hk : (k : ℚ) ≤ x
  · have hf : ⌊x⌋ = k := by
      rw [Int.floor_eq_iff]; constructor <;> linarith
    rw [hf, if_pos (by linarith)]
  · have hf : ⌊x⌋ = k - 1 := by
      rw [Int.floor_eq_iff]; push_cast; constructor <;> linarith
    rw [hf]
    push_cast
    rw [if_neg (by linarith), if_pos (by linarith)]
    ring

/-- The rounding of an integer is the integer. -/
theorem roundHalfEven_intCast (k : ℤ) : roundHalfEven (k : ℚ) = k :=
  roundHalfEven_eq (by simp)

/-- The rounding is within half a unit. -/
theorem abs_roundHalfEven_sub_le (x : ℚ) : |(roundHalfEven x : ℚ) - x| ≤ 1 / 2 := by
  have h1 := Int.floor_le x
  have h2 := Int.lt_floor_add_one x
  unfold roundHalfEven
  rw [abs_le]
  split_ifs with ha hb hc <;> push_cast <;> constructor <;> linarith

/-- Evaluation of `fl`: the exponent `e` and the significand `k` determine the result. -/
theorem fl_eq {x : ℚ} (e k : ℤ) (h1 : (2 : ℚ) ^ e ≤ |x|) (h2 : |x| < (2 : ℚ) ^ (e + 1))
    (h3 : |x / (2 : ℚ) ^ (e - 52) - k| < 1 / 2) : fl x = k * (2 : ℚ) ^ (e - 52) := by
  have hx : x ≠ 0 := by
    intro h
    rw [h, abs_zero] at h1
    exact absurd h1 (not_le.mpr (zpow_pos (by norm_num) _))
  unfold fl ulp
  rw [if_neg hx, binExp_unique h1 h2, roundHalfEven_eq h3]

/-- The spacing is positive. -/
theorem ulp_pos (x : ℚ) : 0 < ulp x := zpow_pos (by norm_num) _

/-- A nonzero argument is at least `2 ^ 52` spacings in size. -/
theorem le_abs_div_ulp {x : ℚ} (hx : x ≠ 0) : (2 : ℚ) ^ (52 : ℤ) ≤ |x| / ulp x := by
  have h := (binExp_spec (abs_pos.mpr hx)).1
  rw [le_div_iff₀ (ulp_pos x)]
  unfold ulp
  rw [← zpow_add₀ (by norm_num : (2 : ℚ) ≠ 0)]
  have : (52 : ℤ) + (binExp |x| - 52) = binExp |x| := by ring
  rw [this]; exact h

@[simp] theorem fl_zero : fl 0 = 0 := by simp [fl]

/-- Rounding keeps a positive number positive. -/
theorem fl_pos {x : ℚ} (hx : 0 < x) : 0 < fl x := by
  have h := le_abs_div_ulp hx.ne'
  rw [abs_of_pos hx] at h
  have h52 : (1 : ℚ) ≤ (2 : ℚ) ^ (52 : ℤ) := by norm_num
  have hr := abs_le.mp (abs_roundHalfEven_sub_le (x / ulp x))
  unfold fl
  rw [if_neg hx.ne']
  exact mul_pos (by linarith [hr.1]) (ulp_pos x)

/-- Rounding keeps a negative number negative. -/
theorem fl_neg {x : ℚ} (hx : x < 0) : fl x < 0 := by
  have h := le_abs_div_ulp hx.ne
  rw [abs_of_neg hx, neg_div] at h
  have h52 : (1 : ℚ) ≤ (2 : ℚ) ^ (52 : ℤ) := by norm_num
  have hr := abs_le.mp (abs_roundHalfEven_sub_le (x / ulp x))
  unfold fl
  rw [if_neg hx.ne]
  exact mul_neg_of_neg_of_pos (by linarith [hr.2]) (ulp_pos x)

/-- The sign test `fl x ≤ 0` is the sign test on `x`. -/
theorem fl_nonpos_iff {x : ℚ} : fl x ≤ 0 ↔ x ≤ 0 := by
  constructor
  · intro h
    by_contra hx
    exact absurd (fl_pos (not_le.mp hx)) (not_lt.mpr h)
  · intro h
    rcases h.lt_or_eq with h | h
    · exact (fl_neg h).le
    · rw [h, fl_zero]

/-- The sign test `0 ≤ fl x` is the sign test on `x`. -/
theorem fl_nonneg_iff {x : ℚ} : 0 ≤ fl x ↔ 0 ≤ x := by
  constructor
  · intro h
    by_contra hx
    exact absurd (fl_neg (not_le.mp hx)) (not_lt.mpr h)
  · intro h
    rcases h.lt_or_eq with h | h
    · exact (fl_pos h).le
    · rw [← h, fl_zero]

/-- Evaluation of `fl` at a positive argument. -/
theorem fl_eq_of_pos {x : ℚ} (e k : ℤ) (h1 : (2 : ℚ) ^ e ≤ x) (h2 : x < (2 : ℚ) ^ (e + 1))
    (h3 : (k : ℚ) - 1 / 2 < x / (2 : ℚ) ^ (e - 52))
    (h4 : x / (2 : ℚ) ^ (e - 52) < (k : ℚ) + 1 / 2) : fl x = k * (2 : ℚ) ^ (e - 52) := by
  have hx : 0 < x := lt_of_lt_of_le (zpow_pos (by norm_num) _) h1
  exact fl_eq e k (by rwa [abs_of_pos hx]) (by rwa [abs_of_pos hx])
    (by rw [abs_lt]; constructor <;> linarith)

/-- Evaluation of `fl` at a negative argument. -/
theorem fl_eq_of_neg {x : ℚ} (e k : ℤ) (h1 : (2 : ℚ) ^ e ≤ -x) (h2 : -x < (2 : ℚ) ^ (e + 1))
    (h3 : (k : ℚ) - 1 / 2 < x / (2 : ℚ) ^ (e - 52))
    (h4 : x / (2 : ℚ) ^ (e - 52) < (k : ℚ) + 1 / 2) : fl x = k * (2 : ℚ) ^ (e - 52) := by
  have hx : x < 0 := by
    have := lt_of_lt_of_le (zpow_pos (by norm_num : (0 : ℚ) < 2) e) h1
    linarith
  exact fl_eq e k (by rwa [abs_of_neg hx]) (by rwa [abs_of_neg hx])
    (by rw [abs_lt]; constructor <;> linarith)

/-- Rounding to the nearest integer is monotone. -/
theorem roundHalfEven_mono {x y : ℚ} (h : x ≤ y) : roundHalfEven x ≤ roundHalfEven y := by
  have hx1 := Int.floor_le x
  have hx2 := Int.lt_floor_add_one x
  have hy1 := Int.floor_le y
  have hy2 := Int.lt_floor_add_one y
  have hfl : ⌊x⌋ ≤ ⌊y⌋ := Int.floor_mono h
  have hxle : roundHalfEven x ≤ ⌊x⌋ + 1 := by
    unfold roundHalfEven; split_ifs <;> omega
  have hyge : ⌊y⌋ ≤ roundHalfEven y := by
    unfold roundHalfEven; split_ifs <;> omega
  rcases hfl.lt_or_eq with hlt | heq
  · omega
  · unfold roundHalfEven
    rw [heq] at hx1 hx2 ⊢
    split_ifs with h1 h2 h3 h4 h5 h6 h7 <;> first | omega | (exfalso; linarith)

/-- Rounding to the nearest integer commutes with negation. -/
theorem roundHalfEven_neg (x : ℚ) : roundHalfEven (-x) = -roundHalfEven x := by
  by_cases hint : (⌊x⌋ : ℚ) = x
  · have h1 : roundHalfEven x = ⌊x⌋ := by
      rw [← hint]; simp [roundHalfEven_intCast]
    have h2 : -x = ((-⌊x⌋ : ℤ) : ℚ) := by push_cast; rw [hint]
    rw [h2, roundHalfEven_intCast, h1]
  · have hx1 := Int.floor_le x
    have hx2 := Int.lt_floor_add_one x
    have hlt : (⌊x⌋ : ℚ) < x := lt_of_le_of_ne hx1 hint
    have hfn : ⌊-x⌋ = -⌊x⌋ - 1 := by
      rw [Int.floor_eq_iff]; push_cast; constructor <;> linarith
    unfold roundHalfEven
    rw [hfn]
    push_cast
    split_ifs with h1 h2 h3 h4 h5 h6 h7 h8 h9 <;>
      first | omega | (exfalso; linarith)

/-- The exponent of a positive number is monotone. -/
theorem binExp_mono {a b : ℚ} (ha : 0 < a) (h : a ≤ b) : binExp a ≤ binExp b := by
  have hb : 0 < b := lt_of_lt_of_le ha h
  have h1 := (binExp_spec ha).1
  have h2 := (binExp_spec hb).2
  have h3 : (2 : ℚ) ^ binExp a < (2 : ℚ) ^ (binExp b + 1) := lt_of_le_of_lt (h1.trans h) h2
  have h4 := (zpow_lt_zpow_iff_right₀ (by norm_num : (1 : ℚ) < 2)).mp h3
  omega

/-- Rounding to a double commutes with negation. -/
theorem fl_neg_eq (x : ℚ) : fl (-x) = -fl x := by
  unfold fl ulp
  by_cases hx : x = 0
  · simp [hx]
  · rw [if_neg hx, if_neg (neg_ne_zero.mpr hx), abs_neg, neg_div, roundHalfEven_neg]
    push_cast
    ring

/-- The rounding of a positive number lies in the closure of its binade. -/
theorem fl_mem_binade {x : ℚ} (hx : 0 < x) :
    (2 : ℚ) ^ binExp x ≤ fl x ∧ fl x ≤ (2 : ℚ) ^ (binExp x + 1) := by
  obtain ⟨h1, h2⟩ := binExp_spec hx
  have hu : 0 < (2 : ℚ) ^ (binExp x - 52) := zpow_pos (by norm_num) _
  have e1 : (2 : ℚ) ^ binExp x = ((2 ^ 52 : ℤ) : ℚ) * (2 : ℚ) ^ (binExp x - 52) := by
    have : ((2 ^ 52 : ℤ) : ℚ) = (2 : ℚ) ^ (52 : ℤ) := by norm_num
    rw [this, ← zpow_add₀ (by norm_num : (2 : ℚ) ≠ 0)]
    congr 1; ring
  have e2 : (2 : ℚ) ^ (binExp x + 1) = ((2 ^ 53 : ℤ) : ℚ) * (2 : ℚ) ^ (binExp x - 52) := by
    have : ((2 ^ 53 : ℤ) : ℚ) = (2 : ℚ) ^ (53 : ℤ) := by norm_num
    rw [this, ← zpow_add₀ (by norm_num : (2 : ℚ) ≠ 0)]
    congr 1; ring
  have hlo : ((2 ^ 52 : ℤ) : ℚ) ≤ x / (2 : ℚ) ^ (binExp x - 52) := by
    rw [le_div_iff₀ hu, ← e1]; exact h1
  have hhi : x / (2 : ℚ) ^ (binExp x - 52) ≤ ((2 ^ 53 : ℤ) : ℚ) := by
    rw [div_le_iff₀ hu, ← e2]; exact h2.le
  have k1 : (2 ^ 52 : ℤ) ≤ roundHalfEven (x / (2 : ℚ) ^ (binExp x - 52)) := by
    have := roundHalfEven_mono hlo
    rwa [roundHalfEven_intCast] at this
  have k2 : roundHalfEven (x / (2 : ℚ) ^ (binExp x - 52)) ≤ (2 ^ 53 : ℤ) := by
    have := roundHalfEven_mono hhi
    rwa [roundHalfEven_intCast] at this
  unfold fl ulp
  rw [if_neg hx.ne', abs_of_pos hx, e1, e2]
  constructor
  · exact mul_le_mul_of_nonneg_right (by exact_mod_cast k1) hu.le
  · exact mul_le_mul_of_nonneg_right (by exact_mod_cast k2) hu.le

/-- Rounding to a double is monotone. -/
theorem fl_mono {x y : ℚ} (h : x ≤ y) : fl x ≤ fl y := by
  have pos : ∀ {a b : ℚ}, 0 < a → a ≤ b → fl a ≤ fl b := by
    intro a b ha hab
    have hb : 0 < b := lt_of_lt_of_le ha hab
    rcases (binExp_mono ha hab).lt_or_eq with hlt | heq
    · have h1 := (fl_mem_binade ha).2
      have h2 := (fl_mem_binade hb).1
      have h3 : (2 : ℚ) ^ (binExp a + 1) ≤ (2 : ℚ) ^ binExp b :=
        (zpow_le_zpow_iff_right₀ (by norm_num : (1 : ℚ) < 2)).mpr (by omega)
      linarith
    · unfold fl ulp
      rw [if_neg ha.ne', if_neg hb.ne', abs_of_pos ha, abs_of_pos hb, heq]
      have hu : 0 < (2 : ℚ) ^ (binExp b - 52) := zpow_pos (by norm_num) _
      have hdiv : a / (2 : ℚ) ^ (binExp b - 52) ≤ b / (2 : ℚ) ^ (binExp b - 52) :=
        div_le_div_of_nonneg_right hab hu.le
      exact mul_le_mul_of_nonneg_right (by exact_mod_cast roundHalfEven_mono hdiv) hu.le
  rcases lt_trichotomy 0 x with hx | hx | hx
  · exact pos hx h
  · rw [← hx, fl_zero]; exact fl_nonneg_iff.mpr (hx ▸ h)
  · rcases lt_or_le y 0 with hy | hy
    · have := pos (neg_pos.mpr hy) (neg_le_neg h)
      rw [fl_neg_eq, fl_neg_eq] at this
      linarith
    · exact (fl_neg hx).le.trans (fl_nonneg_iff.mpr hy)

/-- A number with a 53-bit significand in its own binade is its own rounding. -/
theorem fl_eq_self_of_int {x : ℚ} (e k : ℤ) (h1 : (2 : ℚ) ^ e ≤ |x|)
    (h2 : |x| < (2 : ℚ) ^ (e + 1)) (hk : x = k * (2 : ℚ) ^ (e - 52)) : fl x = x := by
  have hu : (2 : ℚ) ^ (e - 52) ≠ 0 := (zpow_pos (by norm_num) _).ne'
  rw [fl_eq e k h1 h2 (by rw [hk, mul_div_assoc, div_self hu, mul_one, sub_self]; norm_num), hk]

/-- A double is its own rounding. -/
theorem fl_fl (x : ℚ) : fl (fl x) = fl x := by
  have pos : ∀ {a : ℚ}, 0 < a → fl (fl a) = fl a := by
    intro a ha
    obtain ⟨h1, h2⟩ := fl_mem_binade ha
    have hfa : 0 < fl a := fl_pos ha
    rcases h2.lt_or_eq with hlt | heq
    · refine fl_eq_self_of_int (binExp a) (roundHalfEven (a / ulp a))
        (by rwa [abs_of_pos hfa]) (by rwa [abs_of_pos hfa]) ?_
      unfold fl ulp
      rw [if_neg ha.ne', abs_of_pos ha]
    · refine fl_eq_self_of_int (binExp a + 1) (2 ^ 52)
        (by rw [abs_of_pos hfa, heq]) ?_ ?_
      · rw [abs_of_pos hfa, heq]
        exact (zpow_lt_zpow_iff_right₀ (by norm_num : (1 : ℚ) < 2)).mpr (by omega)
      · rw [heq]
        have : ((2 ^ 52 : ℤ) : ℚ) = (2 : ℚ) ^ (52 : ℤ) := by norm_num
        rw [this, ← zpow_add₀ (by norm_num : (2 : ℚ) ≠ 0)]
        congr 1; ring
  rcases lt_trichotomy 0 x with hx | hx | hx
  · exact pos hx
  · rw [← hx, fl_zero, fl_zero]
  · have := pos (neg_pos.mpr hx)
    rw [fl_neg_eq, fl_neg_eq] at this
    linarith

/-- The rounding error is at most half a spacing. -/
theorem abs_fl_sub_le (x : ℚ) : |fl x - x| ≤ ulp x / 2 := by
  by_cases hx : x = 0
  · rw [hx, fl_zero, sub_zero, abs_zero]
    exact (div_pos (ulp_pos 0) (by norm_num)).le
  · have hu := ulp_pos x
    have h := abs_roundHalfEven_sub_le (x / ulp x)
    have e : fl x - x = ((roundHalfEven (x / ulp x) : ℚ) - x / ulp x) * ulp x := by
      unfold fl
      rw [if_neg hx]
      field_simp
    rw [e, abs_mul, abs_of_pos hu]
    calc |(roundHalfEven (x / ulp x) : ℚ) - x / ulp x| * ulp x ≤ 1 / 2 * ulp x :=
          mul_le_mul_of_nonneg_right h hu.le
      _ = ulp x / 2 := by ring

/-! ## Sorting -/

/-- Insertion adds exactly the inserted element. -/
theorem perm_sortInsert {α : Type} (cmp : α → α → Option ℚ) (a : α) (l : List α) :
    (sortInsert cmp a l).Perm (a :: l) := by
  induction l with
  | nil => exact List.Perm.refl _
  | cons b l ih =>
    unfold sortInsert
    split
    · exact List.Perm.refl _
    · exact (List.Perm.cons b ih).trans (List.Perm.swap a b l)

/-- The model of `sort` rearranges its argument. -/
theorem perm_arraySort {α : Type} (cmp : α → α → Option ℚ) (l : List α) :
    (arraySort cmp l).Perm l := by
  induction l with
  | nil => exact List.Perm.refl _
  | cons a l ih =>
    show (sortInsert cmp a (arraySort cmp l)).Perm (a :: l)
    exact (perm_sortInsert cmp a _).trans (List.Perm.cons a ih)

/-- Insertion into an ordered list gives an ordered list, for a relation that the placement
test decides and that is total and transitive on the elements at hand. -/
theorem pairwise_sortInsert {α : Type} (cmp : α → α → Option ℚ) (r : α → α → Prop)
    (P : α → Prop) (hr : ∀ a b, P a → P b → (sortsBefore cmp a b = true ↔ r a b))
    (htotal : ∀ a b, P a → P b → r a b ∨ r b a)
    (htrans : ∀ a b c, P a → P b → P c → r a b → r b c → r a c)
    (a : α) (ha : P a) (l : List α) (hl : ∀ x ∈ l, P x) (hs : l.Pairwise r) :
    (sortInsert cmp a l).Pairwise r := by
  induction l with
  | nil => exact List.pairwise_singleton r a
  | cons b l ih =>
    have hb : P b := hl b (List.mem_cons_self b l)
    have hl2 : ∀ x ∈ l, P x := fun x hx => hl x (List.mem_cons_of_mem b hx)
    obtain ⟨hbl, hsl⟩ := List.pairwise_cons.mp hs
    unfold sortInsert
    split
    · rename_i hab
      have rab : r a b := (hr a b ha hb).mp hab
      refine List.pairwise_cons.mpr ⟨?_, hs⟩
      intro x hx
      rcases List.mem_cons.mp hx with hx | hx
      · exact hx ▸ rab
      · exact htrans a b x ha hb (hl2 x hx) rab (hbl x hx)
    · rename_i hab
      have rba : r b a := by
        rcases htotal a b ha hb with h | h
        · exact absurd ((hr a b ha hb).mpr h) hab
        · exact h
      refine List.pairwise_cons.mpr ⟨?_, ih hl2 hsl⟩
      intro x hx
      rcases List.mem_cons.mp ((perm_sortInsert cmp a l).subset hx) with hx | hx
      · exact hx ▸ rba
      · exact hbl x hx

/-- The model of `sort` orders its argument, for a relation that the placement test decides
and that is total and transitive on the elements at hand. -/
theorem pairwise_arraySort {α : Type} (cmp : α → α → Option ℚ) (r : α → α → Prop)
    (P : α → Prop) (hr : ∀ a b, P a → P b → (sortsBefore cmp a b = true ↔ r a b))
    (htotal : ∀ a b, P a → P b → r a b ∨ r b a)
    (htrans : ∀ a b c, P a → P b → P c → r a b → r b c → r a c)
    (l : List α) (hl : ∀ x ∈ l, P x) : (arraySort cmp l).Pairwise r := by
  induction l with
  | nil => exact List.Pairwise.nil
  | cons a l ih =>
    have hl2 : ∀ x ∈ l, P x := fun x hx => hl x (List.mem_cons_of_mem a hx)
    show (sortInsert cmp a (arraySort cmp l)).Pairwise r
    exact pairwise_sortInsert cmp r P hr htotal htrans a (hl a (List.mem_cons_self a l)) _
      (fun x hx => hl2 x ((perm_arraySort cmp l).subset hx)) (ih hl2)

/-- The placement test of a comparator `fl (key b - key a)` is `key b ≤ key a`. -/
theorem sortsBefore_key {α : Type} (key : α → ℚ) (a b : α) :
    sortsBefore (fun a b => some (fl (key b - key a))) a b = true ↔ key b ≤ key a := by
  simp [sortsBefore, fl_nonpos_iff]

/-! ## Search -/

/-- The model of `includes` decides the contiguous-substring relation. -/
theorem includes_iff (s q : String) : includes s q = true ↔ q.data <:+: s.data := by
  unfold includes
  rw [List.any_eq_true]
  constructor
  · rintro ⟨t, ht, hp⟩
    rw [List.mem_tails] at ht
    exact List.infix_iff_prefix_suffix.mpr ⟨t, List.isPrefixOf_iff_prefix.mp hp, ht⟩
  · intro h
    obtain ⟨t, hp, ht⟩ := List.infix_iff_prefix_suffix.mp h
    exact ⟨t, (List.mem_tails _ _).mpr ht, List.isPrefixOf_iff_prefix.mpr hp⟩

/-- The sequence `renderStockCards` then `renderStockTable` leave in the card grid. -/
theorem cardSequence_render (stocks : List Quote) (s : Dashboard) :
    cardSequence (renderStockTable stocks (renderStockCards stocks s)) = stocks := by
  simp [cardSequence, renderStockTable, renderStockCards, Function.comp_def]

/-- The sequence `renderStockCards` then `renderStockTable` leave in the table. -/
theorem tableSequence_render (stocks : List Quote) (s : Dashboard) :
    tableSequence (renderStockTable stocks (renderStockCards stocks s)) = stocks := by
  simp [tableSequence, renderStockTable, renderStockCards, Function.comp_def]

/-- The sequence `handleSearch` hands to the card grid. -/
theorem cardSequence_handleSearch (h : Host) (query : String) (s : Dashboard) :
    cardSequence (handleSearch h query s) = s.stockData.filter (matchesQuery h query) :=
  cardSequence_render _ s

/-- C5: the sequence `handleSearch` hands to the card grid and to the table is the snapshot
filtered, in snapshot order, by "the lower-cased query is a contiguous substring of the
lower-cased ticker or of the lower-cased name"; it is a subsequence of the snapshot; with the
empty query (whose lower-casing is empty) it is the whole snapshot. -/
theorem handleSearch_filters (h : Host) (query : String) (s : Dashboard) :
    cardSequence (handleSearch h query s) =
      s.stockData.filter (fun r =>
        decide ((h.toLowerCase query).data <:+: (h.toLowerCase r.symbol).data ∨
          (h.toLowerCase query).data <:+: (h.toLowerCase r.name).data)) ∧
    tableSequence (handleSearch h query s) = cardSequence (handleSearch h query s) ∧
    (cardSequence (handleSearch h query s)).Sublist s.stockData ∧
    (h.toLowerCase "" = "" →
      cardSequence (handleSearch h "" s) = s.stockData ∧
      tableSequence (handleSearch h "" s) = s.stockData) := by
  have hcard : ∀ q, cardSequence (handleSearch h q s) = s.stockData.filter (matchesQuery h q) :=
    fun q => cardSequence_render _ s
  have htable : ∀ q, tableSequence (handleSearch h q s) =
      s.stockData.filter (matchesQuery h q) := fun q => tableSequence_render _ s
  have hpred : matchesQuery h query = fun r =>
      decide ((h.toLowerCase query).data <:+: (h.toLowerCase r.symbol).data ∨
        (h.toLowerCase query).data <:+: (h.toLowerCase r.name).data) := by
    funext r
    rw [Bool.eq_iff_iff]
    simp [matchesQuery, includes_iff]
  refine ⟨?_, ?_, ?_, ?_⟩
  · rw [hcard, hpred]
  · rw [hcard, htable]
  · rw [hcard]; exact List.filter_sublist _
  · intro hempty
    have hall : ∀ r ∈ s.stockData, matchesQuery h "" r = true := by
      intro r _
      have : includes (h.toLowerCase r.symbol) (h.toLowerCase "") = true := by
        rw [includes_iff, hempty]; exact List.nil_infix
      simp [matchesQuery, this]
    rw [hcard, htable, List.filter_eq_self.mpr hall]
    exact ⟨rfl, rfl⟩

/-- C5, at the fixture: the query `A` on the three-record snapshot with ASCII lower-casing. -/
theorem handleSearch_filters_witness :
    cardSequence (handleSearch asciiHost "" threeQuotesLoaded) = threeQuotes ∧
    tableSequence (handleSearch asciiHost "" threeQuotesLoaded) = threeQuotes ∧
    cardSequence (handleSearch asciiHost "A" threeQuotesLoaded) =
      [quoteOf "AAPL" "Apple Inc." 18550 "9,500,000",
       quoteOf "TSLA" "Tesla Inc." 24850 "10,000,000"] :=
  ⟨((handleSearch_filters asciiHost "" threeQuotesLoaded).2.2.2 (by decide)).1,
   ((handleSearch_filters asciiHost "" threeQuotesLoaded).2.2.2 (by decide)).2,
   by rw [(handleSearch_filters asciiHost "A" threeQuotesLoaded).1]; decide⟩

/-! ## Sort and frame -/

/-- C7: `handleSort`, `handleSearch`, `toggleFavorite` and `removeFromWatchlist` leave
`stockData` as it was: the same records in the same order. -/
theorem view_operations_keep_stockData (h : Host) (criteria query symbol : String)
    (s : Dashboard) :
    (handleSort h criteria s).stockData = s.stockData ∧
    (handleSearch h query s).stockData = s.stockData ∧
    (toggleFavorite symbol s).stockData = s.stockData ∧
    (removeFromWatchlist symbol s).stockData = s.stockData := by
  refine ⟨rfl, rfl, ?_, ?_⟩
  · unfold toggleFavorite renderWatchlist renderStockTable renderStockCards showToast
    dsimp only
    split <;> split <;> rfl
  · unfold removeFromWatchlist renderWatchlist renderStockTable renderStockCards
    dsimp only
    split
    · split <;> rfl
    · rfl

/-- The sequence `handleSort` hands to the views. -/
theorem cardSequence_handleSort (h : Host) (criteria : String) (s : Dashboard) :
    cardSequence (handleSort h criteria s) =
      match sortComparator h criteria with
      | some cmp => arraySort cmp s.stockData
      | none => s.stockData :=
  cardSequence_render _ s

/-- The comparator for `symbol`. -/
theorem sortComparator_symbol (h : Host) : sortComparator h "symbol" =
    some fun a b => some (h.localeCompare a.symbol b.symbol) := by
  simp [sortComparator]

/-- The comparator for `price`. -/
theorem sortComparator_price (h : Host) : sortComparator h "price" =
    some fun a b => some (fl (parseFloat b.price - parseFloat a.price)) := by
  simp [sortComparator]

/-- The comparator for `change`. -/
theorem sortComparator_change (h : Host) : sortComparator h "change" =
    some fun a b => some (fl (parseFloat b.change - parseFloat a.change)) := by
  simp [sortComparator]

/-- The comparator for `volume`. -/
theorem sortComparator_volume (h : Host) : sortComparator h "volume" =
    some fun a b =>
      match parseInt (removeCommas b.volume), parseInt (removeCommas a.volume) with
      | some vb, some va => some (fl (vb - va))
      | _, _ => none := by
  simp [sortComparator]

/-- The number read from `185.50`. -/
theorem parseFloat_18550 : parseFloat 18550 = 371 / 2 := by
  unfold parseFloat
  rw [fl_eq_of_pos 7 6526701022478336 (by norm_num) (by norm_num) (by norm_num) (by norm_num)]
  norm_num

/-- The number read from `248.50`. -/
theorem parseFloat_24850 : parseFloat 24850 = 497 / 2 := by
  unfold parseFloat
  rw [fl_eq_of_pos 7 8743316464074752 (by norm_num) (by norm_num) (by norm_num) (by norm_num)]
  norm_num

/-- The number read from `378.90`. -/
theorem parseFloat_37890 : parseFloat 37890 = 3332839646114611 / 8796093022208 := by
  unfold parseFloat
  rw [fl_eq_of_pos 8 6665679292229222 (by norm_num) (by norm_num) (by norm_num) (by norm_num)]
  norm_num

/-- Sorting AAPL 185.50, TSLA 248.50, MSFT 378.90 by price puts MSFT, TSLA, AAPL in that
order, whatever the other fields are. -/
theorem arraySort_price_three (h : Host) (a t m : Quote) (ha : a.price = 18550)
    (ht : t.price = 24850) (hm : m.price = 37890) (cmp : Quote → Quote → Option ℚ)
    (hcmp : sortComparator h "price" = some cmp) : arraySort cmp [a, t, m] = [m, t, a] := by
  have hc : cmp = fun a b => some (fl (parseFloat b.price - parseFloat a.price)) := by
    rw [sortComparator_price] at hcmp
    exact (Option.some.inj hcmp).symm
  have htm : sortsBefore cmp t m = false := by
    rw [hc, Bool.eq_false_iff, Ne, sortsBefore_key (fun q : Quote => parseFloat q.price), hm, ht,
      parseFloat_24850, parseFloat_37890]
    norm_num
  have ham : sortsBefore cmp a m = false := by
    rw [hc, Bool.eq_false_iff, Ne, sortsBefore_key (fun q : Quote => parseFloat q.price), hm, ha,
      parseFloat_18550, parseFloat_37890]
    norm_num
  have hat : sortsBefore cmp a t = false := by
    rw [hc, Bool.eq_false_iff, Ne, sortsBefore_key (fun q : Quote => parseFloat q.price), ht, ha,
      parseFloat_18550, parseFloat_24850]
    norm_num
  simp [arraySort, sortInsert, htm, ham, hat]

/-- C4 (as stated, refuted): on the snapshot AAPL 185.50, TSLA 248.50, MSFT 378.90 in which only
AAPL and TSLA match the query `a`, the search shows AAPL, TSLA, but the sort by price that
follows shows MSFT, TSLA, AAPL: the whole snapshot, not the filtered one. -/
theorem handleSort_after_handleSearch_example :
    (cardSequence (handleSearch asciiHost "a" threeQuotesLoaded)).map (fun q => q.symbol) =
      ["AAPL", "TSLA"] ∧
    (cardSequence (handleSort asciiHost "price"
      (handleSearch asciiHost "a" threeQuotesLoaded))).map (fun q => q.symbol) =
      ["MSFT", "TSLA", "AAPL"] ∧
    (cardSequence (handleSort asciiHost "price"
      (handleSearch asciiHost "a" threeQuotesLoaded))).map (fun q => q.symbol) ≠
      ["TSLA", "AAPL"] := by
  have h1 : (cardSequence (handleSearch asciiHost "a" threeQuotesLoaded)).map
      (fun q => q.symbol) = ["AAPL", "TSLA"] := by
    rw [cardSequence_handleSearch]; decide
  have h2 : (cardSequence (handleSort asciiHost "price"
      (handleSearch asciiHost "a" threeQuotesLoaded))).map (fun q => q.symbol) =
      ["MSFT", "TSLA", "AAPL"] := by
    rw [cardSequence_handleSort]
    rw [sortComparator_price]
    show (arraySort _ threeQuotes).map (fun q => q.symbol) = _
    rw [threeQuotes, arraySort_price_three asciiHost _ _ _ rfl rfl rfl _
      (sortComparator_price asciiHost)]
    rfl
  refine ⟨h1, h2, ?_⟩
  rw [h2]; decide

/-- C4 (amended): `handleSort` after `handleSearch` is `handleSort` alone: the sequence handed
to the card grid and the table is the whole snapshot arranged by the criterion, the query
having no effect on it.  On a snapshot AAPL 185.50, TSLA 248.50, MSFT 378.90 the query `a`
followed by the sort by price yields MSFT, TSLA, AAPL. -/
theorem handleSort_after_handleSearch (h : Host) (query criteria : String) (s : Dashboard) :
    handleSort h criteria (handleSearch h query s) = handleSort h criteria s ∧
    cardSequence (handleSort h criteria (handleSearch h query s)) =
      (match sortComparator h criteria with
        | some cmp => arraySort cmp s.stockData
        | none => s.stockData) ∧
    tableSequence (handleSort h criteria (handleSearch h query s)) =
      cardSequence (handleSort h criteria (handleSearch h query s)) ∧
    (cardSequence (handleSort h criteria (handleSearch h query s))).Perm s.stockData ∧
    (∀ a t m : Quote, a.symbol = "AAPL" → t.symbol = "TSLA" → m.symbol = "MSFT" →
      a.price = 18550 → t.price = 24850 → m.price = 37890 → s.stockData = [a, t, m] →
      (cardSequence (handleSort h "price" (handleSearch h "a" s))).map (fun q => q.symbol) =
        ["MSFT", "TSLA", "AAPL"]) := by
  have hEq : ∀ c q, handleSort h c (handleSearch h q s) = handleSort h c s := fun _ _ => rfl
  refine ⟨rfl, ?_, ?_, ?_, ?_⟩
  · rw [hEq, cardSequence_handleSort]
  · rw [hEq]
    exact (tableSequence_render _ s).trans (cardSequence_render _ s).symm
  · rw [hEq, cardSequence_handleSort]
    cases sortComparator h criteria with
    | none => exact List.Perm.refl _
    | some cmp => exact perm_arraySort cmp _
  · intro a t m hsa hst hsm hpa hpt hpm hdata
    rw [hEq, cardSequence_handleSort, hdata]
    rw [sortComparator_price]
    show (arraySort _ [a, t, m]).map (fun q => q.symbol) = _
    rw [arraySort_price_three h a t m hpa hpt hpm _ (sortComparator_price h)]
    simp [hsa, hst, hsm]

/-- C4 (amended), at the fixture. -/
theorem handleSort_after_handleSearch_witness :
    (cardSequence (handleSort asciiHost "price"
      (handleSearch asciiHost "a" threeQuotesLoaded))).map (fun q => q.symbol) =
      ["MSFT", "TSLA", "AAPL"] :=
  (handleSort_after_handleSearch asciiHost "a" "price" threeQuotesLoaded).2.2.2.2
    _ _ _ rfl rfl rfl rfl rfl rfl rfl

/-- The volume `10,000,000` reads as ten million. -/
theorem parseInt_tenMillion : parseInt (removeCommas "10,000,000") = some 10000000 := by
  have h : parseIntExact (removeCommas "10,000,000") = some 10000000 := by decide
  simp only [parseInt, h]
  rw [fl_eq_of_pos 23 5368709120000000 (by norm_num) (by norm_num) (by norm_num)
    (by norm_num)]
  norm_num

/-- The volume `9,500,000` reads as nine and a half million. -/
theorem parseInt_nineAndHalfMillion : parseInt (removeCommas "9,500,000") = some 9500000 := by
  have h : parseIntExact (removeCommas "9,500,000") = some 9500000 := by decide
  simp only [parseInt, h]
  rw [fl_eq_of_pos 23 5100273664000000 (by norm_num) (by norm_num) (by norm_num)
    (by norm_num)]
  norm_num


/-- The placement test of the volume comparator on two volumes that read as numbers. -/
theorem sortsBefore_volume (h : Host) (cmp : Quote → Quote → Option ℚ)
    (hcmp : sortComparator h "volume" = some cmp) (a b : Quote)
    (ha : (parseInt (removeCommas a.volume)).isSome)
    (hb : (parseInt (removeCommas b.volume)).isSome) :
    sortsBefore cmp a b = true ↔ volumeNumber b ≤ volumeNumber a := by
  rw [sortComparator_volume] at hcmp
  rw [← Option.some.inj hcmp]
  obtain ⟨va, hva⟩ := Option.isSome_iff_exists.mp ha
  obtain ⟨vb, hvb⟩ := Option.isSome_iff_exists.mp hb
  simp [sortsBefore, volumeNumber, hva, hvb, fl_nonpos_iff]

/-- Sorting by volume orders by the number read, when every volume reads as a number. -/
theorem pairwise_sort_volume (l : List Quote)
    (hvol : ∀ q ∈ l, (parseInt (removeCommas q.volume)).isSome) :
    (arraySort (fun a b : Quote =>
      match parseInt (removeCommas b.volume), parseInt (removeCommas a.volume) with
      | some vb, some va => some (fl (vb - va))
      | _, _ => none) l).Pairwise (fun a b => volumeNumber b ≤ volumeNumber a) := by
  refine pairwise_arraySort
    (fun a b : Quote =>
      match parseInt (removeCommas b.volume), parseInt (removeCommas a.volume) with
      | some vb, some va => some (fl (vb - va))
      | _, _ => none)
    (fun a b : Quote => volumeNumber b ≤ volumeNumber a)
    (fun q : Quote => (parseInt (removeCommas q.volume)).isSome = true) ?_ ?_ ?_ l hvol
  · intro a b ha hb
    obtain ⟨va, hva⟩ := Option.isSome_iff_exists.mp ha
    obtain ⟨vb, hvb⟩ := Option.isSome_iff_exists.mp hb
    simp only [sortsBefore, volumeNumber, hva, hvb, Option.getD_some, decide_eq_true_eq,
      fl_nonpos_iff, sub_nonpos]
  · intro a b _ _
    exact le_total _ _
  · intro a b c _ _ _ hab hbc
    exact le_trans hbc hab

/-- Sorting by a numeric key through `fl (key b - key a)` orders by the key, descending. -/
theorem pairwise_sort_key (key : Quote → ℚ) (l : List Quote) :
    (arraySort (fun a b : Quote => some (fl (key b - key a))) l).Pairwise
      (fun a b => key b ≤ key a) := by
  refine pairwise_arraySort (fun a b : Quote => some (fl (key b - key a)))
    (fun a b : Quote => key b ≤ key a) (fun _ => True) ?_ ?_ ?_ l (fun _ _ => trivial)
  · intro a b _ _
    exact sortsBefore_key key a b
  · intro a b _ _
    exact le_total _ _
  · intro a b c _ _ _ hab hbc
    exact le_trans hbc hab

/-- Sorting by ticker orders by a `localeCompare` that is total and transitive. -/
theorem pairwise_sort_symbol (h : Host) (l : List Quote)
    (htotal : ∀ a b, h.localeCompare a b ≤ 0 ∨ h.localeCompare b a ≤ 0)
    (htrans : ∀ a b c, h.localeCompare a b ≤ 0 → h.localeCompare b c ≤ 0 →
      h.localeCompare a c ≤ 0) :
    (arraySort (fun a b : Quote => some (h.localeCompare a.symbol b.symbol)) l).Pairwise
      (fun a b => h.localeCompare a.symbol b.symbol ≤ 0) := by
  refine pairwise_arraySort (fun a b : Quote => some (h.localeCompare a.symbol b.symbol))
    (fun a b : Quote => h.localeCompare a.symbol b.symbol ≤ 0) (fun _ => True) ?_ ?_ ?_ l
    (fun _ _ => trivial)
  · intro a b _ _
    simp only [sortsBefore, decide_eq_true_eq]
  · intro a b _ _
    exact htotal a.symbol b.symbol
  · intro a b c _ _ _
    exact htrans a.symbol b.symbol c.symbol

/-- The number read from `1.00`. -/
theorem parseFloat_100 : parseFloat 100 = 1 := by
  unfold parseFloat
  rw [fl_eq_of_pos 0 4503599627370496 (by norm_num) (by norm_num) (by norm_num) (by norm_num)]
  norm_num

/-- The number read from `-5.00`. -/
theorem parseFloat_neg_500 : parseFloat (-500) = -5 := by
  unfold parseFloat
  rw [fl_eq_of_neg 2 (-5629499534213120) (by norm_num) (by norm_num) (by norm_num)
    (by norm_num)]
  norm_num

/-- The ASCII host orders strings by the code-point order. -/
theorem asciiHost_localeCompare_nonpos (a b : String) :
    asciiHost.localeCompare a b ≤ 0 ↔ a ≤ b := by
  show (if a < b then (-1 : ℚ) else if a = b then 0 else 1) ≤ 0 ↔ a ≤ b
  rcases lt_trichotomy a b with hlt | heq | hgt
  · simp [hlt, hlt.le]
  · simp [heq]
  · have h1 : ¬ a < b := not_lt.mpr hgt.le
    have h2 : ¬ a = b := hgt.ne'
    have h3 : ¬ a ≤ b := not_le.mpr hgt
    simp [h1, h2, h3]

/-- The code of the decimal digit `m`. -/
theorem digitChar_toNat (m : ℕ) (h : m < 10) : (Nat.digitChar m).toNat = 48 + m := by
  interval_cases m <;> rfl

/-- The number a list of decimal digits spells, most significant first. -/
theorem toDigitsCore_spec :
    ∀ (fuel n : ℕ) (ds : List Char), n < fuel →
      ∃ pre : List Char, Nat.toDigitsCore 10 fuel n ds = pre ++ ds ∧ pre ≠ [] ∧
        (∀ c ∈ pre, 48 ≤ c.toNat ∧ c.toNat ≤ 57) ∧
        pre.foldl (fun acc c => acc * 10 + (c.toNat - 48)) 0 = n
  | 0, n, ds, h => absurd h (Nat.not_lt_zero n)
  | fuel + 1, n, ds, h => by
    have hd := digitChar_toNat (n % 10) (Nat.mod_lt n (by norm_num))
    rw [Nat.toDigitsCore]
    by_cases h0 : n / 10 = 0
    · refine ⟨[Nat.digitChar (n % 10)], by simp [h0], by simp, ?_, ?_⟩
      · intro c hc
        rw [List.mem_singleton] at hc
        rw [hc, hd]
        omega
      · simp only [List.foldl, hd]
        omega
    · obtain ⟨pre, h1, _, h3, h4⟩ :=
        toDigitsCore_spec fuel (n / 10) (Nat.digitChar (n % 10) :: ds) (by omega)
      refine ⟨pre ++ [Nat.digitChar (n % 10)], by simp [h0, h1], by simp, ?_, ?_⟩
      · intro c hc
        rw [List.mem_append, List.mem_singleton] at hc
        rcases hc with hc | hc
        · exact h3 c hc
        · rw [hc, hd]
          omega
      · rw [List.foldl_append, h4]
        simp only [List.foldl, hd]
        omega

/-- The decimal digits of `n` are digits, at least one, and spell `n`. -/
theorem toDigits_spec (n : ℕ) :
    Nat.toDigits 10 n ≠ [] ∧ (∀ c ∈ Nat.toDigits 10 n, 48 ≤ c.toNat ∧ c.toNat ≤ 57) ∧
      (Nat.toDigits 10 n).foldl (fun acc c => acc * 10 + (c.toNat - 48)) 0 = n := by
  obtain ⟨pre, h1, h2, h3, h4⟩ := toDigitsCore_spec (n + 1) n [] (Nat.lt_succ_self n)
  rw [List.append_nil] at h1
  rw [Nat.toDigits, h1]
  exact ⟨h2, h3, h4⟩

/-- Removing the commas undoes the grouping of a list of characters that has no comma. -/
theorem filter_groupDigits (ds : List Char) (hds : ∀ c ∈ ds, c ≠ Char.ofNat 44) :
    (groupDigits ds).filter (fun c => c != Char.ofNat 44) = ds := by
  have key : ∀ (ps : List (ℕ × Char)) (acc : List Char),
      (ps.foldl (fun acc p =>
        if p.1 ≠ 0 ∧ p.1 % 3 = 0 then p.2 :: Char.ofNat 44 :: acc else p.2 :: acc) acc).filter
        (fun c => c != Char.ofNat 44) =
      ((ps.map Prod.snd).reverse.filter (fun c => c != Char.ofNat 44)) ++
        acc.filter (fun c => c != Char.ofNat 44) := by
    intro ps
    induction ps with
    | nil => intro acc; simp
    | cons p ps ih =>
      intro acc
      rw [List.foldl_cons, ih]
      by_cases hp : p.1 ≠ 0 ∧ p.1 % 3 = 0
      · rw [if_pos hp]
        by_cases h : p.2 = Char.ofNat 44 <;> simp [List.filter_cons, h]
      · rw [if_neg hp]
        by_cases h : p.2 = Char.ofNat 44 <;> simp [List.filter_cons, h]
  unfold groupDigits
  rw [key, List.enum_map_snd, List.reverse_reverse, List.filter_nil, List.append_nil]
  rw [List.filter_eq_self]
  intro c hc
  simpa using hds c hc

/-- The text of a nonnegative integer in the en-US host, with its commas removed, is the
decimal digits of the integer. -/
theorem removeCommas_toLocaleString (n : ℕ) :
    removeCommas (asciiHost.toLocaleString (n : ℤ)) = String.mk (Nat.toDigits 10 n) := by
  have hdig := (toDigits_spec n).2.1
  show removeCommas ((if ((n : ℤ)) < 0 then "-" else "") ++
    String.mk (groupDigits (Nat.toDigits 10 (n : ℤ).natAbs))) = _
  rw [if_neg (by omega), Int.natAbs_ofNat]
  unfold removeCommas
  congr 1
  show List.filter _ ([] ++ groupDigits (Nat.toDigits 10 n)) = _
  rw [List.nil_append]
  apply filter_groupDigits
  intro c hc h44
  have := hdig c hc
  rw [h44] at this
  revert this
  decide

/-- A decimal digit is not white space. -/
theorem isStrWhiteSpace_digit {c : Char} (h : 48 ≤ c.toNat ∧ c.toNat ≤ 57) :
    isStrWhiteSpace c = false := by
  unfold isStrWhiteSpace
  simp only [List.mem_cons, List.mem_singleton, List.not_mem_nil, or_false, Bool.or_eq_false_iff,
    decide_eq_false_iff_not, Bool.and_eq_false_iff, decide_eq_false_iff_not]
  omega

/-- The value of a decimal digit in radix 10. -/
theorem digitValue_digit {c : Char} (h : 48 ≤ c.toNat ∧ c.toNat ≤ 57) :
    digitValue 10 c = some (c.toNat - 48) := by
  unfold digitValue
  simp only [h.1, h.2, and_self, if_true, Option.filter]
  rw [if_pos]
  rw [decide_eq_true_eq]
  omega

/-- On a nonempty text of decimal digits `parseInt` reads the number they spell. -/
theorem parseIntExact_digits (ds : List Char) (hne : ds ≠ [])
    (hd : ∀ c ∈ ds, 48 ≤ c.toNat ∧ c.toNat ≤ 57) :
    parseIntExact (String.mk ds) =
      some ((ds.foldl (fun acc c => acc * 10 + (c.toNat - 48)) 0 : ℕ) : ℤ) := by
  have htake : ds.takeWhile (fun c => (digitValue 10 c).isSome) = ds := by
    rw [List.takeWhile_eq_self_iff]
    intro x hx
    simp [digitValue_digit (hd x hx)]
  have hfm : ds.filterMap (digitValue 10) = ds.map (fun c => c.toNat - 48) := by
    rw [← List.filterMap_eq_map]
    apply List.filterMap_congr
    intro x hx
    exact digitValue_digit (hd x hx)
  have hfold : (ds.map (fun c => c.toNat - 48)).foldl (fun acc d => acc * 10 + d) 0 =
      ds.foldl (fun acc c => acc * 10 + (c.toNat - 48)) 0 := by
    rw [List.foldl_map]
  have hmapne : ds.map (fun c => c.toNat - 48) ≠ [] := by
    simpa using hne
  obtain ⟨c, t, rfl⟩ := List.exists_cons_of_ne_nil hne
  have hc := hd c (List.mem_cons_self _ _)
  have hdrop : (c :: t).dropWhile isStrWhiteSpace = c :: t := by
    rw [List.dropWhile_cons_of_neg]
    simp [isStrWhiteSpace_digit hc]
  have h45 : ¬ c.toNat = 45 := by omega
  have h43 : ¬ c.toNat = 43 := by omega
  unfold parseIntExact
  simp only [hdrop, h45, h43, if_false]
  cases t with
  | nil =>
    simp only [htake, hfm, hfold, if_neg hmapne]
    simp
  | cons d t =>
    have hdd := hd d (by simp)
    have hx : ¬ (c.toNat = 48 ∧ (d.toNat = 120 ∨ d.toNat = 88)) := by omega
    simp only [hx, if_false, htake, hfm, hfold, if_neg hmapne]
    simp

/-- A nonnegative integer below `2 ^ 53` is a double. -/
theorem fl_natCast (n : ℕ) (h : n < 2 ^ 53) : fl (n : ℚ) = n := by
  rcases Nat.eq_zero_or_pos n with h0 | hpos
  · rw [h0, Nat.cast_zero, fl_zero]
  · have hq : (0 : ℚ) < n := by exact_mod_cast hpos
    have habs : |(n : ℚ)| = n := abs_of_pos hq
    obtain ⟨h1, h2⟩ := binExp_spec hq
    have hlt : (2 : ℚ) ^ binExp (n : ℚ) < (2 : ℚ) ^ (53 : ℤ) := by
      have : ((n : ℕ) : ℚ) < ((2 ^ 53 : ℕ) : ℚ) := by exact_mod_cast h
      have e : ((2 ^ 53 : ℕ) : ℚ) = (2 : ℚ) ^ (53 : ℤ) := by norm_num
      rw [e] at this
      exact lt_of_le_of_lt h1 this
    have he := (zpow_lt_zpow_iff_right₀ (by norm_num : (1 : ℚ) < 2)).mp hlt
    obtain ⟨m, hm⟩ := Int.eq_ofNat_of_zero_le (show 0 ≤ 52 - binExp (n : ℚ) by omega)
    refine fl_eq_self_of_int (binExp (n : ℚ)) ((n : ℤ) * 2 ^ m) (by rw [habs]; exact h1)
      (by rw [habs]; exact h2) ?_
    have e2 : binExp (n : ℚ) - 52 = -(m : ℤ) := by omega
    rw [e2, zpow_neg, zpow_natCast]
    push_cast
    field_simp

/-- The volume comparator of `handleSort` reads back the integer that the en-US host has
rendered: `parseInt` of the text of `n` with its commas removed is `n`. -/
theorem parseInt_removeCommas_toLocaleString (n : ℕ) (h : n < 2 ^ 53) :
    parseInt (removeCommas (asciiHost.toLocaleString (n : ℤ))) = some (n : ℚ) := by
  obtain ⟨h1, h2, h3⟩ := toDigits_spec n
  have hp := parseIntExact_digits (Nat.toDigits 10 n) h1 h2
  rw [h3] at hp
  rw [removeCommas_toLocaleString]
  simp only [parseInt, hp]
  rw [Int.cast_natCast, fl_natCast n h]

/-- Sorting by volume orders by the integers that the en-US host has rendered as the volumes. -/
theorem pairwise_sort_volume_rendered (l : List Quote) (vol : Quote → ℕ)
    (hvol : ∀ q ∈ l, vol q < 2 ^ 53 ∧ q.volume = asciiHost.toLocaleString (vol q : ℤ)) :
    (arraySort (fun a b : Quote =>
      match parseInt (removeCommas b.volume), parseInt (removeCommas a.volume) with
      | some vb, some va => some (fl (vb - va))
      | _, _ => none) l).Pairwise (fun a b => vol b ≤ vol a) := by
  have hnum : ∀ q ∈ l, parseInt (removeCommas q.volume) = some (vol q : ℚ) := by
    intro q hq
    rw [(hvol q hq).2]
    exact parseInt_removeCommas_toLocaleString (vol q) (hvol q hq).1
  have hp := pairwise_sort_volume l (fun q hq => by rw [hnum q hq]; rfl)
  refine hp.imp_of_mem ?_
  intro a b ha hb hab
  have ha2 : a ∈ l := (perm_arraySort _ l).mem_iff.mp ha
  have hb2 : b ∈ l := (perm_arraySort _ l).mem_iff.mp hb
  have va : volumeNumber a = vol a := by
    simp only [volumeNumber, hnum a ha2, Option.getD_some]
  have vb : volumeNumber b = vol b := by
    simp only [volumeNumber, hnum b hb2, Option.getD_some]
  rw [va, vb] at hab
  exact_mod_cast hab

/-- The volume `1.200.000` reads as one: `parseInt` stops at the first full stop. -/
theorem parseInt_dotted_a : parseInt (removeCommas "1.200.000") = some 1 := by
  have h : parseIntExact (removeCommas "1.200.000") = some 1 := by decide
  simp only [parseInt, h]
  rw [fl_eq_of_pos 0 4503599627370496 (by norm_num) (by norm_num) (by norm_num) (by norm_num)]
  norm_num

/-- The volume `1.500.000` reads as one. -/
theorem parseInt_dotted_b : parseInt (removeCommas "1.500.000") = some 1 := by
  have h : parseIntExact (removeCommas "1.500.000") = some 1 := by decide
  simp only [parseInt, h]
  rw [fl_eq_of_pos 0 4503599627370496 (by norm_num) (by norm_num) (by norm_num) (by norm_num)]
  norm_num

/-- C6, a snapshot the claim fails on: in a host that groups digits with full stops the
volumes 1200000 and 1500000 are the texts `1.200.000` and `1.500.000`; `handleSort('volume')`
hands the two records to the card grid and the table in the order of the snapshot, the volume
1200000 before the volume 1500000, so the view is not in descending order of the numeric
value of the volumes with their thousands separators removed. -/
theorem handleSort_volume_dot_example :
    dotQuotes.map (fun q => q.volume) =
      [dotHost.toLocaleString 1200000, dotHost.toLocaleString 1500000] ∧
    dotQuotes.map (fun q => q.volume) = ["1.200.000", "1.500.000"] ∧
    cardSequence (handleSort dotHost "volume" dotQuotesLoaded) = dotQuotes ∧
    tableSequence (handleSort dotHost "volume" dotQuotesLoaded) = dotQuotes ∧
    ¬ (cardSequence (handleSort dotHost "volume" dotQuotesLoaded)).Pairwise
      (fun a b => ∀ na nb : ℕ, a.volume = dotHost.toLocaleString (na : ℤ) →
        b.volume = dotHost.toLocaleString (nb : ℤ) → nb ≤ na) := by
  have hv : dotQuotes.map (fun q => q.volume) = ["1.200.000", "1.500.000"] := by decide
  have hcard : cardSequence (handleSort dotHost "volume" dotQuotesLoaded) = dotQuotes := by
    rw [cardSequence_handleSort, sortComparator_volume]
    show arraySort _ [quoteOf "AAPL" "Apple Inc." 18550 (dotHost.toLocaleString 1200000),
      quoteOf "TSLA" "Tesla Inc." 24850 (dotHost.toLocaleString 1500000)] = _
    have ha : (quoteOf "AAPL" "Apple Inc." 18550 (dotHost.toLocaleString 1200000)).volume =
        "1.200.000" := by decide
    have hb : (quoteOf "TSLA" "Tesla Inc." 24850 (dotHost.toLocaleString 1500000)).volume =
        "1.500.000" := by decide
    simp only [arraySort, List.foldr, sortInsert, sortsBefore, ha, hb, parseInt_dotted_a,
      parseInt_dotted_b, sub_self, fl_zero, le_refl, decide_True, if_true]
    rfl
  refine ⟨rfl, hv, hcard, ?_, ?_⟩
  · exact (tableSequence_render _ _).trans ((cardSequence_render _ _).symm.trans hcard)
  · rw [hcard]
    intro hp
    have h12 := (List.pairwise_cons.mp hp).1 _ (List.mem_cons_self _ _) 1200000 1500000 rfl rfl
    omega

/-- C6 (amended): the sequence `handleSort` hands to the card grid and the table is a
rearrangement of the snapshot; for `symbol` it ascends in the host's `localeCompare` order of
the tickers (a consistent comparator: total and transitive); for `price` and for `change` it
descends in the number `parseFloat` reads from the field (the change field is the absolute
change, as opposed to the percent change, and is compared with its sign: a change of `1.00`
is placed before a change of `-5.00`); for `volume` it descends in the number `parseInt`
reads from the volume with its commas removed, when every volume reads as a number; when the
volumes are the texts of integers below `2 ^ 53` grouped with commas, as the en-US host
renders them, that number is the integer itself and the view descends in the integers, so
that a record with volume `10,000,000` is placed before one with `9,500,000`; for any other
criterion it is the snapshot in its own order. -/
theorem handleSort_sorted (h : Host) (criteria : String) (s : Dashboard) :
    tableSequence (handleSort h criteria s) = cardSequence (handleSort h criteria s) ∧
    (cardSequence (handleSort h criteria s)).Perm s.stockData ∧
    (criteria = "symbol" →
      (∀ a b, h.localeCompare a b ≤ 0 ∨ h.localeCompare b a ≤ 0) →
      (∀ a b c, h.localeCompare a b ≤ 0 → h.localeCompare b c ≤ 0 → h.localeCompare a c ≤ 0) →
      (cardSequence (handleSort h criteria s)).Pairwise
        (fun a b => h.localeCompare a.symbol b.symbol ≤ 0)) ∧
    (criteria = "price" →
      (cardSequence (handleSort h criteria s)).Pairwise
        (fun a b => parseFloat b.price ≤ parseFloat a.price)) ∧
    (criteria = "change" →
      (cardSequence (handleSort h criteria s)).Pairwise
        (fun a b => parseFloat b.change ≤ parseFloat a.change)) ∧
    (∀ a b : Quote, a.change = 100 → b.change = -500 →
      ∀ cmp, sortComparator h "change" = some cmp →
        sortsBefore cmp a b = true ∧ sortsBefore cmp b a = false) ∧
    (criteria = "volume" →
      (∀ q ∈ s.stockData, (parseInt (removeCommas q.volume)).isSome) →
      (cardSequence (handleSort h criteria s)).Pairwise
        (fun a b => volumeNumber b ≤ volumeNumber a)) ∧
    (criteria = "volume" →
      ∀ vol : Quote → ℕ,
        (∀ q ∈ s.stockData,
          vol q < 2 ^ 53 ∧ q.volume = asciiHost.toLocaleString (vol q : ℤ)) →
        (cardSequence (handleSort h criteria s)).Pairwise (fun a b => vol b ≤ vol a)) ∧
    (∀ a b : Quote, a.volume = "10,000,000" → b.volume = "9,500,000" →
      ∀ cmp, sortComparator h "volume" = some cmp →
        sortsBefore cmp a b = true ∧ sortsBefore cmp b a = false) ∧
    (criteria ≠ "symbol" → criteria ≠ "price" → criteria ≠ "change" → criteria ≠ "volume" →
      cardSequence (handleSort h criteria s) = s.stockData) := by
  refine ⟨(tableSequence_render _ s).trans (cardSequence_render _ s).symm, ?_, ?_, ?_, ?_, ?_,
    ?_, ?_, ?_, ?_⟩
  · rw [cardSequence_handleSort]
    cases sortComparator h criteria with
    | none => exact List.Perm.refl _
    | some cmp => exact perm_arraySort cmp _
  · intro hc htotal htrans
    subst hc
    rw [cardSequence_handleSort]
    rw [sortComparator_symbol]
    exact pairwise_sort_symbol h s.stockData htotal htrans
  · intro hc
    subst hc
    rw [cardSequence_handleSort]
    rw [sortComparator_price]
    exact pairwise_sort_key (fun q => parseFloat q.price) s.stockData
  · intro hc
    subst hc
    rw [cardSequence_handleSort]
    rw [sortComparator_change]
    exact pairwise_sort_key (fun q => parseFloat q.change) s.stockData
  · intro a b ha hb cmp hcmp
    rw [sortComparator_change] at hcmp
    rw [← Option.some.inj hcmp]
    constructor
    · rw [sortsBefore_key (fun q : Quote => parseFloat q.change), ha, hb, parseFloat_100,
        parseFloat_neg_500]
      norm_num
    · rw [Bool.eq_false_iff, Ne, sortsBefore_key (fun q : Quote => parseFloat q.change), ha, hb,
        parseFloat_100, parseFloat_neg_500]
      norm_num
  · intro hc hvol
    subst hc
    rw [cardSequence_handleSort]
    rw [sortComparator_volume]
    exact pairwise_sort_volume s.stockData hvol
  · intro hc vol hvol
    subst hc
    rw [cardSequence_handleSort]
    rw [sortComparator_volume]
    exact pairwise_sort_volume_rendered s.stockData vol hvol
  · intro a b ha hb cmp hcmp
    have pa : parseInt (removeCommas a.volume) = some 10000000 := by
      rw [ha]; exact parseInt_tenMillion
    have pb : parseInt (removeCommas b.volume) = some 9500000 := by
      rw [hb]; exact parseInt_nineAndHalfMillion
    have h1 : (parseInt (removeCommas a.volume)).isSome := by
      simp only [pa, Option.isSome_some]
    have h2 : (parseInt (removeCommas b.volume)).isSome := by
      simp only [pb, Option.isSome_some]
    have va : volumeNumber a = 10000000 := by
      simp only [volumeNumber, pa, Option.getD_some]
    have vb : volumeNumber b = 9500000 := by
      simp only [volumeNumber, pb, Option.getD_some]
    constructor
    · rw [sortsBefore_volume h cmp hcmp a b h1 h2, va, vb]; norm_num
    · rw [Bool.eq_false_iff, Ne, sortsBefore_volume h cmp hcmp b a h2 h1, va, vb]; norm_num
  · intro h1 h2 h3 h4
    rw [cardSequence_handleSort]
    have hcmp : sortComparator h criteria = none := by
      simp [sortComparator, h1, h2, h3, h4]
    rw [hcmp]

/-- C6 (amended), at the fixture: the three-record snapshot sorted by ticker and by volume on
the ASCII host; its volumes are the texts of 9500000, 10000000 and 1000000. -/
theorem handleSort_sorted_witness :
    (cardSequence (handleSort asciiHost "symbol" threeQuotesLoaded)).Pairwise
      (fun a b => asciiHost.localeCompare a.symbol b.symbol ≤ 0) ∧
    (cardSequence (handleSort asciiHost "volume" threeQuotesLoaded)).Pairwise
      (fun a b => volumeNumber b ≤ volumeNumber a) ∧
    (cardSequence (handleSort asciiHost "volume" threeQuotesLoaded)).Pairwise
      (fun a b => threeQuotesVolume b ≤ threeQuotesVolume a) ∧
    (∀ cmp, sortComparator asciiHost "volume" = some cmp →
      sortsBefore cmp (quoteOf "TSLA" "Tesla Inc." 24850 "10,000,000")
        (quoteOf "AAPL" "Apple Inc." 18550 "9,500,000") = true ∧
      sortsBefore cmp (quoteOf "AAPL" "Apple Inc." 18550 "9,500,000")
        (quoteOf "TSLA" "Tesla Inc." 24850 "10,000,000") = false) ∧
    cardSequence (handleSort asciiHost "sector" threeQuotesLoaded) = threeQuotes :=
  ⟨(handleSort_sorted asciiHost "symbol" threeQuotesLoaded).2.2.1 rfl
      (fun a b => by
        simp only [asciiHost_localeCompare_nonpos]; exact le_total a b)
      (fun a b c => by
        simp only [asciiHost_localeCompare_nonpos]; exact le_trans),
    (handleSort_sorted asciiHost "volume" threeQuotesLoaded).2.2.2.2.2.2.1 rfl (by decide),
    (handleSort_sorted asciiHost "volume" threeQuotesLoaded).2.2.2.2.2.2.2.1 rfl
      threeQuotesVolume (by decide),
    (handleSort_sorted asciiHost "volume" threeQuotesLoaded).2.2.2.2.2.2.2.2.1 _ _ rfl rfl,
    (handleSort_sorted asciiHost "sector" threeQuotesLoaded).2.2.2.2.2.2.2.2.2
      (by decide) (by decide) (by decide) (by decide)⟩

/-! ## Historical series -/

/-- The loop started at `i` pushes `i + 1` points. -/
theorem historyLoop_length (basePrice : ℚ) (tz : TimeZone) (now : ℤ) (rand : ℕ → ℚ) :
    ∀ (i k : ℕ) (cur : ℚ), (historyLoop basePrice tz now rand i k cur).length = i + 1
  | 0, k, cur => by simp [historyLoop]
  | i + 1, k, cur => by
    rw [historyLoop, List.length_cons, historyLoop_length basePrice tz now rand i]

/-- The dates of the points of the loop started at `i` are those of `now` moved back by
`i, i - 1, …, 0` days, in that order. -/
theorem historyLoop_dates (basePrice : ℚ) (tz : TimeZone) (now : ℤ) (rand : ℕ → ℚ) :
    ∀ (i k : ℕ) (cur : ℚ),
      (historyLoop basePrice tz now rand i k cur).map (fun p => p.date) =
        (List.range (i + 1)).reverse.map (fun j => Day (setDateBack tz now j))
  | 0, k, cur => by
    have : List.range (0 + 1) = [0] := rfl
    rw [this]
    simp [historyLoop]
  | i + 1, k, cur => by
    rw [historyLoop, List.map_cons, historyLoop_dates basePrice tz now rand i,
      List.range_succ (n := i + 1), List.reverse_append]
    simp

/-- The dates of the points of `generateHistoricalData(symbol, N)`, whatever the symbol and the
draws. -/
theorem generateHistoricalData_dates_eq (tz : TimeZone) (symbol : String) (N : ℕ) (now : ℤ)
    (rand : ℕ → ℚ) :
    (generateHistoricalData tz symbol N now rand).map (fun p => p.date) =
      (List.range (N + 1)).reverse.map (fun j => Day (setDateBack tz now j)) :=
  historyLoop_dates _ tz now rand N 0 _

/-- The series `generateHistoricalData(symbol, N)` has `N + 1` points. -/
theorem generateHistoricalData_length (tz : TimeZone) (symbol : String) (N : ℕ) (now : ℤ)
    (rand : ℕ → ℚ) : (generateHistoricalData tz symbol N now rand).length = N + 1 :=
  historyLoop_length _ tz now rand N 0 _

/-- Where the offset of local time from UTC is the same at `now` and at the local time `i`
days earlier, moving a date back by `i` days of the local calendar subtracts `i` days from
its time value. -/
theorem setDateBack_of_offset (tz : TimeZone) (now : ℤ) (i : ℕ)
    (h : tz.offsetAtLocal (LocalTime tz now - (i : ℤ) * msPerDay) = tz.offsetAtUTC now) :
    setDateBack tz now i = now - (i : ℤ) * msPerDay := by
  have hd := Int.ediv_add_emod (LocalTime tz now) msPerDay
  have hm : MakeDate (Day (LocalTime tz now) - (i : ℤ)) (TimeWithinDay (LocalTime tz now)) =
      LocalTime tz now - (i : ℤ) * msPerDay := by
    simp only [MakeDate, Day, TimeWithinDay]
    linear_combination hd
  simp only [setDateBack, hm, UTC, h]
  simp only [LocalTime]
  ring

/-- The day number of a time value `i` days earlier. -/
theorem Day_sub_days (t : ℤ) (i : ℕ) : Day (t - (i : ℤ) * msPerDay) = Day t - (i : ℤ) := by
  unfold Day
  rw [sub_eq_add_neg, ← neg_mul, Int.add_mul_ediv_right _ _ (by decide : msPerDay ≠ 0)]
  ring

/-- Where the offset of local time from UTC is the same on each of the `N + 1` days, the dates
of the series are the `N + 1` consecutive days that end on the UTC day of `now`. -/
theorem generateHistoricalData_dates_of_offset (tz : TimeZone) (symbol : String) (N : ℕ)
    (now : ℤ) (rand : ℕ → ℚ)
    (h : ∀ j : ℕ, j ≤ N →
      tz.offsetAtLocal (LocalTime tz now - (j : ℤ) * msPerDay) = tz.offsetAtUTC now) :
    (generateHistoricalData tz symbol N now rand).map (fun p => p.date) =
      (List.range (N + 1)).reverse.map (fun j : ℕ => Day now - (j : ℤ)) := by
  rw [generateHistoricalData_dates_eq]
  apply List.map_congr_left
  intro j hj
  rw [List.mem_reverse, List.mem_range] at hj
  rw [setDateBack_of_offset tz now j (h j (by omega)), Day_sub_days]

/-- Consecutive days counted down to a day `d` are strictly increasing and end on `d`. -/
theorem countdown_days (d : ℤ) (N : ℕ) :
    ((List.range (N + 1)).reverse.map (fun j : ℕ => d - (j : ℤ))).Pairwise (fun a b => a < b) ∧
    ((List.range (N + 1)).reverse.map (fun j : ℕ => d - (j : ℤ))).getLast? = some d := by
  constructor
  · rw [List.pairwise_map, List.pairwise_reverse]
    refine (List.pairwise_lt_range (N + 1)).imp ?_
    intro a b hab
    have : (a : ℤ) < (b : ℤ) := by exact_mod_cast hab
    linarith
  · rw [List.getLast?_map, List.getLast?_reverse, List.range_succ_eq_map]
    simp

/-- The day numbers of the series of 30 days drawn at 01:30 of 2024-04-10 in Berlin. -/
theorem berlin_dates (symbol : String) (rand : ℕ → ℚ) :
    (generateHistoricalData berlinZone symbol 30 berlinNight rand).map (fun p => p.date) =
      [19793, 19794, 19795, 19796, 19797, 19798, 19799, 19800, 19801, 19802, 19803, 19804, 19805,
       19806, 19807, 19808, 19809, 19810, 19811, 19812, 19813, 19813, 19814, 19815, 19816, 19817,
       19818, 19819, 19820, 19821, 19822] := by
  rw [generateHistoricalData_dates_eq]
  decide

/-- C9, a host the claim fails on: at 01:30 of 2024-04-10 in Berlin (23:30 of 2024-04-09 in
UTC) the series `generateHistoricalData('AAPL', 30)` has 31 points, but the stored dates are
not strictly
increasing and do not end today: the points of the iterations `i = 10` and `i = 9` are both
dated 2024-03-31, and the last point is dated 2024-04-09; the day offsets from today are not
`30, 29, …, 0`, whether today is the local day or the UTC day. -/
theorem generateHistoricalData_berlin_example :
    (generateHistoricalData berlinZone "AAPL" 30 berlinNight (fun _ => 0)).length = 31 ∧
    (generateHistoricalData berlinZone "AAPL" 30 berlinNight (fun _ => 0)).map
      (fun p => isoDate p.date) =
      ["2024-03-11", "2024-03-12", "2024-03-13", "2024-03-14", "2024-03-15", "2024-03-16",
       "2024-03-17", "2024-03-18", "2024-03-19", "2024-03-20", "2024-03-21", "2024-03-22",
       "2024-03-23", "2024-03-24", "2024-03-25", "2024-03-26", "2024-03-27", "2024-03-28",
       "2024-03-29", "2024-03-30", "2024-03-31", "2024-03-31", "2024-04-01", "2024-04-02",
       "2024-04-03", "2024-04-04", "2024-04-05", "2024-04-06", "2024-04-07", "2024-04-08",
       "2024-04-09"] ∧
    ¬ (generateHistoricalData berlinZone "AAPL" 30 berlinNight (fun _ => 0)).Pairwise
      (fun p q => p.date < q.date) ∧
    isoDate (Day (LocalTime berlinZone berlinNight)) = "2024-04-10" ∧
    (generateHistoricalData berlinZone "AAPL" 30 berlinNight (fun _ => 0)).getLast?.map
      (fun p => isoDate p.date) = some "2024-04-09" ∧
    (generateHistoricalData berlinZone "AAPL" 30 berlinNight (fun _ => 0)).map
      (fun p => Day (LocalTime berlinZone berlinNight) - p.date) ≠
      (List.range 31).reverse.map (fun j : ℕ => (j : ℤ)) ∧
    (generateHistoricalData berlinZone "AAPL" 30 berlinNight (fun _ => 0)).map
      (fun p => Day berlinNight - p.date) ≠ (List.range 31).reverse.map (fun j : ℕ => (j : ℤ)) := by
  have hd := berlin_dates "AAPL" (fun _ => 0)
  have hmap : ∀ f : ℤ → ℤ, (generateHistoricalData berlinZone "AAPL" 30 berlinNight (fun _ => 0)).map
      (fun p => f p.date) = ([19793, 19794, 19795, 19796, 19797, 19798, 19799, 19800, 19801, 19802, 19803, 19804, 19805,
       19806, 19807, 19808, 19809, 19810, 19811, 19812, 19813, 19813, 19814, 19815, 19816, 19817,
       19818, 19819, 19820, 19821, 19822]).map f := by
    intro f
    rw [← hd, List.map_map]
    rfl
  refine ⟨generateHistoricalData_length _ _ _ _ _, ?_, ?_, by decide, ?_, ?_, ?_⟩
  · have : (generateHistoricalData berlinZone "AAPL" 30 berlinNight (fun _ => 0)).map
        (fun p => isoDate p.date) = ([19793, 19794, 19795, 19796, 19797, 19798, 19799, 19800, 19801, 19802, 19803, 19804, 19805,
       19806, 19807, 19808, 19809, 19810, 19811, 19812, 19813, 19813, 19814, 19815, 19816, 19817,
       19818, 19819, 19820, 19821, 19822]).map isoDate := by
      rw [← hd, List.map_map]
      rfl
    rw [this]
    decide
  · intro hp
    have hp2 : ((generateHistoricalData berlinZone "AAPL" 30 berlinNight (fun _ => 0)).map
        (fun p => p.date)).Pairwise (fun a b => a < b) := List.pairwise_map.mpr hp
    rw [hd] at hp2
    revert hp2
    decide
  · have : (generateHistoricalData berlinZone "AAPL" 30 berlinNight (fun _ => 0)).getLast?.map
        (fun p => isoDate p.date) =
        (((generateHistoricalData berlinZone "AAPL" 30 berlinNight (fun _ => 0)).map
          (fun p => p.date)).getLast?).map isoDate := by
      rw [List.getLast?_map, Option.map_map]
      rfl
    rw [this, hd]
    decide
  · rw [hmap (fun d => Day (LocalTime berlinZone berlinNight) - d)]
    decide
  · rw [hmap (fun d => Day berlinNight - d)]
    decide

/-- C9 (amended): `generateHistoricalData(symbol, N)` returns `N + 1` points; the date of the
point of iteration `i = N, N - 1, …, 0`, in that order, is the UTC calendar day of `now` moved
back by `i` days of the host's local calendar; where the offset of local time from UTC is
the same on each of these days (a host on UTC, or in a zone without a change of offset in
the period), the day offsets of the dates from the UTC day of `now` are `N, N - 1, …, 0` in
that order, the dates are strictly increasing and the last point is dated with the UTC day
of `now`. -/
theorem generateHistoricalData_dates (tz : TimeZone) (symbol : String) (N : ℕ) (now : ℤ)
    (rand : ℕ → ℚ) :
    (generateHistoricalData tz symbol N now rand).length = N + 1 ∧
    (generateHistoricalData tz symbol N now rand).map (fun p => p.date) =
      (List.range (N + 1)).reverse.map (fun j : ℕ => Day (setDateBack tz now j)) ∧
    ((∀ j : ℕ, j ≤ N →
        tz.offsetAtLocal (LocalTime tz now - (j : ℤ) * msPerDay) = tz.offsetAtUTC now) →
      (generateHistoricalData tz symbol N now rand).map (fun p => Day now - p.date) =
        (List.range (N + 1)).reverse.map (fun j : ℕ => (j : ℤ)) ∧
      (generateHistoricalData tz symbol N now rand).Pairwise (fun p q => p.date < q.date) ∧
      (generateHistoricalData tz symbol N now rand).getLast?.map (fun p => p.date) =
        some (Day now)) := by
  refine ⟨generateHistoricalData_length tz symbol N now rand,
    generateHistoricalData_dates_eq tz symbol N now rand, ?_⟩
  intro h
  have hd := generateHistoricalData_dates_of_offset tz symbol N now rand h
  refine ⟨?_, ?_, ?_⟩
  · have : (generateHistoricalData tz symbol N now rand).map (fun p => Day now - p.date) =
        ((generateHistoricalData tz symbol N now rand).map (fun p => p.date)).map
          (fun d => Day now - d) := by
      rw [List.map_map]
      rfl
    rw [this, hd, List.map_map]
    apply List.map_congr_left
    intro j _
    simp
  · have hp := (countdown_days (Day now) N).1
    rw [← hd] at hp
    exact List.pairwise_map.mp hp
  · have hl := (countdown_days (Day now) N).2
    rw [← hd, List.getLast?_map] at hl
    exact hl

/-- C9 (amended), at the fixtures: a host on UTC at 23:30 of 2024-04-09, and the host in
Berlin at that instant for the 5 days that follow the change of offset. -/
theorem generateHistoricalData_dates_witness :
    ((generateHistoricalData utcZone "AAPL" 30 berlinNight (fun _ => 0)).map
        (fun p => Day berlinNight - p.date) =
        (List.range (30 + 1)).reverse.map (fun j : ℕ => (j : ℤ)) ∧
      (generateHistoricalData utcZone "AAPL" 30 berlinNight (fun _ => 0)).Pairwise
        (fun p q => p.date < q.date) ∧
      (generateHistoricalData utcZone "AAPL" 30 berlinNight (fun _ => 0)).getLast?.map
        (fun p => p.date) = some (Day berlinNight)) ∧
    ((generateHistoricalData berlinZone "AAPL" 5 berlinNight (fun _ => 0)).map
        (fun p => Day berlinNight - p.date) =
        (List.range (5 + 1)).reverse.map (fun j : ℕ => (j : ℤ)) ∧
      (generateHistoricalData berlinZone "AAPL" 5 berlinNight (fun _ => 0)).Pairwise
        (fun p q => p.date < q.date) ∧
      (generateHistoricalData berlinZone "AAPL" 5 berlinNight (fun _ => 0)).getLast?.map
        (fun p => p.date) = some (Day berlinNight)) :=
  ⟨(generateHistoricalData_dates utcZone "AAPL" 30 berlinNight (fun _ => 0)).2.2
      (fun _ _ => rfl),
    (generateHistoricalData_dates berlinZone "AAPL" 5 berlinNight (fun _ => 0)).2.2
      (by decide)⟩

/-! ## Fallback -/

/-- The snapshot `refreshData` installs is the fetched one. -/
theorem refreshData_stockData (fetched : List Quote) (s : Dashboard) :
    (refreshData fetched s).stockData = fetched := by
  have hb := renders_stockData fetched s
  rw [refreshData_eq]
  split
  · exact hb
  · split
    · exact hb
    · exact hb

/-- The tickers of the mock snapshot are those of `STOCKS`, in order. -/
theorem generateMockStockData_symbols (h : Host) (rand : ℕ → ℚ) :
    (generateMockStockData h rand).map (fun q => q.symbol) = STOCKS.map (fun st => st.symbol) := by
  simp [generateMockStockData, STOCKS, List.enum, List.enumFrom, mockQuote]

/-- An unusable provider makes `fetchStockData` return the mock snapshot. -/
theorem fetchStockData_unusable (h : Host) (first : FirstResponse)
    (perSymbol : String → SymbolResponse) (rand : ℕ → ℚ) (hun : unusable first = true) :
    fetchStockData h first perSymbol rand = generateMockStockData h rand := by
  cases first with
  | rejected => rfl
  | response ok json =>
    cases ok with
    | false => rfl
    | true =>
      cases json with
      | none => rfl
      | some data =>
        have hd : (data.note || data.information || !data.globalQuote) = true := by
          simpa [unusable] using hun
        simp only [fetchStockData, Bool.not_true, Bool.false_eq_true, if_false, hd, if_true]

/-- C10: when the provider is classified unusable, `fetchStockData` resolves to the output of
`generateMockStockData`, and that is the snapshot `refreshData` installs: 7 records, one per
tracked symbol, with the tickers AAPL, GOOGL, MSFT, TSLA, AMZN, NVDA, META in that order (a
list of records has no null or undefined entry). -/
theorem refreshData_fallback (h : Host) (first : FirstResponse)
    (perSymbol : String → SymbolResponse) (rand : ℕ → ℚ) (s : Dashboard)
    (hun : unusable first = true) :
    fetchStockData h first perSymbol rand = generateMockStockData h rand ∧
    (refreshData (fetchStockData h first perSymbol rand) s).stockData =
      generateMockStockData h rand ∧
    (refreshData (fetchStockData h first perSymbol rand) s).stockData.length = 7 ∧
    (refreshData (fetchStockData h first perSymbol rand) s).stockData.map (fun q => q.symbol) =
      ["AAPL", "GOOGL", "MSFT", "TSLA", "AMZN", "NVDA", "META"] ∧
    (refreshData (fetchStockData h first perSymbol rand) s).stockData.map (fun q => q.symbol) =
      STOCKS.map (fun st => st.symbol) := by
  have hf := fetchStockData_unusable h first perSymbol rand hun
  have hs := generateMockStockData_symbols h rand
  rw [hf, refreshData_stockData]
  refine ⟨rfl, rfl, ?_, ?_, hs⟩
  · have := congrArg List.length hs
    simpa [STOCKS] using this
  · rw [hs]; rfl

/-- C10, at the fixture: the first request is rejected. -/
theorem refreshData_fallback_witness :
    fetchStockData asciiHost .rejected (fun _ => .noQuote) (fun _ => 0) =
      generateMockStockData asciiHost (fun _ => 0) ∧
    (refreshData (fetchStockData asciiHost .rejected (fun _ => .noQuote) (fun _ => 0))
      aaplSelected).stockData = generateMockStockData asciiHost (fun _ => 0) ∧
    (refreshData (fetchStockData asciiHost .rejected (fun _ => .noQuote) (fun _ => 0))
      aaplSelected).stockData.length = 7 ∧
    (refreshData (fetchStockData asciiHost .rejected (fun _ => .noQuote) (fun _ => 0))
      aaplSelected).stockData.map (fun q => q.symbol) =
      ["AAPL", "GOOGL", "MSFT", "TSLA", "AMZN", "NVDA", "META"] ∧
    (refreshData (fetchStockData asciiHost .rejected (fun _ => .noQuote) (fun _ => 0))
      aaplSelected).stockData.map (fun q => q.symbol) = STOCKS.map (fun st => st.symbol) :=
  refreshData_fallback asciiHost .rejected (fun _ => .noQuote) (fun _ => 0) aaplSelected rfl

/-! ## The floor of the walk -/

/-- Evaluation of `toFixed2` at a non-negative argument. -/
theorem toFixed2_eq_of_nonneg {x : ℚ} (n : ℤ) (h0 : 0 ≤ x) (h1 : (n : ℚ) ≤ x * 100 + 1 / 2)
    (h2 : x * 100 + 1 / 2 < (n : ℚ) + 1) : toFixed2 x = n := by
  rw [toFixed2, if_neg (not_lt.mpr h0), Int.floor_eq_iff]
  exact ⟨h1, h2⟩

/-- Rounding to hundredths is monotone. -/
theorem toFixed2_mono {x y : ℚ} (h : x ≤ y) : toFixed2 x ≤ toFixed2 y := by
  unfold toFixed2
  by_cases hx : x < 0
  · by_cases hy : y < 0
    · rw [if_pos hx, if_pos hy]
      exact neg_le_neg (Int.floor_mono (by linarith))
    · rw [if_pos hx, if_neg hy]
      have h1 : (0 : ℤ) ≤ ⌊-x * 100 + 1 / 2⌋ := Int.floor_nonneg.mpr (by linarith)
      have h2 : (0 : ℤ) ≤ ⌊y * 100 + 1 / 2⌋ := Int.floor_nonneg.mpr (by linarith [not_lt.mp hy])
      linarith
  · have hy : ¬ y < 0 := not_lt.mpr (le_trans (not_lt.mp hx) h)
    rw [if_neg hx, if_neg hy]
    exact Int.floor_mono (by linarith)

/-- Rounding to hundredths loses at most half a hundredth. -/
theorem sub_le_toFixed2 (x : ℚ) : x - 1 / 200 ≤ (toFixed2 x : ℚ) / 100 := by
  unfold toFixed2
  by_cases hx : x < 0
  · rw [if_pos hx]
    have := Int.floor_le (-x * 100 + 1 / 2)
    push_cast
    linarith
  · rw [if_neg hx]
    have := Int.lt_floor_add_one (x * 100 + 1 / 2)
    linarith

/-- Every price the loop stores is at least the rendered clamp. -/
theorem historyLoop_floor (basePrice : ℚ) (tz : TimeZone) (now : ℤ) (rand : ℕ → ℚ) :
    ∀ (i k : ℕ) (cur : ℚ), ∀ p ∈ historyLoop basePrice tz now rand i k cur,
      toFixed2 (fl (basePrice * fl (7 / 10))) ≤ p.price
  | 0, k, cur => by
    intro p hp
    simp only [historyLoop, List.mem_singleton] at hp
    subst hp
    exact toFixed2_mono (le_max_right _ _)
  | i + 1, k, cur => by
    intro p hp
    rw [historyLoop, List.mem_cons] at hp
    rcases hp with hp | hp
    · subst hp
      exact toFixed2_mono (le_max_right _ _)
    · exact historyLoop_floor basePrice tz now rand i _ _ p hp

/-- A symbol outside the table has the default base price. -/
theorem getBasePrice_other (symbol : String)
    (h : symbol ∉ STOCKS.map (fun st => st.symbol)) : getBasePrice symbol = 100 := by
  have hl : prices.lookup symbol = none := by
    simp only [STOCKS, List.map, List.mem_cons, List.mem_singleton, List.not_mem_nil, or_false,
      not_or] at h
    obtain ⟨h1, h2, h3, h4, h5, h6, h7⟩ := h
    have e1 : (symbol == "AAPL") = false := beq_eq_false_iff_ne.mpr h1
    have e2 : (symbol == "GOOGL") = false := beq_eq_false_iff_ne.mpr h2
    have e3 : (symbol == "MSFT") = false := beq_eq_false_iff_ne.mpr h3
    have e4 : (symbol == "TSLA") = false := beq_eq_false_iff_ne.mpr h4
    have e5 : (symbol == "AMZN") = false := beq_eq_false_iff_ne.mpr h5
    have e6 : (symbol == "NVDA") = false := beq_eq_false_iff_ne.mpr h6
    have e7 : (symbol == "META") = false := beq_eq_false_iff_ne.mpr h7
    simp only [prices, List.lookup, e1, e2, e3, e4, e5, e6, e7]
  rw [getBasePrice, hl]

/-- The double `0.7`. -/
theorem fl_seven_tenths : fl (7 / 10) = 3152519739159347 / 4503599627370496 := by
  rw [fl_eq_of_pos (-1) 6305039478318694 (by norm_num) (by norm_num) (by norm_num) (by norm_num)]
  norm_num

/-- The double `0.9`. -/
theorem fl_nine_tenths : fl (9 / 10) = 8106479329266893 / 9007199254740992 := by
  rw [fl_eq_of_pos (-1) 8106479329266893 (by norm_num) (by norm_num) (by norm_num) (by norm_num)]
  norm_num

/-- The double `0.48`. -/
theorem fl_48_hundredths : fl (48 / 100) = 1080863910568919 / 2251799813685248 := by
  rw [fl_eq_of_pos (-2) 8646911284551352 (by norm_num) (by norm_num) (by norm_num) (by norm_num)]
  norm_num

/-- The double `0.03`. -/
theorem fl_3_hundredths : fl (3 / 100) = 1080863910568919 / 36028797018963968 := by
  rw [fl_eq_of_pos (-6) 8646911284551352 (by norm_num) (by norm_num) (by norm_num) (by norm_num)]
  norm_num

/-- The double `185.50`, the base price of AAPL. -/
theorem fl_base_AAPL : fl (18550 / 100) = 371 / 2 := by
  rw [fl_eq_of_pos 7 6526701022478336 (by norm_num) (by norm_num) (by norm_num) (by norm_num)]
  norm_num

/-- The base price of AAPL. -/
theorem getBasePrice_AAPL : getBasePrice "AAPL" = 371 / 2 := by
  have h : (prices.lookup "AAPL") = some (371 / 2) := by
    rw [← fl_base_AAPL]; rfl
  rw [getBasePrice, h]
  norm_num

/-- The double `141.80`, the base price of GOOGL. -/
theorem fl_base_GOOGL : fl (14180 / 100) = 2494571981098189 / 17592186044416 := by
  rw [fl_eq_of_pos 7 4989143962196378 (by norm_num) (by norm_num) (by norm_num) (by norm_num)]
  norm_num

/-- The base price of GOOGL. -/
theorem getBasePrice_GOOGL : getBasePrice "GOOGL" = 2494571981098189 / 17592186044416 := by
  have h : (prices.lookup "GOOGL") = some (2494571981098189 / 17592186044416) := by
    rw [← fl_base_GOOGL]; rfl
  rw [getBasePrice, h]
  norm_num

/-- The double `378.90`, the base price of MSFT. -/
theorem fl_base_MSFT : fl (37890 / 100) = 3332839646114611 / 8796093022208 := by
  rw [fl_eq_of_pos 8 6665679292229222 (by norm_num) (by norm_num) (by norm_num) (by norm_num)]
  norm_num

/-- The base price of MSFT. -/
theorem getBasePrice_MSFT : getBasePrice "MSFT" = 3332839646114611 / 8796093022208 := by
  have h : (prices.lookup "MSFT") = some (3332839646114611 / 8796093022208) := by
    rw [← fl_base_MSFT]; rfl
  rw [getBasePrice, h]
  norm_num

/-- The double `248.50`, the base price of TSLA. -/
theorem fl_base_TSLA : fl (24850 / 100) = 497 / 2 := by
  rw [fl_eq_of_pos 7 8743316464074752 (by norm_num) (by norm_num) (by norm_num) (by norm_num)]
  norm_num

/-- The base price of TSLA. -/
theorem getBasePrice_TSLA : getBasePrice "TSLA" = 497 / 2 := by
  have h : (prices.lookup "TSLA") = some (497 / 2) := by
    rw [← fl_base_TSLA]; rfl
  rw [getBasePrice, h]
  norm_num

/-- The double `178.25`, the base price of AMZN. -/
theorem fl_base_AMZN : fl (17825 / 100) = 713 / 4 := by
  rw [fl_eq_of_pos 7 6271614324834304 (by norm_num) (by norm_num) (by norm_num) (by norm_num)]
  norm_num

/-- The base price of AMZN. -/
theorem getBasePrice_AMZN : getBasePrice "AMZN" = 713 / 4 := by
  have h : (prices.lookup "AMZN") = some (713 / 4) := by
    rw [← fl_base_AMZN]; rfl
  rw [getBasePrice, h]
  norm_num

/-- The double `495.80`, the base price of NVDA. -/
theorem fl_base_NVDA : fl (49580 / 100) = 8722205840821453 / 17592186044416 := by
  rw [fl_eq_of_pos 8 8722205840821453 (by norm_num) (by norm_num) (by norm_num) (by norm_num)]
  norm_num

/-- The base price of NVDA. -/
theorem getBasePrice_NVDA : getBasePrice "NVDA" = 8722205840821453 / 17592186044416 := by
  have h : (prices.lookup "NVDA") = some (8722205840821453 / 17592186044416) := by
    rw [← fl_base_NVDA]; rfl
  rw [getBasePrice, h]
  norm_num

/-- The double `505.75`, the base price of META. -/
theorem fl_base_META : fl (50575 / 100) = 2023 / 4 := by
  rw [fl_eq_of_pos 8 8897248091963392 (by norm_num) (by norm_num) (by norm_num) (by norm_num)]
  norm_num

/-- The base price of META. -/
theorem getBasePrice_META : getBasePrice "META" = 2023 / 4 := by
  have h : (prices.lookup "META") = some (2023 / 4) := by
    rw [← fl_base_META]; rfl
  rw [getBasePrice, h]
  norm_num

/-- The clamp of AAPL. -/
theorem clamp_AAPL : fl (371 / 2 * fl (7 / 10)) = 4568690715734835 / 35184372088832 := by
  rw [fl_seven_tenths, fl_eq_of_pos 7 4568690715734835 (by norm_num) (by norm_num) (by norm_num) (by norm_num)]
  norm_num

/-- The clamp of AAPL as `toFixed(2)` renders it, in hundredths. -/
theorem priceFloor_AAPL : priceFloor "AAPL" = 12985 := by
  rw [priceFloor, getBasePrice_AAPL, clamp_AAPL, toFixed2_eq_of_nonneg 12985 (by norm_num) (by norm_num) (by norm_num)]

/-- The clamp of GOOGL. -/
theorem clamp_GOOGL :
    fl (2494571981098189 / 17592186044416 * fl (7 / 10)) =
      6984801547074929 / 70368744177664 := by
  rw [fl_seven_tenths, fl_eq_of_pos 6 6984801547074929 (by norm_num) (by norm_num) (by norm_num) (by norm_num)]
  norm_num

/-- The clamp of GOOGL as `toFixed(2)` renders it, in hundredths. -/
theorem priceFloor_GOOGL : priceFloor "GOOGL" = 9926 := by
  rw [priceFloor, getBasePrice_GOOGL, clamp_GOOGL, toFixed2_eq_of_nonneg 9926 (by norm_num) (by norm_num) (by norm_num)]

/-- The clamp of MSFT. -/
theorem clamp_MSFT :
    fl (3332839646114611 / 8796093022208 * fl (7 / 10)) =
      4665975504560455 / 17592186044416 := by
  rw [fl_seven_tenths, fl_eq_of_pos 8 4665975504560455 (by norm_num) (by norm_num) (by norm_num) (by norm_num)]
  norm_num

/-- The clamp of MSFT as `toFixed(2)` renders it, in hundredths. -/
theorem priceFloor_MSFT : priceFloor "MSFT" = 26523 := by
  rw [priceFloor, getBasePrice_MSFT, clamp_MSFT, toFixed2_eq_of_nonneg 26523 (by norm_num) (by norm_num) (by norm_num)]

/-- The clamp of TSLA. -/
theorem clamp_TSLA : fl (497 / 2 * fl (7 / 10)) = 3060160762426163 / 17592186044416 := by
  rw [fl_seven_tenths, fl_eq_of_pos 7 6120321524852326 (by norm_num) (by norm_num) (by norm_num) (by norm_num)]
  norm_num

/-- The clamp of TSLA as `toFixed(2)` renders it, in hundredths. -/
theorem priceFloor_TSLA : priceFloor "TSLA" = 17395 := by
  rw [priceFloor, getBasePrice_TSLA, clamp_TSLA, toFixed2_eq_of_nonneg 17395 (by norm_num) (by norm_num) (by norm_num)]

/-- The clamp of AMZN. -/
theorem clamp_AMZN : fl (713 / 4 * fl (7 / 10)) = 8780260054768025 / 70368744177664 := by
  rw [fl_seven_tenths, fl_eq_of_pos 6 8780260054768025 (by norm_num) (by norm_num) (by norm_num) (by norm_num)]
  norm_num

/-- The clamp of AMZN as `toFixed(2)` renders it, in hundredths. -/
theorem priceFloor_AMZN : priceFloor "AMZN" = 12477 := by
  rw [priceFloor, getBasePrice_AMZN, clamp_AMZN, toFixed2_eq_of_nonneg 12477 (by norm_num) (by norm_num) (by norm_num)]

/-- The clamp of NVDA. -/
theorem clamp_NVDA :
    fl (8722205840821453 / 17592186044416 * fl (7 / 10)) =
      6105544088575017 / 17592186044416 := by
  rw [fl_seven_tenths, fl_eq_of_pos 8 6105544088575017 (by norm_num) (by norm_num) (by norm_num) (by norm_num)]
  norm_num

/-- The clamp of NVDA as `toFixed(2)` renders it, in hundredths. -/
theorem priceFloor_NVDA : priceFloor "NVDA" = 34706 := by
  rw [priceFloor, getBasePrice_NVDA, clamp_NVDA, toFixed2_eq_of_nonneg 34706 (by norm_num) (by norm_num) (by norm_num)]

/-- The clamp of META. -/
theorem clamp_META : fl (2023 / 4 * fl (7 / 10)) = 3114036832187187 / 8796093022208 := by
  rw [fl_seven_tenths, fl_eq_of_pos 8 6228073664374374 (by norm_num) (by norm_num) (by norm_num) (by norm_num)]
  norm_num

/-- The clamp of META as `toFixed(2)` renders it, in hundredths. -/
theorem priceFloor_META : priceFloor "META" = 35402 := by
  rw [priceFloor, getBasePrice_META, clamp_META, toFixed2_eq_of_nonneg 35402 (by norm_num) (by norm_num) (by norm_num)]

/-- The clamp of a symbol outside the table, in hundredths. -/
theorem toFixed2_clamp_other : toFixed2 (fl (100 * fl (7 / 10))) = 7000 := by
  rw [fl_seven_tenths, fl_eq_of_pos 6 4925812092436480 (by norm_num) (by norm_num) (by norm_num) (by norm_num), toFixed2_eq_of_nonneg 7000 (by norm_num) (by norm_num) (by norm_num)]

/-- The change of one step of the AMZN walk when the draw is `0`. -/
theorem amzn_change :
    fl (fl (0 - fl (48 / 100)) * fl (713 / 4 * fl (3 / 100))) =
      (-5779919761767295 / 2251799813685248) := by
  have h1 : fl (0 - 1080863910568919 / 2251799813685248) = (-1080863910568919 / 2251799813685248) := by
    rw [fl_eq_of_neg (-2) (-8646911284551352) (by norm_num) (by norm_num) (by norm_num) (by norm_num)]
    norm_num
  have h2 : fl (713 / 4 * (1080863910568919 / 36028797018963968)) = 1505187437960233 / 281474976710656 := by
    rw [fl_eq_of_pos 2 6020749751840932 (by norm_num) (by norm_num) (by norm_num) (by norm_num)]
    norm_num
  rw [fl_48_hundredths, fl_3_hundredths, h1, h2, fl_eq_of_neg 1 (-5779919761767295) (by norm_num) (by norm_num) (by norm_num) (by norm_num)]
  norm_num

/-- The start of the AMZN walk, `basePrice * 0.9`. -/
theorem amzn_start : fl (713 / 4 * fl (9 / 10)) = 2822226446175437 / 17592186044416 := by
  rw [fl_nine_tenths, fl_eq_of_pos 7 5644452892350874 (by norm_num) (by norm_num) (by norm_num) (by norm_num)]
  norm_num

/-- Step 1 of the AMZN walk with every draw `0`. -/
theorem amzn_walk_1 :
    nextPrice (713 / 4) 0 (2822226446175437 / 17592186044416) =
      1388535411518315 / 8796093022208 := by
  rw [nextPrice, amzn_change, clamp_AMZN, fl_eq_of_pos 7 5554141646073260 (by norm_num) (by norm_num) (by norm_num) (by norm_num)]
  rw [max_eq_left (by norm_num)]
  norm_num

/-- The price stored at step 1 of the AMZN walk, in hundredths. -/
theorem amzn_price_1 : toFixed2 (1388535411518315 / 8796093022208) = 15786 :=
  toFixed2_eq_of_nonneg 15786 (by norm_num) (by norm_num) (by norm_num)

/-- Step 2 of the AMZN walk with every draw `0`. -/
theorem amzn_walk_2 :
    nextPrice (713 / 4) 0 (1388535411518315 / 8796093022208) =
      2731915199897823 / 17592186044416 := by
  rw [nextPrice, amzn_change, clamp_AMZN, fl_eq_of_pos 7 5463830399795646 (by norm_num) (by norm_num) (by norm_num) (by norm_num)]
  rw [max_eq_left (by norm_num)]
  norm_num

/-- The price stored at step 2 of the AMZN walk, in hundredths. -/
theorem amzn_price_2 : toFixed2 (2731915199897823 / 17592186044416) = 15529 :=
  toFixed2_eq_of_nonneg 15529 (by norm_num) (by norm_num) (by norm_num)

/-- Step 3 of the AMZN walk with every draw `0`. -/
theorem amzn_walk_3 :
    nextPrice (713 / 4) 0 (2731915199897823 / 17592186044416) =
      335844947094877 / 2199023255552 := by
  rw [nextPrice, amzn_change, clamp_AMZN, fl_eq_of_pos 7 5373519153518032 (by norm_num) (by norm_num) (by norm_num) (by norm_num)]
  rw [max_eq_left (by norm_num)]
  norm_num

/-- The price stored at step 3 of the AMZN walk, in hundredths. -/
theorem amzn_price_3 : toFixed2 (335844947094877 / 2199023255552) = 15272 :=
  toFixed2_eq_of_nonneg 15272 (by norm_num) (by norm_num) (by norm_num)

/-- Step 4 of the AMZN walk with every draw `0`. -/
theorem amzn_walk_4 :
    nextPrice (713 / 4) 0 (335844947094877 / 2199023255552) =
      2641603953620209 / 17592186044416 := by
  rw [nextPrice, amzn_change, clamp_AMZN, fl_eq_of_pos 7 5283207907240418 (by norm_num) (by norm_num) (by norm_num) (by norm_num)]
  rw [max_eq_left (by norm_num)]
  norm_num

/-- The price stored at step 4 of the AMZN walk, in hundredths. -/
theorem amzn_price_4 : toFixed2 (2641603953620209 / 17592186044416) = 15016 :=
  toFixed2_eq_of_nonneg 15016 (by norm_num) (by norm_num) (by norm_num)

/-- Step 5 of the AMZN walk with every draw `0`. -/
theorem amzn_walk_5 :
    nextPrice (713 / 4) 0 (2641603953620209 / 17592186044416) =
      1298224165240701 / 8796093022208 := by
  rw [nextPrice, amzn_change, clamp_AMZN, fl_eq_of_pos 7 5192896660962804 (by norm_num) (by norm_num) (by norm_num) (by norm_num)]
  rw [max_eq_left (by norm_num)]
  norm_num

/-- The price stored at step 5 of the AMZN walk, in hundredths. -/
theorem amzn_price_5 : toFixed2 (1298224165240701 / 8796093022208) = 14759 :=
  toFixed2_eq_of_nonneg 14759 (by norm_num) (by norm_num) (by norm_num)

/-- Step 6 of the AMZN walk with every draw `0`. -/
theorem amzn_walk_6 :
    nextPrice (713 / 4) 0 (1298224165240701 / 8796093022208) =
      2551292707342595 / 17592186044416 := by
  rw [nextPrice, amzn_change, clamp_AMZN, fl_eq_of_pos 7 5102585414685190 (by norm_num) (by norm_num) (by norm_num) (by norm_num)]
  rw [max_eq_left (by norm_num)]
  norm_num

/-- The price stored at step 6 of the AMZN walk, in hundredths. -/
theorem amzn_price_6 : toFixed2 (2551292707342595 / 17592186044416) = 14502 :=
  toFixed2_eq_of_nonneg 14502 (by norm_num) (by norm_num) (by norm_num)

/-- Step 7 of the AMZN walk with every draw `0`. -/
theorem amzn_walk_7 :
    nextPrice (713 / 4) 0 (2551292707342595 / 17592186044416) =
      626534271050947 / 4398046511104 := by
  rw [nextPrice, amzn_change, clamp_AMZN, fl_eq_of_pos 7 5012274168407576 (by norm_num) (by norm_num) (by norm_num) (by norm_num)]
  rw [max_eq_left (by norm_num)]
  norm_num

/-- The price stored at step 7 of the AMZN walk, in hundredths. -/
theorem amzn_price_7 : toFixed2 (626534271050947 / 4398046511104) = 14246 :=
  toFixed2_eq_of_nonneg 14246 (by norm_num) (by norm_num) (by norm_num)

/-- Step 8 of the AMZN walk with every draw `0`. -/
theorem amzn_walk_8 :
    nextPrice (713 / 4) 0 (626534271050947 / 4398046511104) =
      2460981461064981 / 17592186044416 := by
  rw [nextPrice, amzn_change, clamp_AMZN, fl_eq_of_pos 7 4921962922129962 (by norm_num) (by norm_num) (by norm_num) (by norm_num)]
  rw [max_eq_left (by norm_num)]
  norm_num

/-- The price stored at step 8 of the AMZN walk, in hundredths. -/
theorem amzn_price_8 : toFixed2 (2460981461064981 / 17592186044416) = 13989 :=
  toFixed2_eq_of_nonneg 13989 (by norm_num) (by norm_num) (by norm_num)

/-- Step 9 of the AMZN walk with every draw `0`. -/
theorem amzn_walk_9 :
    nextPrice (713 / 4) 0 (2460981461064981 / 17592186044416) =
      1207912918963087 / 8796093022208 := by
  rw [nextPrice, amzn_change, clamp_AMZN, fl_eq_of_pos 7 4831651675852348 (by norm_num) (by norm_num) (by norm_num) (by norm_num)]
  rw [max_eq_left (by norm_num)]
  norm_num

/-- The price stored at step 9 of the AMZN walk, in hundredths. -/
theorem amzn_price_9 : toFixed2 (1207912918963087 / 8796093022208) = 13732 :=
  toFixed2_eq_of_nonneg 13732 (by norm_num) (by norm_num) (by norm_num)

/-- Step 10 of the AMZN walk with every draw `0`. -/
theorem amzn_walk_10 :
    nextPrice (713 / 4) 0 (1207912918963087 / 8796093022208) =
      2370670214787367 / 17592186044416 := by
  rw [nextPrice, amzn_change, clamp_AMZN, fl_eq_of_pos 7 4741340429574734 (by norm_num) (by norm_num) (by norm_num) (by norm_num)]
  rw [max_eq_left (by norm_num)]
  norm_num

/-- The price stored at step 10 of the AMZN walk, in hundredths. -/
theorem amzn_price_10 : toFixed2 (2370670214787367 / 17592186044416) = 13476 :=
  toFixed2_eq_of_nonneg 13476 (by norm_num) (by norm_num) (by norm_num)

/-- Step 11 of the AMZN walk with every draw `0`. -/
theorem amzn_walk_11 :
    nextPrice (713 / 4) 0 (2370670214787367 / 17592186044416) =
      145344661978035 / 1099511627776 := by
  rw [nextPrice, amzn_change, clamp_AMZN, fl_eq_of_pos 7 4651029183297120 (by norm_num) (by norm_num) (by norm_num) (by norm_num)]
  rw [max_eq_left (by norm_num)]
  norm_num

/-- The price stored at step 11 of the AMZN walk, in hundredths. -/
theorem amzn_price_11 : toFixed2 (145344661978035 / 1099511627776) = 13219 :=
  toFixed2_eq_of_nonneg 13219 (by norm_num) (by norm_num) (by norm_num)

/-- Step 12 of the AMZN walk with every draw `0`. -/
theorem amzn_walk_12 :
    nextPrice (713 / 4) 0 (145344661978035 / 1099511627776) =
      2280358968509753 / 17592186044416 := by
  rw [nextPrice, amzn_change, clamp_AMZN, fl_eq_of_pos 7 4560717937019506 (by norm_num) (by norm_num) (by norm_num) (by norm_num)]
  rw [max_eq_left (by norm_num)]
  norm_num

/-- The price stored at step 12 of the AMZN walk, in hundredths. -/
theorem amzn_price_12 : toFixed2 (2280358968509753 / 17592186044416) = 12962 :=
  toFixed2_eq_of_nonneg 12962 (by norm_num) (by norm_num) (by norm_num)

/-- Step 13 of the AMZN walk with every draw `0`. -/
theorem amzn_walk_13 :
    nextPrice (713 / 4) 0 (2280358968509753 / 17592186044416) =
      1117601672685473 / 8796093022208 := by
  rw [nextPrice, amzn_change, clamp_AMZN, fl_eq_of_pos 6 8940813381483784 (by norm_num) (by norm_num) (by norm_num) (by norm_num)]
  rw [max_eq_left (by norm_num)]
  norm_num

/-- The price stored at step 13 of the AMZN walk, in hundredths. -/
theorem amzn_price_13 : toFixed2 (1117601672685473 / 8796093022208) = 12706 :=
  toFixed2_eq_of_nonneg 12706 (by norm_num) (by norm_num) (by norm_num)

/-- Step 14 of the AMZN walk with every draw `0`. -/
theorem amzn_walk_14 :
    nextPrice (713 / 4) 0 (1117601672685473 / 8796093022208) =
      8780260054768025 / 70368744177664 := by
  rw [nextPrice, amzn_change, clamp_AMZN, fl_eq_of_pos 6 8760190888928556 (by norm_num) (by norm_num) (by norm_num) (by norm_num)]
  rw [max_eq_right (by norm_num)]

/-- The price stored at step 14 of the AMZN walk, in hundredths. -/
theorem amzn_price_14 : toFixed2 (8780260054768025 / 70368744177664) = 12477 :=
  toFixed2_eq_of_nonneg 12477 (by norm_num) (by norm_num) (by norm_num)

/-- C8 (as stated, refuted): with every draw `0`, the 14-point series of AMZN walks down to the
clamp; its last point stores 124.77, below 0.7 × 178.25 = 124.775 and below the double
`basePrice * 0.7` the walk was clamped to. -/
theorem generateHistoricalData_amzn_example :
    "AMZN" ∉ objectPrototypeNames ∧
    getBasePrice "AMZN" = 17825 / 100 ∧
    (generateHistoricalData utcZone "AMZN" 13 0 (fun _ => 0)).map (fun p => p.price) =
      [15786, 15529, 15272, 15016, 14759, 14502, 14246, 13989, 13732, 13476, 13219, 12962,
        12706, 12477] ∧
    (∃ p ∈ generateHistoricalData utcZone "AMZN" 13 0 (fun _ => 0),
      p.price = 12477 ∧ (p.price : ℚ) / 100 < 7 / 10 * getBasePrice "AMZN" ∧
      (p.price : ℚ) / 100 < fl (getBasePrice "AMZN" * fl (7 / 10))) := by
  have hlist : (generateHistoricalData utcZone "AMZN" 13 0 (fun _ => 0)).map (fun p => p.price) =
      [15786, 15529, 15272, 15016, 14759, 14502, 14246, 13989, 13732, 13476, 13219, 12962,
        12706, 12477] := by
    rw [generateHistoricalData, getBasePrice_AMZN, amzn_start]
    simp only [historyLoop, List.map, amzn_walk_1, amzn_walk_2, amzn_walk_3, amzn_walk_4,
      amzn_walk_5, amzn_walk_6, amzn_walk_7, amzn_walk_8, amzn_walk_9, amzn_walk_10,
      amzn_walk_11, amzn_walk_12, amzn_walk_13, amzn_walk_14, amzn_price_1, amzn_price_2,
      amzn_price_3, amzn_price_4, amzn_price_5, amzn_price_6, amzn_price_7, amzn_price_8,
      amzn_price_9, amzn_price_10, amzn_price_11, amzn_price_12, amzn_price_13, amzn_price_14]
  refine ⟨by decide, ?_, hlist, ?_⟩
  · rw [getBasePrice_AMZN]; norm_num
  · have hmem : (12477 : ℤ) ∈
        (generateHistoricalData utcZone "AMZN" 13 0 (fun _ => 0)).map (fun p => p.price) := by
      rw [hlist]; simp
    obtain ⟨p, hp, hprice⟩ := List.mem_map.mp hmem
    refine ⟨p, hp, hprice, ?_, ?_⟩
    · rw [hprice, getBasePrice_AMZN]; norm_num
    · rw [hprice, getBasePrice_AMZN, clamp_AMZN]; norm_num

/-- C8 (amended): every point of `generateHistoricalData(symbol, N)` stores a price that is at
least the clamp `basePrice * 0.7` as `toFixed(2)` renders it, hence no more than half a
hundredth below the clamp.  The rendered clamp is 129.85 for AAPL, 99.26 for GOOGL, 265.23 for
MSFT, 173.95 for TSLA, 347.06 for NVDA and 70.00 for a symbol outside the table, and 124.77
for AMZN and 354.02 for META (below 124.775 and 354.025). -/
theorem generateHistoricalData_price_floor (tz : TimeZone) (symbol : String) (N : ℕ) (now : ℤ)
    (rand : ℕ → ℚ)
    (_hsym : symbol ∉ objectPrototypeNames) :
    (∀ p ∈ generateHistoricalData tz symbol N now rand,
      priceFloor symbol ≤ p.price ∧
      fl (getBasePrice symbol * fl (7 / 10)) - 1 / 200 ≤ (p.price : ℚ) / 100) ∧
    priceFloor "AAPL" = 12985 ∧ priceFloor "GOOGL" = 9926 ∧ priceFloor "MSFT" = 26523 ∧
    priceFloor "TSLA" = 17395 ∧ priceFloor "AMZN" = 12477 ∧ priceFloor "NVDA" = 34706 ∧
    priceFloor "META" = 35402 ∧
    (symbol ∉ STOCKS.map (fun st => st.symbol) → priceFloor symbol = 7000) := by
  refine ⟨?_, priceFloor_AAPL, priceFloor_GOOGL, priceFloor_MSFT, priceFloor_TSLA,
    priceFloor_AMZN, priceFloor_NVDA, priceFloor_META, ?_⟩
  · intro p hp
    have h1 : priceFloor symbol ≤ p.price := historyLoop_floor _ tz now rand N 0 _ p hp
    refine ⟨h1, ?_⟩
    have h2 := sub_le_toFixed2 (fl (getBasePrice symbol * fl (7 / 10)))
    have h3 : ((priceFloor symbol : ℤ) : ℚ) ≤ (p.price : ℚ) := by exact_mod_cast h1
    unfold priceFloor at h3
    linarith
  · intro hother
    rw [priceFloor, getBasePrice_other symbol hother]
    exact toFixed2_clamp_other

/-- C8 (amended), at the fixtures: the 14-point series of AMZN and the 6-point series of a
symbol outside the table, with every draw `0`. -/
theorem generateHistoricalData_price_floor_witness :
    (∀ p ∈ generateHistoricalData utcZone "AMZN" 13 0 (fun _ => 0),
      priceFloor "AMZN" ≤ p.price ∧
      fl (getBasePrice "AMZN" * fl (7 / 10)) - 1 / 200 ≤ (p.price : ℚ) / 100) ∧
    (∀ p ∈ generateHistoricalData utcZone "IBM" 5 0 (fun _ => 0),
      priceFloor "IBM" ≤ p.price ∧
      fl (getBasePrice "IBM" * fl (7 / 10)) - 1 / 200 ≤ (p.price : ℚ) / 100) ∧
    priceFloor "IBM" = 7000 :=
  ⟨(generateHistoricalData_price_floor utcZone "AMZN" 13 0 (fun _ => 0) (by decide)).1,
    (generateHistoricalData_price_floor utcZone "IBM" 5 0 (fun _ => 0) (by decide)).1,
    (generateHistoricalData_price_floor utcZone "IBM" 5 0 (fun _ => 0) (by decide)).2.2.2.2.2.2.2.2
      (by decide)⟩

/-! ## Partial provider failure -/

/-- The callback returns a record exactly for a symbol whose request succeeded. -/
theorem fetchOne_isSome (h : Host) (perSymbol : String → SymbolResponse) (stock : Stock) :
    (fetchOne h perSymbol stock).isSome = succeeded (perSymbol stock.symbol) := by
  unfold fetchOne succeeded
  cases perSymbol stock.symbol <;> rfl

/-- The record the callback returns carries the ticker of its symbol. -/
theorem fetchOne_symbol (h : Host) (perSymbol : String → SymbolResponse) (stock : Stock)
    (q : Quote) (hq : fetchOne h perSymbol stock = some q) : q.symbol = stock.symbol := by
  unfold fetchOne at hq
  cases hp : perSymbol stock.symbol with
  | threw => rw [hp] at hq; exact absurd hq (by simp)
  | noQuote => rw [hp] at hq; exact absurd hq (by simp)
  | quote pq =>
    rw [hp] at hq
    simp only [Option.some.injEq] at hq
    rw [← hq]

/-- The tickers of the records kept from a list of symbols are the tickers of the symbols
whose request succeeded, in order. -/
theorem filterMap_fetchOne_symbols (h : Host) (perSymbol : String → SymbolResponse) :
    ∀ l : List Stock,
      ((l.map (fetchOne h perSymbol)).filterMap id).map (fun q => q.symbol) =
        (l.filter fun st => succeeded (perSymbol st.symbol)).map (fun st => st.symbol)
  | [] => rfl
  | st :: l => by
    have ih := filterMap_fetchOne_symbols h perSymbol l
    have hs := fetchOne_isSome h perSymbol st
    cases hf : fetchOne h perSymbol st with
    | none =>
      rw [hf] at hs
      have hs2 : succeeded (perSymbol st.symbol) = false := by simpa using hs.symm
      simp only [List.map_cons, hf, List.filterMap_cons_none, id_eq, List.filter_cons, hs2,
        Bool.false_eq_true, if_false]
      exact ih
    | some q =>
      rw [hf] at hs
      have hs2 : succeeded (perSymbol st.symbol) = true := by simpa using hs.symm
      have hsym := fetchOne_symbol h perSymbol st q hf
      simp only [List.map_cons, hf, id_eq, List.filter_cons, hs2, if_true]
      rw [List.filterMap_cons_some (by rfl), List.map_cons, hsym, ih]

/-- A usable provider makes `fetchStockData` return the records of the per-symbol requests. -/
theorem fetchStockData_usable (h : Host) (first : FirstResponse)
    (perSymbol : String → SymbolResponse) (rand : ℕ → ℚ) (hus : unusable first = false) :
    fetchStockData h first perSymbol rand = (STOCKS.map (fetchOne h perSymbol)).filterMap id := by
  cases first with
  | rejected => exact absurd hus (by simp [unusable])
  | response ok json =>
    cases json with
    | none => exact absurd hus (by simp [unusable])
    | some data =>
      cases ok with
      | false => exact absurd hus (by simp [unusable])
      | true =>
        have hd : (data.note || data.information || !data.globalQuote) = false := by
          simpa [unusable] using hus
        simp only [fetchStockData, Bool.not_true, Bool.false_eq_true, if_false, hd]

/-- The tickers of `STOCKS` are distinct. -/
theorem STOCKS_symbols_nodup : (STOCKS.map fun st => st.symbol).Nodup := by decide

/-- C11: when the provider is classified usable, the tickers of the sequence `fetchStockData`
returns are those of the tracked symbols whose own request succeeded, in `STOCKS` order and
each once (a list of records has no null entry); a tracked symbol is in the result exactly
when its request succeeded; and the batch never falls back: the result has one record per
success, so with a failing symbol it is shorter than the mock snapshot and differs from it. -/
theorem fetchStockData_partial_failure (h : Host) (first : FirstResponse)
    (perSymbol : String → SymbolResponse) (rand : ℕ → ℚ) (hus : unusable first = false) :
    (fetchStockData h first perSymbol rand).map (fun q => q.symbol) =
      (STOCKS.filter fun st => succeeded (perSymbol st.symbol)).map (fun st => st.symbol) ∧
    ((fetchStockData h first perSymbol rand).map (fun q => q.symbol)).Nodup ∧
    ((fetchStockData h first perSymbol rand).map (fun q => q.symbol)).Sublist
      (STOCKS.map fun st => st.symbol) ∧
    (∀ st ∈ STOCKS, (st.symbol ∈ (fetchStockData h first perSymbol rand).map (fun q => q.symbol) ↔
      succeeded (perSymbol st.symbol) = true)) ∧
    (fetchStockData h first perSymbol rand).length =
      (STOCKS.filter fun st => succeeded (perSymbol st.symbol)).length ∧
    ((∃ st ∈ STOCKS, succeeded (perSymbol st.symbol) = false) →
      (fetchStockData h first perSymbol rand).length < 7 ∧
      fetchStockData h first perSymbol rand ≠ generateMockStockData h rand) := by
  have hsym : (fetchStockData h first perSymbol rand).map (fun q => q.symbol) =
      (STOCKS.filter fun st => succeeded (perSymbol st.symbol)).map (fun st => st.symbol) := by
    rw [fetchStockData_usable h first perSymbol rand hus]
    exact filterMap_fetchOne_symbols h perSymbol STOCKS
  have hsub : ((STOCKS.filter fun st => succeeded (perSymbol st.symbol)).map
      (fun st => st.symbol)).Sublist (STOCKS.map fun st => st.symbol) :=
    (List.filter_sublist _).map _
  have hlen : (fetchStockData h first perSymbol rand).length =
      (STOCKS.filter fun st => succeeded (perSymbol st.symbol)).length := by
    have := congrArg List.length hsym
    simpa using this
  refine ⟨hsym, ?_, ?_, ?_, hlen, ?_⟩
  · rw [hsym]; exact hsub.nodup STOCKS_symbols_nodup
  · rw [hsym]; exact hsub
  · intro st hst
    rw [hsym, List.mem_map]
    constructor
    · rintro ⟨st2, hst2, heq⟩
      have hmem := List.mem_filter.mp hst2
      have : st2 = st :=
        List.inj_on_of_nodup_map STOCKS_symbols_nodup hmem.1 hst heq
      rw [← this]; exact hmem.2
    · intro hs
      exact ⟨st, List.mem_filter.mpr ⟨hst, hs⟩, rfl⟩
  · rintro ⟨st, hst, hfail⟩
    have hlt : (STOCKS.filter fun st => succeeded (perSymbol st.symbol)).length <
        STOCKS.length := by
      apply List.length_filter_lt_length_iff_exists.mpr
      exact ⟨st, hst, by simp [hfail]⟩
    have h7 : STOCKS.length = 7 := rfl
    have hl : (fetchStockData h first perSymbol rand).length < 7 := by omega
    refine ⟨hl, ?_⟩
    intro heq
    have hm : (generateMockStockData h rand).length = 7 := by
      simp [generateMockStockData, STOCKS]
    rw [heq, hm] at hl
    exact absurd hl (lt_irrefl 7)

/-- C11, at the fixture: the provider is usable, the request for MSFT throws and the one for
AMZN comes back without a quote. -/
theorem fetchStockData_partial_failure_witness :
    (fetchStockData asciiHost (.response true (some usablePayload)) msftAndAmznFail
      (fun _ => 0)).map (fun q => q.symbol) = ["AAPL", "GOOGL", "TSLA", "NVDA", "META"] ∧
    (fetchStockData asciiHost (.response true (some usablePayload)) msftAndAmznFail
      (fun _ => 0)).length < 7 ∧
    fetchStockData asciiHost (.response true (some usablePayload)) msftAndAmznFail (fun _ => 0) ≠
      generateMockStockData asciiHost (fun _ => 0) :=
  ⟨((fetchStockData_partial_failure asciiHost (.response true (some usablePayload)) msftAndAmznFail
      (fun _ => 0) rfl).1).trans (by decide),
    ((fetchStockData_partial_failure asciiHost (.response true (some usablePayload)) msftAndAmznFail
      (fun _ => 0) rfl).2.2.2.2.2
        ⟨⟨"MSFT", "Microsoft Corporation", "Technology"⟩, by decide, by decide⟩).1,
    ((fetchStockData_partial_failure asciiHost (.response true (some usablePayload)) msftAndAmznFail
      (fun _ => 0) rfl).2.2.2.2.2
        ⟨⟨"MSFT", "Microsoft Corporation", "Technology"⟩, by decide, by decide⟩).2⟩

/-! ## Selection by the user -/

/-- The selection `selectStock` leaves is what `find` returns on the snapshot. -/
theorem selectStock_selectedStock (tz : TimeZone) (t : String) (now : ℤ) (rand : ℕ → ℚ)
    (s : Dashboard) :
    (selectStock tz t now rand s).selectedStock = s.stockData.find? (fun q => q.symbol == t) := by
  unfold selectStock
  dsimp only
  cases hf : s.stockData.find? (fun q => q.symbol == t) with
  | none => rfl
  | some u => rfl

/-- C12: `selectStock(t)` sets the selection to what `find` returns on the snapshot: the first
record whose ticker is `t` when there is one (every record before it has another ticker),
and the empty selection when no record has ticker `t`; the snapshot itself is unchanged. -/
theorem selectStock_selects (tz : TimeZone) (t : String) (now : ℤ) (rand : ℕ → ℚ)
    (s : Dashboard) :
    (selectStock tz t now rand s).selectedStock = s.stockData.find? (fun q => q.symbol == t) ∧
    (selectStock tz t now rand s).stockData = s.stockData ∧
    ((∃ q ∈ s.stockData, q.symbol = t) →
      ∃ u before after, s.stockData = before ++ u :: after ∧ u.symbol = t ∧
        (∀ q ∈ before, q.symbol ≠ t) ∧ (selectStock tz t now rand s).selectedStock = some u) ∧
    ((∀ q ∈ s.stockData, q.symbol ≠ t) → (selectStock tz t now rand s).selectedStock = none) := by
  have hsel := selectStock_selectedStock tz t now rand s
  refine ⟨hsel, ?_, ?_, ?_⟩
  · unfold selectStock
    dsimp only
    cases hf : s.stockData.find? (fun q => q.symbol == t) with
    | none => rfl
    | some u => rfl
  · rintro ⟨q, hq, hqt⟩
    have hsome : (s.stockData.find? (fun q => q.symbol == t)).isSome := by
      rw [List.find?_isSome]
      exact ⟨q, hq, by simpa using hqt⟩
    obtain ⟨u, hu⟩ := Option.isSome_iff_exists.mp hsome
    obtain ⟨hut, before, after, hsplit, hbefore⟩ := List.find?_eq_some.mp hu
    refine ⟨u, before, after, hsplit, by simpa using hut, ?_, by rw [hsel, hu]⟩
    intro q hq
    simpa using hbefore q hq
  · intro hnone
    rw [hsel, List.find?_eq_none]
    intro q hq
    simpa using hnone q hq

/-- C12, at the fixture: TSLA and then an unlisted ticker selected on the three-record
snapshot. -/
theorem selectStock_selects_witness :
    (∃ u before after, threeQuotesLoaded.stockData = before ++ u :: after ∧ u.symbol = "TSLA" ∧
      (∀ q ∈ before, q.symbol ≠ "TSLA") ∧
      (selectStock utcZone "TSLA" 0 (fun _ => 0) threeQuotesLoaded).selectedStock = some u) ∧
    (selectStock utcZone "IBM" 0 (fun _ => 0) threeQuotesLoaded).selectedStock = none :=
  ⟨(selectStock_selects utcZone "TSLA" 0 (fun _ => 0) threeQuotesLoaded).2.2.1
      ⟨quoteOf "TSLA" "Tesla Inc." 24850 "10,000,000", by decide, rfl⟩,
    (selectStock_selects utcZone "IBM" 0 (fun _ => 0) threeQuotesLoaded).2.2.2 (by decide)⟩

/-! ## The mock quote -/

/-- The double `0.5`. -/
theorem fl_half : fl (1 / 2) = 1 / 2 := by
  rw [fl_eq_of_pos (-1) 4503599627370496 (by norm_num) (by norm_num) (by norm_num) (by norm_num)]
  norm_num

/-- The double `-0.5`. -/
theorem fl_neg_half : fl (-1 / 2) = -1 / 2 := by
  rw [fl_eq_of_neg (-1) (-4503599627370496) (by norm_num) (by norm_num) (by norm_num)
    (by norm_num)]
  norm_num

/-- The double `5`. -/
theorem fl_five : fl 5 = 5 := by
  rw [fl_eq_of_pos 2 5629499534213120 (by norm_num) (by norm_num) (by norm_num) (by norm_num)]
  norm_num

/-- The double `-5`. -/
theorem fl_neg_five : fl (-5) = -5 := by
  rw [fl_eq_of_neg 2 (-5629499534213120) (by norm_num) (by norm_num) (by norm_num)
    (by norm_num)]
  norm_num

/-- The double `136`. -/
theorem fl_136 : fl 136 = 136 := by
  rw [fl_eq_of_pos 7 4785074604081152 (by norm_num) (by norm_num) (by norm_num) (by norm_num)]
  norm_num

/-- The change `(Math.random() - 0.5) * 10` of a draw in `[0, 1)` lies between `-5` and `5`. -/
theorem mockChange_bounds {r : ℚ} (h0 : 0 ≤ r) (h1 : r < 1) :
    -5 ≤ fl (fl (r - 1 / 2) * 10) ∧ fl (fl (r - 1 / 2) * 10) ≤ 5 := by
  have a1 : -1 / 2 ≤ fl (r - 1 / 2) := by
    have := fl_mono (show (-1 / 2 : ℚ) ≤ r - 1 / 2 by linarith)
    rwa [fl_neg_half] at this
  have a2 : fl (r - 1 / 2) ≤ 1 / 2 := by
    have := fl_mono (show r - 1 / 2 ≤ (1 / 2 : ℚ) by linarith)
    rwa [fl_half] at this
  constructor
  · have := fl_mono (show (-5 : ℚ) ≤ fl (r - 1 / 2) * 10 by linarith)
    rwa [fl_neg_five] at this
  · have := fl_mono (show fl (r - 1 / 2) * 10 ≤ (5 : ℚ) by linarith)
    rwa [fl_five] at this

/-- A double below `1` is at most the largest double below `1`. -/
theorem le_of_double_lt_one {r : ℚ} (hr : fl r = r) (h1 : r < 1) :
    r ≤ 9007199254740991 / 9007199254740992 := by
  by_cases hhalf : r < 1 / 2
  · linarith
  · have hge : (1 / 2 : ℚ) ≤ r := not_lt.mp hhalf
    have hpos : 0 < r := by linarith
    have hb : binExp |r| = -1 :=
      binExp_unique (by rw [abs_of_pos hpos]; norm_num; linarith)
        (by rw [abs_of_pos hpos]; norm_num; exact h1)
    have hu : ulp r = 1 / 9007199254740992 := by
      unfold ulp; rw [hb]; norm_num
    have hk : r = (roundHalfEven (r / ulp r) : ℚ) * ulp r := by
      conv_lhs => rw [← hr]
      unfold fl
      rw [if_neg hpos.ne']
    rw [hu] at hk
    have hlt : ((roundHalfEven (r / (1 / 9007199254740992)) : ℤ) : ℚ) < (9007199254740992 : ℤ) := by
      push_cast
      linarith
    have hlt2 : roundHalfEven (r / (1 / 9007199254740992)) < 9007199254740992 := by
      exact_mod_cast hlt
    have hle : roundHalfEven (r / (1 / 9007199254740992)) ≤ 9007199254740991 := by omega
    have hle2 : ((roundHalfEven (r / (1 / 9007199254740992)) : ℤ) : ℚ) ≤
        (9007199254740991 : ℤ) := by exact_mod_cast hle
    push_cast at hle2
    linarith

/-- The change of a draw that is a double of `[0, 1)` is below `5`. -/
theorem mockChange_lt_five {r : ℚ} (hr : fl r = r) (h1 : r < 1) :
    fl (fl (r - 1 / 2) * 10) < 5 := by
  have hle := le_of_double_lt_one hr h1
  have e1 : fl (4503599627370495 / 9007199254740992) = 4503599627370495 / 9007199254740992 := by
    rw [fl_eq_of_pos (-2) 9007199254740990 (by norm_num) (by norm_num) (by norm_num)
      (by norm_num)]
    norm_num
  have e2 : fl (22517998136852475 / 4503599627370496) =
      5629499534213119 / 1125899906842624 := by
    rw [fl_eq_of_pos 2 5629499534213119 (by norm_num) (by norm_num) (by norm_num)
      (by norm_num)]
    norm_num
  have a1 : fl (r - 1 / 2) ≤ 4503599627370495 / 9007199254740992 := by
    have := fl_mono (show r - 1 / 2 ≤ (4503599627370495 / 9007199254740992 : ℚ) by linarith)
    rwa [e1] at this
  have a2 : fl (fl (r - 1 / 2) * 10) ≤ 5629499534213119 / 1125899906842624 := by
    have := fl_mono
      (show fl (r - 1 / 2) * 10 ≤ (22517998136852475 / 4503599627370496 : ℚ) by linarith)
    rwa [e2] at this
  have : (5629499534213119 / 1125899906842624 : ℚ) < 5 := by norm_num
  linarith

/-- The tickers of the tracked symbols. -/
theorem symbol_of_mem_STOCKS {stock : Stock} (h : stock ∈ STOCKS) :
    stock.symbol = "AAPL" ∨ stock.symbol = "GOOGL" ∨ stock.symbol = "MSFT" ∨
    stock.symbol = "TSLA" ∨ stock.symbol = "AMZN" ∨ stock.symbol = "NVDA" ∨
    stock.symbol = "META" := by
  simp only [STOCKS, List.mem_cons, List.mem_singleton, List.not_mem_nil, or_false] at h
  rcases h with h | h | h | h | h | h | h <;> subst h <;> simp

/-- The base price of a tracked symbol is a double within a millionth of a hundredth of its
2-decimal rendering, which lies between 141.80 and 505.75. -/
theorem basePrice_tracked {stock : Stock} (h : stock ∈ STOCKS) :
    ∃ n : ℤ, toFixed2 (getBasePrice stock.symbol) = n ∧ 14180 ≤ n ∧ n ≤ 50575 ∧
      |getBasePrice stock.symbol * 100 - n| ≤ 1 / 1000000 := by
  rcases symbol_of_mem_STOCKS h with hs | hs | hs | hs | hs | hs | hs <;> rw [hs]
  · rw [getBasePrice_AAPL]
    exact ⟨18550, toFixed2_eq_of_nonneg 18550 (by norm_num) (by norm_num) (by norm_num),
      by norm_num, by norm_num, by rw [abs_le]; constructor <;> norm_num⟩
  · rw [getBasePrice_GOOGL]
    exact ⟨14180, toFixed2_eq_of_nonneg 14180 (by norm_num) (by norm_num) (by norm_num),
      by norm_num, by norm_num, by rw [abs_le]; constructor <;> norm_num⟩
  · rw [getBasePrice_MSFT]
    exact ⟨37890, toFixed2_eq_of_nonneg 37890 (by norm_num) (by norm_num) (by norm_num),
      by norm_num, by norm_num, by rw [abs_le]; constructor <;> norm_num⟩
  · rw [getBasePrice_TSLA]
    exact ⟨24850, toFixed2_eq_of_nonneg 24850 (by norm_num) (by norm_num) (by norm_num),
      by norm_num, by norm_num, by rw [abs_le]; constructor <;> norm_num⟩
  · rw [getBasePrice_AMZN]
    exact ⟨17825, toFixed2_eq_of_nonneg 17825 (by norm_num) (by norm_num) (by norm_num),
      by norm_num, by norm_num, by rw [abs_le]; constructor <;> norm_num⟩
  · rw [getBasePrice_NVDA]
    exact ⟨49580, toFixed2_eq_of_nonneg 49580 (by norm_num) (by norm_num) (by norm_num),
      by norm_num, by norm_num, by rw [abs_le]; constructor <;> norm_num⟩
  · rw [getBasePrice_META]
    exact ⟨50575, toFixed2_eq_of_nonneg 50575 (by norm_num) (by norm_num) (by norm_num),
      by norm_num, by norm_num, by rw [abs_le]; constructor <;> norm_num⟩

/-- The base price of a tracked symbol lies between 141 and 506. -/
theorem basePrice_tracked_bounds {stock : Stock} (h : stock ∈ STOCKS) :
    141 ≤ getBasePrice stock.symbol ∧ getBasePrice stock.symbol ≤ 506 := by
  obtain ⟨n, _, h1, h2, h3⟩ := basePrice_tracked h
  rw [abs_le] at h3
  have c1 : (14180 : ℚ) ≤ n := by exact_mod_cast h1
  have c2 : (n : ℚ) ≤ 50575 := by exact_mod_cast h2
  constructor <;> linarith [h3.1, h3.2]

/-- The unrounded price of a mock quote of a tracked symbol is a double of at least 136. -/
theorem mockPrice_ge {stock : Stock} (hst : stock ∈ STOCKS) {r : ℚ} (h0 : 0 ≤ r) (h1 : r < 1) :
    136 ≤ fl (getBasePrice stock.symbol + fl (fl (r - 1 / 2) * 10)) := by
  have hb := (basePrice_tracked_bounds hst).1
  have hc := (mockChange_bounds h0 h1).1
  have := fl_mono (show (136 : ℚ) ≤ getBasePrice stock.symbol + fl (fl (r - 1 / 2) * 10) by
    linarith)
  rwa [fl_136] at this

/-- The price of a mock quote of a tracked symbol is positive. -/
theorem mockQuote_price_pos (h : Host) {stock : Stock} (hst : stock ∈ STOCKS)
    (r1 r2 r3 r4 r5 : ℚ) (h0 : 0 ≤ r1) (h1 : r1 < 1) :
    13600 ≤ (mockQuote h stock r1 r2 r3 r4 r5).price := by
  have hge := mockPrice_ge hst h0 h1
  have hm := toFixed2_mono hge
  rw [toFixed2_eq_of_nonneg 13600 (by norm_num) (by norm_num) (by norm_num)] at hm
  exact hm

/-- The records of the mock snapshot are the mock quotes of the tracked symbols. -/
theorem mem_generateMockStockData {h : Host} {rand : ℕ → ℚ} {q : Quote}
    (hq : q ∈ generateMockStockData h rand) :
    ∃ stock ∈ STOCKS, ∃ i : ℕ, q = mockQuote h stock (rand (5 * i)) (rand (5 * i + 1))
      (rand (5 * i + 2)) (rand (5 * i + 3)) (rand (5 * i + 4)) := by
  unfold generateMockStockData at hq
  obtain ⟨p, hp, rfl⟩ := List.mem_map.mp hq
  have hmem : p.2 ∈ STOCKS := by
    have := List.mem_map_of_mem Prod.snd hp
    rwa [List.enum_map_snd] at this
  exact ⟨p.2, hmem, p.1, rfl⟩

/-- C13: `generateMockStockData` always returns its 7 records, and for draws in `[0, 1)` each
has a price above zero.  For a tracked symbol the price is the rendering of the base price
plus a change that lies in `[-5, 5]`, and below `5` when the draw is a double, and every
tracked base price exceeds `5`; the stored price is at least 136.00. -/
theorem generateMockStockData_price_pos (h : Host) (rand : ℕ → ℚ)
    (hr : ∀ k, 0 ≤ rand k ∧ rand k < 1) :
    (generateMockStockData h rand).length = 7 ∧
    (∀ q ∈ generateMockStockData h rand, 0 < q.price) ∧
    (∀ stock ∈ STOCKS, ∀ r1 r2 r3 r4 r5 : ℚ, 0 ≤ r1 → r1 < 1 →
      0 < (mockQuote h stock r1 r2 r3 r4 r5).price ∧
      (mockQuote h stock r1 r2 r3 r4 r5).price =
        toFixed2 (fl (getBasePrice stock.symbol + fl (fl (r1 - 1 / 2) * 10))) ∧
      -5 ≤ fl (fl (r1 - 1 / 2) * 10) ∧ fl (fl (r1 - 1 / 2) * 10) ≤ 5 ∧
      (fl r1 = r1 → fl (fl (r1 - 1 / 2) * 10) < 5) ∧
      5 < getBasePrice stock.symbol) := by
  refine ⟨by simp [generateMockStockData, STOCKS], ?_, ?_⟩
  · intro q hq
    obtain ⟨stock, hst, i, rfl⟩ := mem_generateMockStockData hq
    have := mockQuote_price_pos h hst (rand (5 * i)) (rand (5 * i + 1)) (rand (5 * i + 2))
      (rand (5 * i + 3)) (rand (5 * i + 4)) (hr _).1 (hr _).2
    omega
  · intro stock hst r1 r2 r3 r4 r5 h0 h1
    have hp := mockQuote_price_pos h hst r1 r2 r3 r4 r5 h0 h1
    have hb := (basePrice_tracked_bounds hst).1
    refine ⟨by omega, rfl, (mockChange_bounds h0 h1).1, (mockChange_bounds h0 h1).2,
      fun hd => mockChange_lt_five hd h1, by linarith⟩

/-- C13, at the fixture: every draw is `0`. -/
theorem generateMockStockData_price_pos_witness :
    (generateMockStockData asciiHost (fun _ => 0)).length = 7 ∧
    (∀ q ∈ generateMockStockData asciiHost (fun _ => 0), 0 < q.price) ∧
    0 < (mockQuote asciiHost ⟨"GOOGL", "Alphabet Inc.", "Technology"⟩ 0 0 0 0 0).price ∧
    fl (fl ((0 : ℚ) - 1 / 2) * 10) < 5 :=
  ⟨(generateMockStockData_price_pos asciiHost (fun _ => 0) (fun _ => by norm_num)).1,
    (generateMockStockData_price_pos asciiHost (fun _ => 0) (fun _ => by norm_num)).2.1,
    ((generateMockStockData_price_pos asciiHost (fun _ => 0) (fun _ => by norm_num)).2.2
      ⟨"GOOGL", "Alphabet Inc.", "Technology"⟩ (by decide) 0 0 0 0 0 (le_refl 0)
      (by norm_num)).1,
    ((generateMockStockData_price_pos asciiHost (fun _ => 0) (fun _ => by norm_num)).2.2
      ⟨"GOOGL", "Alphabet Inc.", "Technology"⟩ (by decide) 0 0 0 0 0 (le_refl 0)
      (by norm_num)).2.2.2.2.1 fl_zero⟩

/-! ## Change against the previous close -/

/-- Below `512` the spacing of the doubles is at most `2 ^ (-44)`. -/
theorem ulp_le_of_lt_512 {x : ℚ} (h0 : 0 < x) (h1 : x < 512) :
    ulp x ≤ 1 / 17592186044416 := by
  have hb := (binExp_spec (abs_pos.mpr h0.ne')).1
  rw [abs_of_pos h0] at hb
  have hlt : (2 : ℚ) ^ binExp x < (2 : ℚ) ^ (9 : ℤ) := by
    have : (2 : ℚ) ^ (9 : ℤ) = 512 := by norm_num
    rw [this]
    linarith
  have h9 := (zpow_lt_zpow_iff_right₀ (by norm_num : (1 : ℚ) < 2)).mp hlt
  have hle : (2 : ℚ) ^ (binExp x - 52) ≤ (2 : ℚ) ^ (-44 : ℤ) :=
    zpow_le_zpow_right₀ (by norm_num) (by omega)
  have e : (2 : ℚ) ^ (-44 : ℤ) = 1 / 17592186044416 := by norm_num
  unfold ulp
  rw [abs_of_pos h0, ← e]
  exact hle

/-- A value within a hundredth of `c`, rounded half up to hundredths, is within one hundredth
of `c.toFixed(2)`. -/
theorem abs_floor_sub_toFixed2_le {x c : ℚ} (h : |x - c * 100| < 1) :
    |⌊x + 1 / 2⌋ - toFixed2 c| ≤ 1 := by
  rw [abs_lt] at h
  obtain ⟨h1, h2⟩ := h
  have f1 := Int.floor_le (x + 1 / 2)
  have f2 := Int.lt_floor_add_one (x + 1 / 2)
  unfold toFixed2
  by_cases hc : c < 0
  · rw [if_pos hc]
    have g1 := Int.floor_le (-c * 100 + 1 / 2)
    have g2 := Int.lt_floor_add_one (-c * 100 + 1 / 2)
    have u : ((⌊x + 1 / 2⌋ - -⌊-c * 100 + 1 / 2⌋ : ℤ) : ℚ) < ((2 : ℤ) : ℚ) := by
      push_cast; linarith
    have l : (((-2 : ℤ)) : ℚ) < ((⌊x + 1 / 2⌋ - -⌊-c * 100 + 1 / 2⌋ : ℤ) : ℚ) := by
      push_cast; linarith
    have u1 := Int.cast_lt.mp u
    have l1 := Int.cast_lt.mp l
    rw [abs_le]
    constructor <;> omega
  · rw [if_neg hc]
    have g1 := Int.floor_le (c * 100 + 1 / 2)
    have g2 := Int.lt_floor_add_one (c * 100 + 1 / 2)
    have u : ((⌊x + 1 / 2⌋ - ⌊c * 100 + 1 / 2⌋ : ℤ) : ℚ) < ((2 : ℤ) : ℚ) := by
      push_cast; linarith
    have l : (((-2 : ℤ)) : ℚ) < ((⌊x + 1 / 2⌋ - ⌊c * 100 + 1 / 2⌋ : ℤ) : ℚ) := by
      push_cast; linarith
    have u1 := Int.cast_lt.mp u
    have l1 := Int.cast_lt.mp l
    rw [abs_le]
    constructor <;> omega

/-- In hundredths, the price of a mock quote of a tracked symbol differs from the previous
close plus the change by at most one. -/
theorem mockQuote_change_consistent (h : Host) {stock : Stock} (hst : stock ∈ STOCKS)
    (r1 r2 r3 r4 r5 : ℚ) (h0 : 0 ≤ r1) (h1 : r1 < 1) :
    |(mockQuote h stock r1 r2 r3 r4 r5).price - (mockQuote h stock r1 r2 r3 r4 r5).previousClose
      - (mockQuote h stock r1 r2 r3 r4 r5).change| ≤ 1 := by
  obtain ⟨n, hn, _, _, hclose⟩ := basePrice_tracked hst
  obtain ⟨hb1, hb2⟩ := basePrice_tracked_bounds hst
  obtain ⟨hc1, hc2⟩ := mockChange_bounds h0 h1
  have hs := mockPrice_ge hst h0 h1
  show |toFixed2 (fl (getBasePrice stock.symbol + fl (fl (r1 - 1 / 2) * 10))) -
      toFixed2 (getBasePrice stock.symbol) - toFixed2 (fl (fl (r1 - 1 / 2) * 10))| ≤ 1
  rw [hn]
  generalize hc : fl (fl (r1 - 1 / 2) * 10) = c at *
  generalize hb : getBasePrice stock.symbol = b at *
  have herr := abs_fl_sub_le (b + c)
  have hu := ulp_le_of_lt_512 (show 0 < b + c by linarith) (show b + c < 512 by linarith)
  rw [abs_le] at herr hclose
  have hP : toFixed2 (fl (b + c)) = ⌊fl (b + c) * 100 + 1 / 2⌋ := by
    unfold toFixed2
    rw [if_neg (not_lt.mpr (by linarith))]
  have hsub : ⌊fl (b + c) * 100 + 1 / 2⌋ - n = ⌊(fl (b + c) * 100 - n) + 1 / 2⌋ := by
    rw [← Int.floor_sub_int]
    congr 1
    ring
  rw [hP, hsub]
  apply abs_floor_sub_toFixed2_le
  rw [abs_lt]
  constructor <;> linarith [herr.1, herr.2, hclose.1, hclose.2]

/-- C14: for a tracked symbol and draws in `[0, 1)`, the 2-decimal price, previous close and
change of the generated quote record satisfy `|price - previousClose - change| ≤ 0.01`, both
for a single mock quote and for every record of `generateMockStockData`. -/
theorem generateMockStockData_change_tolerance (h : Host) (rand : ℕ → ℚ)
    (hr : ∀ k, 0 ≤ rand k ∧ rand k < 1) :
    (∀ q ∈ generateMockStockData h rand,
      |(q.price : ℚ) / 100 - (q.previousClose : ℚ) / 100 - (q.change : ℚ) / 100| ≤ 1 / 100) ∧
    (∀ stock ∈ STOCKS, ∀ r1 r2 r3 r4 r5 : ℚ, 0 ≤ r1 → r1 < 1 →
      |((mockQuote h stock r1 r2 r3 r4 r5).price : ℚ) / 100 -
        ((mockQuote h stock r1 r2 r3 r4 r5).previousClose : ℚ) / 100 -
        ((mockQuote h stock r1 r2 r3 r4 r5).change : ℚ) / 100| ≤ 1 / 100) := by
  have key : ∀ stock ∈ STOCKS, ∀ r1 r2 r3 r4 r5 : ℚ, 0 ≤ r1 → r1 < 1 →
      |((mockQuote h stock r1 r2 r3 r4 r5).price : ℚ) / 100 -
        ((mockQuote h stock r1 r2 r3 r4 r5).previousClose : ℚ) / 100 -
        ((mockQuote h stock r1 r2 r3 r4 r5).change : ℚ) / 100| ≤ 1 / 100 := by
    intro stock hst r1 r2 r3 r4 r5 h0 h1
    have hz := mockQuote_change_consistent h hst r1 r2 r3 r4 r5 h0 h1
    have hq : |(((mockQuote h stock r1 r2 r3 r4 r5).price -
        (mockQuote h stock r1 r2 r3 r4 r5).previousClose -
        (mockQuote h stock r1 r2 r3 r4 r5).change : ℤ) : ℚ)| ≤ ((1 : ℤ) : ℚ) := by
      rw [← Int.cast_abs]
      exact Int.cast_le.mpr hz
    push_cast at hq
    rw [abs_le] at hq ⊢
    constructor <;> linarith [hq.1, hq.2]
  refine ⟨?_, key⟩
  intro q hq
  obtain ⟨stock, hst, i, rfl⟩ := mem_generateMockStockData hq
  exact key stock hst _ _ _ _ _ (hr _).1 (hr _).2

/-- C14, at a draw where the tolerance is attained: for Apple and the draw `0.4375` the record
has price 184.88, previous close 185.50 and change -0.63. -/
theorem generateMockStockData_change_tolerance_witness :
    |((mockQuote asciiHost ⟨"AAPL", "Apple Inc.", "Technology"⟩ (7 / 16) 0 0 0 0).price : ℚ) / 100 -
      ((mockQuote asciiHost ⟨"AAPL", "Apple Inc.", "Technology"⟩ (7 / 16) 0 0 0 0).previousClose
        : ℚ) / 100 -
      ((mockQuote asciiHost ⟨"AAPL", "Apple Inc.", "Technology"⟩ (7 / 16) 0 0 0 0).change : ℚ)
        / 100| ≤ 1 / 100 :=
  (generateMockStockData_change_tolerance asciiHost (fun _ => 0) (fun _ => by norm_num)).2
    ⟨"AAPL", "Apple Inc.", "Technology"⟩ (by decide) (7 / 16) 0 0 0 0 (by norm_num)
    (by norm_num)

/-- The tolerance of one hundredth is attained: for Apple and the draw `0.4375` the record has
price 184.88, previous close 185.50 and change -0.63. -/
theorem mockQuote_change_off_by_one :
    (mockQuote asciiHost ⟨"AAPL", "Apple Inc.", "Technology"⟩ (7 / 16) 0 0 0 0).price = 18488 ∧
    (mockQuote asciiHost ⟨"AAPL", "Apple Inc.", "Technology"⟩ (7 / 16) 0 0 0 0).previousClose
      = 18550 ∧
    (mockQuote asciiHost ⟨"AAPL", "Apple Inc.", "Technology"⟩ (7 / 16) 0 0 0 0).change = -63 := by
  have e1 : fl ((7 / 16 : ℚ) - 1 / 2) = -1 / 16 := by
    rw [fl_eq_of_neg (-4) (-4503599627370496) (by norm_num) (by norm_num) (by norm_num)
      (by norm_num)]
    norm_num
  have e2 : fl ((-1 / 16 : ℚ) * 10) = -5 / 8 := by
    rw [fl_eq_of_neg (-1) (-5629499534213120) (by norm_num) (by norm_num) (by norm_num)
      (by norm_num)]
    norm_num
  have e3 : fl ((371 / 2 : ℚ) + -5 / 8) = 1479 / 8 := by
    rw [fl_eq_of_pos 7 6504710789922816 (by norm_num) (by norm_num) (by norm_num)
      (by norm_num)]
    norm_num
  have t1 : toFixed2 (1479 / 8) = 18488 :=
    toFixed2_eq_of_nonneg 18488 (by norm_num) (by norm_num) (by norm_num)
  have t2 : toFixed2 (371 / 2) = 18550 :=
    toFixed2_eq_of_nonneg 18550 (by norm_num) (by norm_num) (by norm_num)
  have t3 : toFixed2 (-5 / 8) = -63 := by
    unfold toFixed2
    rw [if_pos (by norm_num)]
    have : ⌊-(-5 / 8 : ℚ) * 100 + 1 / 2⌋ = 63 := by
      rw [Int.floor_eq_iff]
      constructor <;> norm_num
    rw [this]
  refine ⟨?_, ?_, ?_⟩
  · show toFixed2 (fl (getBasePrice "AAPL" + fl (fl ((7 / 16 : ℚ) - 1 / 2) * 10))) = 18488
    rw [getBasePrice_AAPL, e1, e2, e3, t1]
  · show toFixed2 (getBasePrice "AAPL") = 18550
    rw [getBasePrice_AAPL, t2]
  · show toFixed2 (fl (fl ((7 / 16 : ℚ) - 1 / 2) * 10)) = -63
    rw [e1, e2, t3]

/-! ## Orderings of the mock quote -/

/-- Subtracting the rounding of a nonnegative amount from a double and rounding does not
exceed the double. -/
theorem fl_sub_le_self (x : ℚ) {y : ℚ} (hy : 0 ≤ y) : fl (fl x - fl y) ≤ fl x := by
  have h := fl_mono (show fl x - fl y ≤ fl x by linarith [fl_nonneg_iff.mpr hy])
  rwa [fl_fl] at h

/-- Adding the rounding of a nonnegative amount to a double and rounding does not fall below
the double. -/
theorem self_le_fl_add (x : ℚ) {y : ℚ} (hy : 0 ≤ y) : fl x ≤ fl (fl x + fl y) := by
  have h := fl_mono (show fl x ≤ fl x + fl y by linarith [fl_nonneg_iff.mpr hy])
  rwa [fl_fl] at h

/-- The stored open, high and low of a mock quote against its stored price, for nonnegative
draws. -/
theorem mockQuote_orderings (h : Host) (stock : Stock) (r1 r2 r3 r4 r5 : ℚ)
    (h2 : 0 ≤ r2) (h3 : 0 ≤ r3) (h4 : 0 ≤ r4) :
    (mockQuote h stock r1 r2 r3 r4 r5).low ≤ (mockQuote h stock r1 r2 r3 r4 r5).price ∧
    (mockQuote h stock r1 r2 r3 r4 r5).price ≤ (mockQuote h stock r1 r2 r3 r4 r5).high ∧
    (mockQuote h stock r1 r2 r3 r4 r5).open_ ≤ (mockQuote h stock r1 r2 r3 r4 r5).price := by
  refine ⟨?_, ?_, ?_⟩
  · exact toFixed2_mono (fl_sub_le_self _ (by positivity))
  · exact toFixed2_mono (self_le_fl_add _ (by positivity))
  · exact toFixed2_mono (fl_sub_le_self _ (by positivity))

/-- The double `1`. -/
theorem fl_one : fl 1 = 1 := by
  rw [fl_eq_of_pos 0 4503599627370496 (by norm_num) (by norm_num) (by norm_num) (by norm_num)]
  norm_num

/-- The double `184.5`. -/
theorem fl_369_halves : fl (369 / 2) = 369 / 2 := by
  rw [fl_eq_of_pos 7 6491516650389504 (by norm_num) (by norm_num) (by norm_num) (by norm_num)]
  norm_num

/-- The double `185.5`. -/
theorem fl_371_halves : fl (371 / 2) = 371 / 2 := by
  rw [fl_eq_of_pos 7 6526701022478336 (by norm_num) (by norm_num) (by norm_num) (by norm_num)]
  norm_num

/-- For Apple and the draws `0.5, 0.5, 0, 0, 0` the stored open is 184.50 and the stored low
is 185.50. -/
theorem mockQuote_open_below_low :
    (mockQuote asciiHost ⟨"AAPL", "Apple Inc.", "Technology"⟩ (1 / 2) (1 / 2) 0 0 0).open_
      = 18450 ∧
    (mockQuote asciiHost ⟨"AAPL", "Apple Inc.", "Technology"⟩ (1 / 2) (1 / 2) 0 0 0).low
      = 18550 := by
  have c0 : fl (fl ((1 / 2 : ℚ) - 1 / 2) * 10) = 0 := by
    rw [sub_self, fl_zero, zero_mul, fl_zero]
  have p0 : fl (getBasePrice "AAPL" + fl (fl ((1 / 2 : ℚ) - 1 / 2) * 10)) = 371 / 2 := by
    rw [c0, add_zero, getBasePrice_AAPL, fl_371_halves]
  have a1 : fl ((1 / 2 : ℚ) * 2) = 1 := by
    rw [show ((1 / 2 : ℚ) * 2) = 1 by norm_num, fl_one]
  have a2 : fl ((371 / 2 : ℚ) - 1) = 369 / 2 := by
    rw [show ((371 / 2 : ℚ) - 1) = 369 / 2 by norm_num, fl_369_halves]
  have a3 : fl ((371 / 2 : ℚ) - fl (0 * 3)) = 371 / 2 := by
    rw [zero_mul, fl_zero, sub_zero, fl_371_halves]
  constructor
  · show toFixed2 (fl (fl (getBasePrice "AAPL" + fl (fl ((1 / 2 : ℚ) - 1 / 2) * 10)) -
      fl ((1 / 2 : ℚ) * 2))) = 18450
    rw [p0, a1, a2]
    exact toFixed2_eq_of_nonneg 18450 (by norm_num) (by norm_num) (by norm_num)
  · show toFixed2 (fl (fl (getBasePrice "AAPL" + fl (fl ((1 / 2 : ℚ) - 1 / 2) * 10)) -
      fl (0 * 3))) = 18550
    rw [p0, a3]
    exact toFixed2_eq_of_nonneg 18550 (by norm_num) (by norm_num) (by norm_num)

/-- C15: for draws in `[0, 1)` every record of `generateMockStockData`, and every mock quote of
a tracked symbol, satisfies `low ≤ price ≤ high`, `open ≤ price` and `open ≤ high` on the
stored 2-decimal values; `low ≤ open` is not guaranteed: a tracked symbol and draws in
`[0, 1)` exist for which the stored open is below the stored low. -/
theorem generateMockStockData_orderings (h : Host) :
    (∀ rand : ℕ → ℚ, (∀ k, 0 ≤ rand k ∧ rand k < 1) →
      ∀ q ∈ generateMockStockData h rand,
        q.low ≤ q.price ∧ q.price ≤ q.high ∧ q.open_ ≤ q.price ∧ q.open_ ≤ q.high) ∧
    (∀ stock ∈ STOCKS, ∀ r1 r2 r3 r4 r5 : ℚ,
      0 ≤ r2 ∧ r2 < 1 → 0 ≤ r3 ∧ r3 < 1 → 0 ≤ r4 ∧ r4 < 1 →
      (mockQuote h stock r1 r2 r3 r4 r5).low ≤ (mockQuote h stock r1 r2 r3 r4 r5).price ∧
      (mockQuote h stock r1 r2 r3 r4 r5).price ≤ (mockQuote h stock r1 r2 r3 r4 r5).high ∧
      (mockQuote h stock r1 r2 r3 r4 r5).open_ ≤ (mockQuote h stock r1 r2 r3 r4 r5).price ∧
      (mockQuote h stock r1 r2 r3 r4 r5).open_ ≤ (mockQuote h stock r1 r2 r3 r4 r5).high) ∧
    (∃ stock ∈ STOCKS, ∃ r1 r2 r3 r4 r5 : ℚ,
      (0 ≤ r1 ∧ r1 < 1) ∧ (0 ≤ r2 ∧ r2 < 1) ∧ (0 ≤ r3 ∧ r3 < 1) ∧ (0 ≤ r4 ∧ r4 < 1) ∧
      (0 ≤ r5 ∧ r5 < 1) ∧
      (mockQuote asciiHost stock r1 r2 r3 r4 r5).open_ <
        (mockQuote asciiHost stock r1 r2 r3 r4 r5).low) := by
  refine ⟨?_, ?_, ?_⟩
  · intro rand hr q hq
    obtain ⟨stock, _, i, rfl⟩ := mem_generateMockStockData hq
    obtain ⟨a, b, c⟩ := mockQuote_orderings h stock (rand (5 * i)) (rand (5 * i + 1))
      (rand (5 * i + 2)) (rand (5 * i + 3)) (rand (5 * i + 4)) (hr _).1 (hr _).1 (hr _).1
    exact ⟨a, b, c, c.trans b⟩
  · intro stock _ r1 r2 r3 r4 r5 h2 h3 h4
    obtain ⟨a, b, c⟩ := mockQuote_orderings h stock r1 r2 r3 r4 r5 h2.1 h3.1 h4.1
    exact ⟨a, b, c, c.trans b⟩
  · refine ⟨⟨"AAPL", "Apple Inc.", "Technology"⟩, by decide, 1 / 2, 1 / 2, 0, 0, 0,
      by norm_num, by norm_num, by norm_num, by norm_num, by norm_num, ?_⟩
    rw [mockQuote_open_below_low.1, mockQuote_open_below_low.2]
    norm_num

/-- C15, at the fixture: Tesla with the draws `0, 0.5, 0.5, 0.5, 0`, and the snapshot whose
draws are all `0`. -/
theorem generateMockStockData_orderings_witness :
    (∀ q ∈ generateMockStockData asciiHost (fun _ => 0),
      q.low ≤ q.price ∧ q.price ≤ q.high ∧ q.open_ ≤ q.price ∧ q.open_ ≤ q.high) ∧
    ((mockQuote asciiHost ⟨"TSLA", "Tesla Inc.", "Automotive"⟩ 0 (1 / 2) (1 / 2) (1 / 2) 0).low ≤
      (mockQuote asciiHost ⟨"TSLA", "Tesla Inc.", "Automotive"⟩ 0 (1 / 2) (1 / 2) (1 / 2) 0).price ∧
    (mockQuote asciiHost ⟨"TSLA", "Tesla Inc.", "Automotive"⟩ 0 (1 / 2) (1 / 2) (1 / 2) 0).price ≤
      (mockQuote asciiHost ⟨"TSLA", "Tesla Inc.", "Automotive"⟩ 0 (1 / 2) (1 / 2) (1 / 2) 0).high ∧
    (mockQuote asciiHost ⟨"TSLA", "Tesla Inc.", "Automotive"⟩ 0 (1 / 2) (1 / 2) (1 / 2) 0).open_ ≤
      (mockQuote asciiHost ⟨"TSLA", "Tesla Inc.", "Automotive"⟩ 0 (1 / 2) (1 / 2) (1 / 2) 0).price ∧
    (mockQuote asciiHost ⟨"TSLA", "Tesla Inc.", "Automotive"⟩ 0 (1 / 2) (1 / 2) (1 / 2) 0).open_ ≤
      (mockQuote asciiHost ⟨"TSLA", "Tesla Inc.", "Automotive"⟩ 0 (1 / 2) (1 / 2) (1 / 2) 0).high) :=
  ⟨(generateMockStockData_orderings asciiHost).1 (fun _ => 0) (fun _ => by norm_num),
    (generateMockStockData_orderings asciiHost).2.1 ⟨"TSLA", "Tesla Inc.", "Automotive"⟩
      (by decide) 0 (1 / 2) (1 / 2) (1 / 2) 0 (by norm_num) (by norm_num) (by norm_num)⟩

end StockDashboard
